import Mathlib

/-!
Verification of the CaraConnect wallet/escrow ledger and task lifecycle.

Shallow embedding of the core logic of the repository:
* `src/contexts/TaskContext.tsx`   — `createNewTask`, `acceptTask`, `startTask`,
  `completeTask`, `cancelTask`, `updateTaskStatus`
* `src/contexts/WalletContext.tsx` — `deposit`, `withdraw`
* `src/firebase/database.ts`       — `getWallet`, `updateWallet`, `getTask`,
  `createTransaction`, `createEscrow`, `updateEscrow`, `getEscrowsByTaskId`

Modelling conventions:
* JavaScript numbers are modelled as exact rationals (`ℚ`).
* Firestore auto-generated document ids are opaque; they are modelled as
  naturals drawn from a single fresh-id counter `DB.nextId`.
* User ids come from the external auth service and are modelled as `String`.
* Firestore collections are modelled as lists of records; a `setDoc` with
  `merge: true` on an existing document is a field-wise merge, modelled by
  mapping an update function over the list at the matching id (all call
  sites of the modelled operations target existing documents).
* A thrown JavaScript `Error` is modelled as an `Except.error` carrying a
  constructor named after the thrown message; every operation returns the
  database state reached at the point of the throw, so partial effects of a
  failed operation are observable, exactly as with Firestore writes that
  happened before an exception.
* Presentation-only fields (titles, descriptions, locations, deadlines,
  photos, server timestamps) and presentation-only side effects
  (notifications, reviews, rating recomputation, `walletUpdated` browser
  events) are omitted: they never read or write wallet, task-status,
  escrow or transaction *amount* data.
-/

namespace CaraConnect

/-- Task status (`src/firebase/schema.ts`, `Task.status`). -/
inductive TaskStatus where
  | pending
  | accepted
  | in_progress
  | completed
  | cancelled
  | disputed
deriving DecidableEq, Repr

/-- Escrow status (`src/firebase/schema.ts`, `Escrow.status`). -/
inductive EscrowStatus where
  | active
  | released
  | refunded
deriving DecidableEq, Repr

/-- Transaction type (`src/firebase/schema.ts`, `Transaction.type`). -/
inductive TxType where
  | deposit
  | withdrawal
  | task_payment
  | task_earning
  | commission
  | refund
  | escrow_hold
  | escrow_release
deriving DecidableEq, Repr

/-- Transaction status (`src/firebase/schema.ts`, `Transaction.status`). -/
inductive TxStatus where
  | pending
  | completed
  | failed
  | cancelled
deriving DecidableEq, Repr

/-- Wallet record (`src/firebase/schema.ts`, `Wallet`). -/
structure Wallet where
  id : Nat
  user_id : String
  balance : ℚ
  escrow_balance : ℚ
  total_earned : ℚ
  total_spent : ℚ
deriving DecidableEq, Repr

/-- Task record (`src/firebase/schema.ts`, `Task`); presentation fields
omitted.  `runner_id` is optional in the schema (`runner_id?: string`). -/
structure Task where
  id : Nat
  requester_id : String
  runner_id : Option String
  status : TaskStatus
  reward_amount : ℚ
  commission_amount : ℚ
  runner_amount : ℚ
  cancellation_reason : Option String
deriving DecidableEq, Repr

/-- Escrow record (`src/firebase/schema.ts`, `Escrow`).  `runner_id` is a
plain string in the schema, set to the empty string until acceptance. -/
structure Escrow where
  id : Nat
  task_id : Nat
  requester_id : String
  runner_id : String
  amount : ℚ
  commission_amount : ℚ
  status : EscrowStatus
deriving DecidableEq, Repr

/-- Transaction record (`src/firebase/schema.ts`, `Transaction`);
payment-method/reference fields omitted. -/
structure Transaction where
  id : Nat
  user_id : String
  type : TxType
  amount : ℚ
  status : TxStatus
  task_id : Option Nat
deriving DecidableEq, Repr

/-- Platform settings (`src/firebase/schema.ts`, `PlatformSettings`);
non-monetary fields omitted. -/
structure PlatformSettings where
  commission_percentage : ℚ
  minimum_task_amount : ℚ
  maximum_task_amount : ℚ
deriving DecidableEq, Repr

/-- The Firestore database state used by the core: one list per collection,
the platform-settings singleton, and the fresh-id counter standing for
Firestore auto-id generation. -/
structure DB where
  wallets : List Wallet
  tasks : List Task
  escrows : List Escrow
  transactions : List Transaction
  settings : PlatformSettings
  nextId : Nat
deriving DecidableEq, Repr

/-- The JavaScript `Error`s thrown by the modelled operations, named after
their messages in the source. -/
inductive CError where
  /-- `createNewTask`: `'WALLET_SETUP_REQUIRED'`. -/
  | walletSetupRequired
  /-- `createNewTask`: `'Insufficient wallet balance. …'`. -/
  | insufficientWalletBalance
  /-- `createNewTask`: `'Task created but payment processing failed. …'`. -/
  | paymentProcessingFailed
  /-- `updateWallet`: `'Wallet not found'`. -/
  | walletNotFound
  /-- `updateWallet`: `'Unauthorized: You can only update your own wallet'`. -/
  | unauthorizedWalletUpdate
  /-- `getTask` returned `null`: `'Task not found'`. -/
  | taskNotFound
  /-- `startTask`: `'Only the assigned runner can start this task'`. -/
  | notAssignedRunner
  /-- `deposit`/`withdraw`: `'User must be authenticated and have a wallet'`. -/
  | noWallet
  /-- `deposit`/`withdraw`: `'Amount must be greater than 0'`. -/
  | invalidAmount
  /-- `withdraw`: `'Insufficient balance'`. -/
  | insufficientBalance
deriving DecidableEq, Repr

/-- JavaScript truthiness of an optional string (`undefined` and `''` are
falsy), used for `task.runner_id` checks in the source. -/
def strTruthy : Option String → Bool
  | some s => s != ""
  | none => false

/-- `getWallet` (`database.ts`): Firestore query of the `wallets` collection
by `user_id`, returning the first matching document. -/
def getWallet (userId : String) (db : DB) : Option Wallet :=
  db.wallets.find? fun w => w.user_id == userId

/-- `getTask` (`database.ts`): lookup of a task document by id. -/
def getTask (taskId : Nat) (db : DB) : Option Task :=
  db.tasks.find? fun t => t.id == taskId

/-- `getEscrowsByTaskId` (`database.ts`): query of the `escrows` collection
by `task_id`. -/
def getEscrowsByTaskId (taskId : Nat) (db : DB) : List Escrow :=
  db.escrows.filter fun e => e.task_id == taskId

/-- A `Partial<Wallet>` update payload: only the fields the core ever
writes.  `none` means the field is absent from the payload. -/
structure WalletUpdate where
  balance : Option ℚ
  escrow_balance : Option ℚ
  total_earned : Option ℚ
  total_spent : Option ℚ
deriving DecidableEq, Repr

/-- Field-wise merge of a wallet update into a wallet document
(`setDoc(walletRef, updateData, { merge: true })`). -/
def applyWalletUpdate (w : Wallet) (u : WalletUpdate) : Wallet :=
  { w with
    balance := u.balance.getD w.balance
    escrow_balance := u.escrow_balance.getD w.escrow_balance
    total_earned := u.total_earned.getD w.total_earned
    total_spent := u.total_spent.getD w.total_spent }

/-- The write performed by `updateWallet` once its checks pass:
`setDoc(doc(db, 'wallets', walletId), updateData, { merge: true })`, i.e. a
field-wise merge into the document whose id is `walletId`. -/
def setWalletDoc (walletId : Nat) (updates : WalletUpdate) (db : DB) : DB :=
  { db with
      wallets := db.wallets.map fun w =>
        if w.id == walletId then applyWalletUpdate w updates else w }

/-- `updateWallet` (`database.ts`): fetches the wallet *of the requesting
user* (by `requestingUserId`, not by `walletId`), throws `'Wallet not
found'` when that user owns no wallet, throws `'Unauthorized: …'` when the
fetched wallet belongs to someone else, and otherwise merges the update
into the document with id `walletId`.  The source makes `requestingUserId`
optional; every call site in the core passes it, so it is required here. -/
def updateWallet (walletId : Nat) (updates : WalletUpdate)
    (requestingUserId : String) (db : DB) : DB × Except CError Unit :=
  match getWallet requestingUserId db with
  | none => (db, .error .walletNotFound)
  | some currentWallet =>
    if currentWallet.user_id ≠ requestingUserId then
      (db, .error .unauthorizedWalletUpdate)
    else
      (setWalletDoc walletId updates db, .ok ())

/-- A `Partial<Task>` update payload as used by `updateTaskStatus`: only
the fields the core ever writes besides `status` (timestamps omitted). -/
structure TaskUpdate where
  runner_id : Option String
  cancellation_reason : Option String
deriving DecidableEq, Repr

/-- Field-wise merge of `{ status, ...updates }` into a task document. -/
def applyTaskStatusUpdate (t : Task) (status : TaskStatus) (updates : TaskUpdate) :
    Task :=
  { t with
    status := status
    runner_id :=
      match updates.runner_id with
      | some r => some r
      | none => t.runner_id
    cancellation_reason :=
      match updates.cancellation_reason with
      | some c => some c
      | none => t.cancellation_reason }

/-- `updateTaskStatus` (`TaskContext.tsx`) / `updateTask` (`database.ts`):
merges `{ status, ...updates }` into the task document. -/
def updateTaskStatus (taskId : Nat) (status : TaskStatus) (updates : TaskUpdate)
    (db : DB) : DB :=
  { db with
      tasks := db.tasks.map fun t =>
        if t.id == taskId then applyTaskStatusUpdate t status updates else t }

/-- Payload of `createTransaction` (all fields the core passes). -/
structure TransactionData where
  user_id : String
  type : TxType
  amount : ℚ
  status : TxStatus
  task_id : Option Nat
deriving DecidableEq, Repr

/-- `createTransaction` (`database.ts`): appends a new transaction document
under a fresh Firestore id. -/
def createTransaction (txData : TransactionData) (db : DB) : DB × Transaction :=
  let tx : Transaction :=
    { id := db.nextId, user_id := txData.user_id, type := txData.type
      amount := txData.amount, status := txData.status, task_id := txData.task_id }
  ({ db with transactions := db.transactions ++ [tx], nextId := db.nextId + 1 }, tx)

/-- A `Partial<Transaction>` update payload (`updateTransaction` call sites
only ever set `status`). -/
structure TransactionUpdate where
  status : Option TxStatus
deriving DecidableEq, Repr

/-- Field-wise merge of a transaction update into a transaction document. -/
def applyTransactionUpdate (tx : Transaction) (updates : TransactionUpdate) :
    Transaction :=
  { tx with
    status :=
      match updates.status with
      | some s => s
      | none => tx.status }

/-- `updateTransaction` (`database.ts`): merges a status update into the
transaction document. -/
def updateTransaction (transactionId : Nat) (updates : TransactionUpdate)
    (db : DB) : DB :=
  { db with
      transactions := db.transactions.map fun tx =>
        if tx.id == transactionId then applyTransactionUpdate tx updates else tx }

/-- Payload of `createEscrow` (all fields the core passes). -/
structure EscrowData where
  task_id : Nat
  requester_id : String
  runner_id : String
  amount : ℚ
  commission_amount : ℚ
  status : EscrowStatus
deriving DecidableEq, Repr

/-- `createEscrow` (`database.ts`): appends a new escrow document under a
fresh Firestore id. -/
def createEscrow (escrowData : EscrowData) (db : DB) : DB × Escrow :=
  let e : Escrow :=
    { id := db.nextId, task_id := escrowData.task_id
      requester_id := escrowData.requester_id, runner_id := escrowData.runner_id
      amount := escrowData.amount, commission_amount := escrowData.commission_amount
      status := escrowData.status }
  ({ db with escrows := db.escrows ++ [e], nextId := db.nextId + 1 }, e)

/-- A `Partial<Escrow>` update payload (`updateEscrow` call sites only ever
set `status` and a timestamp; the timestamp is omitted). -/
structure EscrowUpdate where
  status : Option EscrowStatus
deriving DecidableEq, Repr

/-- Field-wise merge of an escrow update into an escrow document. -/
def applyEscrowUpdate (e : Escrow) (updates : EscrowUpdate) : Escrow :=
  { e with
    status :=
      match updates.status with
      | some s => s
      | none => e.status }

/-- `updateEscrow` (`database.ts`): merges a status update into the escrow
document.  No status check of any kind is performed. -/
def updateEscrow (escrowId : Nat) (updates : EscrowUpdate) (db : DB) : DB :=
  { db with
      escrows := db.escrows.map fun e =>
        if e.id == escrowId then applyEscrowUpdate e updates else e }

/-- The commission computed at task creation (`TaskContext.tsx`, line 125):
`(taskData.reward_amount * settings.commission_percentage) / 100` — exact
division, no rounding of any kind is applied. -/
def commissionAmountOf (reward commissionPercentage : ℚ) : ℚ :=
  reward * commissionPercentage / 100

/-- The runner payout computed at task creation (`TaskContext.tsx`,
line 126): `reward_amount - commissionAmount`. -/
def runnerAmountOf (reward commissionPercentage : ℚ) : ℚ :=
  reward - commissionAmountOf reward commissionPercentage

/-- The caller-supplied part of a new task (`Omit<Task, 'id' | …>`):
`createNewTask` overwrites `requester_id`, `commission_amount` and
`runner_amount`; presentation fields are omitted.  The creation form
(`TaskCreatePage.tsx`) always passes `status: 'pending'` and no runner. -/
structure TaskInput where
  status : TaskStatus
  reward_amount : ℚ
  runner_id : Option String
deriving DecidableEq, Repr

/-- `createNewTask` (`TaskContext.tsx`): checks the requester's wallet and
balance, computes the commission split, writes the task document, then —
in a `try` block whose failure is re-thrown as `'Task created but payment
processing failed…'` — debits the requester's balance into escrow, records
a `task_payment` transaction and opens an `active` escrow with an empty
`runner_id`.  `getPlatformSettings` installs defaults when the singleton is
absent, so settings are modelled as always present. -/
def createNewTask (uid : String) (taskData : TaskInput) (db : DB) :
    DB × Except CError Task :=
  let settings := db.settings
  match getWallet uid db with
  | none => (db, .error .walletSetupRequired)
  | some userWallet =>
    let totalAmount := taskData.reward_amount
    if userWallet.balance < totalAmount then
      (db, .error .insufficientWalletBalance)
    else
      let commissionAmount := commissionAmountOf taskData.reward_amount settings.commission_percentage
      let runnerAmount := runnerAmountOf taskData.reward_amount settings.commission_percentage
      let newTask : Task :=
        { id := db.nextId, requester_id := uid, runner_id := taskData.runner_id
          status := taskData.status, reward_amount := taskData.reward_amount
          commission_amount := commissionAmount, runner_amount := runnerAmount
          cancellation_reason := none }
      let db1 : DB := { db with tasks := db.tasks ++ [newTask], nextId := db.nextId + 1 }
      match updateWallet userWallet.id
          ⟨some (userWallet.balance - totalAmount),
           some (userWallet.escrow_balance + totalAmount),
           none,
           some (userWallet.total_spent + totalAmount)⟩ uid db1 with
      | (db2, Except.ok _) =>
        let db3 := (createTransaction
          ⟨uid, .task_payment, totalAmount, .completed, some newTask.id⟩ db2).1
        let db4 := (createEscrow
          ⟨newTask.id, uid, "", totalAmount, commissionAmount, .active⟩ db3).1
        (db4, .ok newTask)
      | (db2, Except.error _) => (db2, .error .paymentProcessingFailed)

/-- `acceptTask` (`TaskContext.tsx`): sets the task to `accepted` with the
given runner, re-reads the task, opens a second `active` escrow carrying
the runner id, and — when the runner owns a wallet — **adds**
`runner_amount` to the runner's `escrow_balance` (the runner's `balance` is
not touched and no funds check is performed), recording an `escrow_hold`
transaction.  A missing task or missing runner wallet is silently
skipped. -/
def acceptTask (taskId : Nat) (runnerId : String) (db : DB) :
    DB × Except CError Unit :=
  let db1 := updateTaskStatus taskId .accepted ⟨some runnerId, none⟩ db
  match getTask taskId db1 with
  | none => (db1, .ok ())
  | some task =>
    let db2 := (createEscrow
      ⟨taskId, task.requester_id, runnerId, task.reward_amount,
       task.commission_amount, .active⟩ db1).1
    match getWallet runnerId db2 with
    | none => (db2, .ok ())
    | some runnerWallet =>
      match updateWallet runnerWallet.id
          ⟨none, some (runnerWallet.escrow_balance + task.runner_amount),
           none, none⟩ runnerId db2 with
      | (db3, Except.ok _) =>
        ((createTransaction
          ⟨runnerId, .escrow_hold, task.runner_amount, .completed, some taskId⟩ db3).1,
         .ok ())
      | (db3, Except.error e) => (db3, .error e)

/-- `startTask` (`TaskContext.tsx`): only the assigned runner may start;
sets the task to `in_progress` (a pure timestamp-and-status change). -/
def startTask (uid : String) (taskId : Nat) (db : DB) : DB × Except CError Unit :=
  match getTask taskId db with
  | none => (db, .error .taskNotFound)
  | some task =>
    if task.runner_id ≠ some uid then
      (db, .error .notAssignedRunner)
    else
      (updateTaskStatus taskId .in_progress ⟨none, none⟩ db, .ok ())

/-- `completeTask` (`TaskContext.tsx`): sets the task to `completed`
(without checking its current status), and when the task has a truthy
`runner_id` and positive `runner_amount` and both wallets exist: debits the
requester's `escrow_balance` by `reward_amount` (no balance credit), credits
the runner's `balance` and `total_earned` by `runner_amount` while debiting
the runner's `escrow_balance` by `runner_amount` (both wallets are read
*before* either write), records `task_earning`/`escrow_release`
transactions, and marks the first escrow of the task `released`.  The
review/rating/notification side effects are omitted. -/
def completeTask (taskId : Nat) (db : DB) : DB × Except CError Unit :=
  match getTask taskId db with
  | none => (db, .error .taskNotFound)
  | some task =>
    let db1 := updateTaskStatus taskId .completed ⟨none, none⟩ db
    match task.runner_id with
    | none => (db1, .ok ())
    | some rid =>
      if rid ≠ "" ∧ 0 < task.runner_amount then
        match getWallet task.requester_id db1, getWallet rid db1 with
        | some requesterWallet, some runnerWallet =>
          match updateWallet requesterWallet.id
              ⟨none, some (requesterWallet.escrow_balance - task.reward_amount),
               none, none⟩ task.requester_id db1 with
          | (db2, Except.error e) => (db2, .error e)
          | (db2, Except.ok _) =>
            match updateWallet runnerWallet.id
                ⟨some (runnerWallet.balance + task.runner_amount),
                 some (runnerWallet.escrow_balance - task.runner_amount),
                 some (runnerWallet.total_earned + task.runner_amount),
                 none⟩ rid db2 with
            | (db3, Except.error e) => (db3, .error e)
            | (db3, Except.ok _) =>
              let db4 := (createTransaction
                ⟨rid, .task_earning, task.runner_amount, .completed, some taskId⟩ db3).1
              let db5 := (createTransaction
                ⟨task.requester_id, .escrow_release, task.reward_amount, .completed,
                 some taskId⟩ db4).1
              let db6 :=
                match getEscrowsByTaskId taskId db5 with
                | [] => db5
                | escrow :: _ => updateEscrow escrow.id ⟨some .released⟩ db5
              (db6, .ok ())
        | _, _ => (db1, .ok ())
      else (db1, .ok ())

/-- `cancelTask` (`TaskContext.tsx`): sets the task to `cancelled` (without
checking its current status).  Only when the task *was* `accepted` and has
a truthy `runner_id`: refunds the first escrow's full `amount` to the
requester (`balance += amount; escrow_balance -= amount`), releases the
runner's `escrow_balance` by `runner_amount` (the runner's wallet is
re-read after the requester write; no balance credit), records
`refund`/`escrow_release` transactions and marks the escrow `refunded`;
with no escrow record, only the runner release happens.  All of this sits
in a `try` block whose errors are swallowed; a missing wallet is skipped.
A task cancelled from `pending` or `in_progress` gets **no** refund. -/
def cancelTask (taskId : Nat) (reason : Option String) (db : DB) :
    DB × Except CError Unit :=
  match getTask taskId db with
  | none => (db, .error .taskNotFound)
  | some task =>
    let db1 := updateTaskStatus taskId .cancelled ⟨none, reason⟩ db
    match task.runner_id with
    | none => (db1, .ok ())
    | some rid =>
      if rid ≠ "" ∧ task.status = TaskStatus.accepted then
        match getEscrowsByTaskId taskId db1 with
        | escrow :: _ =>
          match getWallet task.requester_id db1 with
          | none => (db1, .ok ())
          | some requesterWallet =>
            let refundAmount := escrow.amount
            let db2 := (updateWallet requesterWallet.id
              ⟨some (requesterWallet.balance + refundAmount),
               some (requesterWallet.escrow_balance - refundAmount),
               none, none⟩ task.requester_id db1).1
            let db3 := (createTransaction
              ⟨task.requester_id, .refund, refundAmount, .completed, some taskId⟩ db2).1
            let db4 :=
              match getWallet rid db3 with
              | none => db3
              | some runnerWallet =>
                let dbA := (updateWallet runnerWallet.id
                  ⟨none, some (runnerWallet.escrow_balance - task.runner_amount),
                   none, none⟩ rid db3).1
                (createTransaction
                  ⟨rid, .escrow_release, task.runner_amount, .completed,
                   some taskId⟩ dbA).1
            let db5 := updateEscrow escrow.id ⟨some .refunded⟩ db4
            (db5, .ok ())
        | [] =>
          match getWallet rid db1 with
          | none => (db1, .ok ())
          | some runnerWallet =>
            let db2 := (updateWallet runnerWallet.id
              ⟨none, some (runnerWallet.escrow_balance - task.runner_amount),
               none, none⟩ rid db1).1
            ((createTransaction
              ⟨rid, .escrow_release, task.runner_amount, .completed,
               some taskId⟩ db2).1,
             .ok ())
      else (db1, .ok ())

/-- `deposit` (`WalletContext.tsx`): requires a wallet and a positive
amount, records a `pending` deposit transaction, and — the simulated
gateway callback, a `setTimeout` in the source — marks it `completed` and
credits the balance.  The callback is modelled as running synchronously. -/
def deposit (uid : String) (amount : ℚ) (db : DB) : DB × Except CError Unit :=
  match getWallet uid db with
  | none => (db, .error .noWallet)
  | some wallet =>
    if amount ≤ 0 then (db, .error .invalidAmount)
    else
      let res := createTransaction ⟨uid, .deposit, amount, .pending, none⟩ db
      let db2 := updateTransaction res.2.id ⟨some .completed⟩ res.1
      ((updateWallet wallet.id ⟨some (wallet.balance + amount), none, none, none⟩
          uid db2).1,
       .ok ())

/-- `withdraw` (`WalletContext.tsx`): requires a wallet, a positive amount
and `amount ≤ balance`, records a `pending` withdrawal transaction, and —
the simulated payout callback — marks it `completed` and debits the
balance.  The callback is modelled as running synchronously. -/
def withdraw (uid : String) (amount : ℚ) (db : DB) : DB × Except CError Unit :=
  match getWallet uid db with
  | none => (db, .error .noWallet)
  | some wallet =>
    if amount ≤ 0 then (db, .error .invalidAmount)
    else if wallet.balance < amount then (db, .error .insufficientBalance)
    else
      let res := createTransaction ⟨uid, .withdrawal, amount, .pending, none⟩ db
      let db2 := updateTransaction res.2.id ⟨some .completed⟩ res.1
      ((updateWallet wallet.id ⟨some (wallet.balance - amount), none, none, none⟩
          uid db2).1,
       .ok ())

/-! ### Verification-layer definitions

Everything below this point is specification/verification vocabulary built
*on top of* the embedded operations; it does not model further source
code. -/

/-- The task document produced by a successful `createNewTask uid taskData`
run on `db` (caller data with `requester_id` and the commission split
overwritten, under the fresh Firestore id). -/
def newTaskOf (uid : String) (td : TaskInput) (db : DB) : Task :=
  { id := db.nextId, requester_id := uid, runner_id := td.runner_id
    status := td.status, reward_amount := td.reward_amount
    commission_amount := commissionAmountOf td.reward_amount db.settings.commission_percentage
    runner_amount := runnerAmountOf td.reward_amount db.settings.commission_percentage
    cancellation_reason := none }

/-- Total money recorded in wallets: the sum over all wallets of
`balance + escrow_balance` (the quantity of the spec's conservation
property). -/
def moneySum (db : DB) : ℚ :=
  (db.wallets.map fun w => w.balance + w.escrow_balance).sum

/-- A task in one of these statuses still holds the requester's
`reward_amount` in the requester's escrow balance. -/
def taskOpenForRequester (t : Task) : Bool :=
  t.status == .pending || t.status == .accepted || t.status == .in_progress

/-- A task in one of these statuses holds the runner's anticipated
`runner_amount` in the runner's escrow balance. -/
def taskActiveForRunner (t : Task) : Bool :=
  t.status == .accepted || t.status == .in_progress

/-- The runner of a task, when its `runner_id` is truthy. -/
def runnerOf (t : Task) : Option String :=
  match t.runner_id with
  | some s => if s = "" then none else some s
  | none => none

/-- Requester-side escrow commitments of user `u` in a task list. -/
def reqHold (u : String) (ts : List Task) : ℚ :=
  ((ts.filter fun t => t.requester_id == u && taskOpenForRequester t).map
    Task.reward_amount).sum

/-- Runner-side escrow commitments of user `u` in a task list. -/
def runHold (u : String) (ts : List Task) : ℚ :=
  ((ts.filter fun t => runnerOf t == some u && taskActiveForRunner t).map
    Task.runner_amount).sum

/-- The requester-side contribution of a single task to `reqHold`. -/
def reqContrib (u : String) (t : Task) : ℚ :=
  if t.requester_id == u && taskOpenForRequester t then t.reward_amount else 0

/-- The runner-side contribution of a single task to `runHold`. -/
def runContrib (u : String) (t : Task) : ℚ :=
  if runnerOf t == some u && taskActiveForRunner t then t.runner_amount else 0

/-- The ledger invariant: well-formed ids, non-negative balances, coherent
commission splits, and every wallet's `escrow_balance` covering the escrow
commitments of the tasks that reference it. -/
structure Inv (db : DB) : Prop where
  walletIdsNodup : (db.wallets.map Wallet.id).Nodup
  walletUsersNodup : (db.wallets.map Wallet.user_id).Nodup
  taskIdsNodup : (db.tasks.map Task.id).Nodup
  taskIdLt : ∀ t ∈ db.tasks, t.id < db.nextId
  escrowTaskIdLt : ∀ e ∈ db.escrows, e.task_id < db.nextId
  balanceNonneg : ∀ w ∈ db.wallets, 0 ≤ w.balance
  taskAmounts : ∀ t ∈ db.tasks,
    0 ≤ t.commission_amount ∧ 0 ≤ t.runner_amount ∧
      t.reward_amount = t.commission_amount + t.runner_amount
  runnerNeRequester : ∀ t ∈ db.tasks, ∀ s, runnerOf t = some s → s ≠ t.requester_id
  escrowMatchesTask : ∀ e ∈ db.escrows, ∀ t ∈ db.tasks, e.task_id = t.id →
    e.amount = t.reward_amount
  escrowBacking : ∀ w ∈ db.wallets,
    reqHold w.user_id db.tasks + runHold w.user_id db.tasks ≤ w.escrow_balance
  commissionPct : 0 ≤ db.settings.commission_percentage ∧
    db.settings.commission_percentage ≤ 100

/-- One core operation, fired only in a state satisfying the documented
state-machine preconditions (§4.3 of the spec), which the code itself does
not enforce: tasks are created `pending` with a positive reward and no
runner (as the creation form guarantees), only pending tasks are accepted
and not by their requester, only accepted tasks are started, only
accepted/in-progress tasks are completed, and only non-terminal tasks are
cancelled. -/
inductive LStep : DB → DB → Prop where
  | create (uid : String) (td : TaskInput) (db : DB) :
      td.status = .pending → td.runner_id = none → 0 < td.reward_amount →
      LStep db (createNewTask uid td db).1
  | accept (taskId : Nat) (runnerId : String) (db : DB) :
      (∀ t, getTask taskId db = some t →
        t.status = .pending ∧ runnerId ≠ t.requester_id) →
      runnerId ≠ "" →
      LStep db (acceptTask taskId runnerId db).1
  | start (uid : String) (taskId : Nat) (db : DB) :
      (∀ t, getTask taskId db = some t → t.status = .accepted) →
      LStep db (startTask uid taskId db).1
  | complete (taskId : Nat) (db : DB) :
      (∀ t, getTask taskId db = some t →
        t.status = .accepted ∨ t.status = .in_progress) →
      LStep db (completeTask taskId db).1
  | cancel (taskId : Nat) (reason : Option String) (db : DB) :
      (∀ t, getTask taskId db = some t →
        t.status = .pending ∨ t.status = .accepted ∨ t.status = .in_progress) →
      LStep db (cancelTask taskId reason db).1
  | deposit (uid : String) (amount : ℚ) (db : DB) :
      LStep db (deposit uid amount db).1
  | withdraw (uid : String) (amount : ℚ) (db : DB) :
      LStep db (withdraw uid amount db).1

/-- Reachability along core operations. -/
def Reach : DB → DB → Prop :=
  Relation.ReflTransGen LStep

/-- Platform settings of the spec's running example (`commission = 10%`). -/
def sampleSettings : PlatformSettings := ⟨10, 100, 100000⟩

/-- Settings with a 100% commission (the boundary the spec's
`InvalidSettings` check still allows). -/
def fullCommissionSettings : PlatformSettings := ⟨100, 100, 100000⟩

/-- The spec scenario's requester wallet: `balance = 5000`. -/
def wReq : Wallet := ⟨0, "req", 5000, 0, 0, 0⟩

/-- The spec scenario's runner wallet: `balance = 1800`. -/
def wRun : Wallet := ⟨1, "run", 1800, 0, 0, 0⟩

/-- The spec scenario's initial state. -/
def sampleDB : DB := ⟨[wReq, wRun], [], [], [], sampleSettings, 2⟩

/-- The spec scenario's initial state under a 100% commission. -/
def fullCommissionDB : DB := ⟨[wReq, wRun], [], [], [], fullCommissionSettings, 2⟩

/-- The spec scenario's task-creation payload (`reward_amount = 2000`). -/
def sampleInput : TaskInput := ⟨.pending, 2000, none⟩

/-- Scenario state after `createNewTask` (task id 2). -/
def dbAfterCreate : DB := (createNewTask "req" sampleInput sampleDB).1

/-- Scenario state after `acceptTask` by the runner. -/
def dbAfterAccept : DB := (acceptTask 2 "run" dbAfterCreate).1

/-- Scenario state after `completeTask`. -/
def dbAfterComplete : DB := (completeTask 2 dbAfterAccept).1

/-- Scenario state after cancelling the accepted task instead. -/
def dbAfterCancel : DB := (cancelTask 2 (some "changed my mind") dbAfterAccept).1

/-- The explicit value of `dbAfterCreate`: the requester paid 2000 into
escrow, the task (commission 200 / runner 1800) and its first escrow are
live. -/
def dbAfterCreateVal : DB :=
  ⟨[⟨0, "req", 3000, 2000, 0, 2000⟩, ⟨1, "run", 1800, 0, 0, 0⟩],
   [⟨2, "req", none, .pending, 2000, 200, 1800, none⟩],
   [⟨4, 2, "req", "", 2000, 200, .active⟩],
   [⟨3, "req", .task_payment, 2000, .completed, some 2⟩],
   sampleSettings, 5⟩

/-- The explicit value of `dbAfterAccept`: the runner's balance is
untouched, their escrow shows 1800, and a second active escrow exists. -/
def dbAfterAcceptVal : DB :=
  ⟨[⟨0, "req", 3000, 2000, 0, 2000⟩, ⟨1, "run", 1800, 1800, 0, 0⟩],
   [⟨2, "req", some "run", .accepted, 2000, 200, 1800, none⟩],
   [⟨4, 2, "req", "", 2000, 200, .active⟩,
    ⟨5, 2, "req", "run", 2000, 200, .active⟩],
   [⟨3, "req", .task_payment, 2000, .completed, some 2⟩,
    ⟨6, "run", .escrow_hold, 1800, .completed, some 2⟩],
   sampleSettings, 7⟩

/-- The explicit value of `dbAfterComplete`. -/
def dbAfterCompleteVal : DB :=
  ⟨[⟨0, "req", 3000, 0, 0, 2000⟩, ⟨1, "run", 3600, 0, 1800, 0⟩],
   [⟨2, "req", some "run", .completed, 2000, 200, 1800, none⟩],
   [⟨4, 2, "req", "", 2000, 200, .released⟩,
    ⟨5, 2, "req", "run", 2000, 200, .active⟩],
   [⟨3, "req", .task_payment, 2000, .completed, some 2⟩,
    ⟨6, "run", .escrow_hold, 1800, .completed, some 2⟩,
    ⟨7, "run", .task_earning, 1800, .completed, some 2⟩,
    ⟨8, "req", .escrow_release, 2000, .completed, some 2⟩],
   sampleSettings, 9⟩

/-- The explicit value of `dbAfterCancel`. -/
def dbAfterCancelVal : DB :=
  ⟨[⟨0, "req", 5000, 0, 0, 2000⟩, ⟨1, "run", 1800, 0, 0, 0⟩],
   [⟨2, "req", some "run", .cancelled, 2000, 200, 1800,
     some "changed my mind"⟩],
   [⟨4, 2, "req", "", 2000, 200, .refunded⟩,
    ⟨5, 2, "req", "run", 2000, 200, .active⟩],
   [⟨3, "req", .task_payment, 2000, .completed, some 2⟩,
    ⟨6, "run", .escrow_hold, 1800, .completed, some 2⟩,
    ⟨7, "req", .refund, 2000, .completed, some 2⟩,
    ⟨8, "run", .escrow_release, 1800, .completed, some 2⟩],
   sampleSettings, 9⟩

/-- A runner wallet with zero balance. -/
def wRunPoor : Wallet := ⟨1, "run", 0, 0, 0, 0⟩

/-- Initial state whose runner cannot afford any stake. -/
def poorDB : DB := ⟨[wReq, wRunPoor], [], [], [], sampleSettings, 2⟩

/-- `poorDB` after the requester creates the scenario task. -/
def dbPoorAfterCreate : DB := (createNewTask "req" sampleInput poorDB).1

/-- The explicit value of `dbPoorAfterCreate`. -/
def dbPoorAfterCreateVal : DB :=
  ⟨[⟨0, "req", 3000, 2000, 0, 2000⟩, ⟨1, "run", 0, 0, 0, 0⟩],
   [⟨2, "req", none, .pending, 2000, 200, 1800, none⟩],
   [⟨4, 2, "req", "", 2000, 200, .active⟩],
   [⟨3, "req", .task_payment, 2000, .completed, some 2⟩],
   sampleSettings, 5⟩

/-- `fullCommissionDB` after task creation: commission 2000, runner
amount 0. -/
def dbFullAfterCreate : DB := (createNewTask "req" sampleInput fullCommissionDB).1

/-- The explicit value of `dbFullAfterCreate`. -/
def dbFullAfterCreateVal : DB :=
  ⟨[⟨0, "req", 3000, 2000, 0, 2000⟩, ⟨1, "run", 1800, 0, 0, 0⟩],
   [⟨2, "req", none, .pending, 2000, 2000, 0, none⟩],
   [⟨4, 2, "req", "", 2000, 2000, .active⟩],
   [⟨3, "req", .task_payment, 2000, .completed, some 2⟩],
   fullCommissionSettings, 5⟩

/-- `dbFullAfterCreate` after acceptance by the runner. -/
def dbFullAfterAccept : DB := (acceptTask 2 "run" dbFullAfterCreate).1

/-- The explicit value of `dbFullAfterAccept`. -/
def dbFullAfterAcceptVal : DB :=
  ⟨[⟨0, "req", 3000, 2000, 0, 2000⟩, ⟨1, "run", 1800, 0, 0, 0⟩],
   [⟨2, "req", some "run", .accepted, 2000, 2000, 0, none⟩],
   [⟨4, 2, "req", "", 2000, 2000, .active⟩,
    ⟨5, 2, "req", "run", 2000, 2000, .active⟩],
   [⟨3, "req", .task_payment, 2000, .completed, some 2⟩,
    ⟨6, "run", .escrow_hold, 0, .completed, some 2⟩],
   fullCommissionSettings, 7⟩

/-! ### Basic facts about the database layer -/

theorem applyWalletUpdate_id (w : Wallet) (u : WalletUpdate) :
    (applyWalletUpdate w u).id = w.id := rfl

theorem applyWalletUpdate_user_id (w : Wallet) (u : WalletUpdate) :
    (applyWalletUpdate w u).user_id = w.user_id := rfl

theorem getWallet_mem {uid : String} {db : DB} {w : Wallet}
    (h : getWallet uid db = some w) : w ∈ db.wallets :=
  List.mem_of_find?_eq_some h

theorem getWallet_user_eq {uid : String} {db : DB} {w : Wallet}
    (h : getWallet uid db = some w) : w.user_id = uid := by
  have := List.find?_some h
  simpa using this

theorem getTask_mem {taskId : Nat} {db : DB} {t : Task}
    (h : getTask taskId db = some t) : t ∈ db.tasks :=
  List.mem_of_find?_eq_some h

theorem getTask_id_eq {taskId : Nat} {db : DB} {t : Task}
    (h : getTask taskId db = some t) : t.id = taskId := by
  have := List.find?_some h
  simpa using this

/-- The ownership check inside `updateWallet` can never fire: the wallet it
checks was fetched *by the requesting user's id*, so it always belongs to
the requesting user.  When the requesting user owns a wallet, `updateWallet`
therefore always succeeds and merges the update into every wallet whose
document id is `walletId`. -/
theorem updateWallet_spec {ruid : String} {db : DB} {cw : Wallet}
    (h : getWallet ruid db = some cw) (walletId : Nat) (u : WalletUpdate) :
    updateWallet walletId u ruid db = (setWalletDoc walletId u db, .ok ()) := by
  unfold updateWallet
  rw [h]
  simp [getWallet_user_eq h]

/-- `find?` over a list transformed by a function that preserves the field
being queried. -/
theorem find?_map_preserving {α : Type} (f : α → α) (p : α → Bool)
    (hf : ∀ x, p (f x) = p x) (l : List α) :
    (l.map f).find? p = (l.find? p).map f := by
  rw [List.find?_map]
  have hpf : (p ∘ f) = p := funext fun x => hf x
  rw [hpf]

/-- Mapping a keyed update over a list with no matching key is the
identity. -/
theorem map_update_eq_self {α : Type} (key : α → Nat) (g : α → α) (k : Nat)
    (l : List α) (h : ∀ x ∈ l, key x ≠ k) :
    (l.map fun x => if key x == k then g x else x) = l := by
  induction l with
  | nil => rfl
  | cons a l ih =>
    have ha : key a ≠ k := h a (List.mem_cons_self a l)
    simp only [List.map_cons]
    rw [if_neg (by simp [ha]), ih fun x hx => h x (List.mem_cons_of_mem a hx)]

/-- Two members of a list with `Nodup` keys and equal keys are equal. -/
theorem eq_of_key_eq_of_nodup {α β : Type} (key : α → β) {l : List α}
    (hnd : (l.map key).Nodup) {a b : α} (ha : a ∈ l) (hb : b ∈ l)
    (hab : key a = key b) : a = b := by
  induction l with
  | nil => cases ha
  | cons x l ih =>
    simp only [List.map_cons, List.nodup_cons] at hnd
    rcases List.mem_cons.1 ha with rfl | ha' <;>
      rcases List.mem_cons.1 hb with rfl | hb'
    · rfl
    · refine absurd ?_ hnd.1
      rw [hab]
      exact List.mem_map_of_mem key hb'
    · refine absurd ?_ hnd.1
      rw [← hab]
      exact List.mem_map_of_mem key ha'
    · exact ih hnd.2 ha' hb'

/-- Effect of a keyed update on a filtered-and-summed list, when keys are
`Nodup`: only the matching element's contribution changes. -/
theorem sum_filter_map_update {α : Type} (key : α → Nat) (g : α → α) (k : Nat)
    (p : α → Bool) (v : α → ℚ) (l : List α) (hnd : (l.map key).Nodup)
    (t : α) (ht : t ∈ l) (hk : key t = k) :
    (((l.map fun x => if key x == k then g x else x).filter p).map v).sum
      = ((l.filter p).map v).sum
        + ((if p (g t) then v (g t) else 0) - (if p t then v t else 0)) := by
  induction l with
  | nil => cases ht
  | cons a l ih =>
    simp only [List.map_cons, List.nodup_cons] at hnd
    by_cases hak : key a = k
    · have hta : t = a := by
        rcases List.mem_cons.1 ht with rfl | ht'
        · rfl
        · refine absurd ?_ hnd.1
          rw [hak, ← hk]
          exact List.mem_map_of_mem key ht'
      subst hta
      have htail : (l.map fun x => if key x == k then g x else x) = l := by
        refine map_update_eq_self key g k l fun x hx hxk => hnd.1 ?_
        rw [hak, ← hxk]
        exact List.mem_map_of_mem key hx
      have hcond : (key t == k) = true := by simp [hak]
      simp only [List.map_cons, hcond, if_true, htail, List.filter_cons]
      by_cases hpg : p (g t) <;> by_cases hpt : p t <;>
        simp [hpg, hpt] <;> ring
    · have ht' : t ∈ l := by
        rcases List.mem_cons.1 ht with rfl | ht'
        · exact absurd hk hak
        · exact ht'
      have hcond : (key a == k) = false := by simp [hak]
      simp only [List.map_cons, hcond, Bool.false_eq_true, if_false, List.filter_cons]
      by_cases hpa : p a
      · simp only [hpa, if_true, List.map_cons, List.sum_cons]
        rw [ih hnd.2 ht']
        ring
      · simp only [hpa, Bool.false_eq_true, if_false]
        exact ih hnd.2 ht'

/-- Appending an element to a filtered-and-summed list. -/
theorem sum_filter_map_append {α : Type} (p : α → Bool) (v : α → ℚ)
    (l : List α) (t : α) :
    (((l ++ [t]).filter p).map v).sum
      = ((l.filter p).map v).sum + (if p t then v t else 0) := by
  by_cases hp : p t <;> simp [List.filter_append, List.filter_cons, hp]

/-! ### Field-preservation and state-component lemmas (all definitional) -/

theorem applyTaskStatusUpdate_id (t : Task) (st : TaskStatus) (u : TaskUpdate) :
    (applyTaskStatusUpdate t st u).id = t.id := rfl

theorem applyTaskStatusUpdate_requester_id (t : Task) (st : TaskStatus)
    (u : TaskUpdate) : (applyTaskStatusUpdate t st u).requester_id = t.requester_id :=
  rfl

theorem applyTaskStatusUpdate_reward_amount (t : Task) (st : TaskStatus)
    (u : TaskUpdate) : (applyTaskStatusUpdate t st u).reward_amount = t.reward_amount :=
  rfl

theorem applyTaskStatusUpdate_commission_amount (t : Task) (st : TaskStatus)
    (u : TaskUpdate) :
    (applyTaskStatusUpdate t st u).commission_amount = t.commission_amount := rfl

theorem applyTaskStatusUpdate_runner_amount (t : Task) (st : TaskStatus)
    (u : TaskUpdate) : (applyTaskStatusUpdate t st u).runner_amount = t.runner_amount :=
  rfl

theorem applyTaskStatusUpdate_status (t : Task) (st : TaskStatus) (u : TaskUpdate) :
    (applyTaskStatusUpdate t st u).status = st := rfl

theorem applyEscrowUpdate_id (e : Escrow) (u : EscrowUpdate) :
    (applyEscrowUpdate e u).id = e.id := rfl

theorem applyEscrowUpdate_task_id (e : Escrow) (u : EscrowUpdate) :
    (applyEscrowUpdate e u).task_id = e.task_id := rfl

theorem applyEscrowUpdate_amount (e : Escrow) (u : EscrowUpdate) :
    (applyEscrowUpdate e u).amount = e.amount := rfl

theorem getWallet_updateTaskStatus (uid : String) (taskId : Nat)
    (st : TaskStatus) (u : TaskUpdate) (db : DB) :
    getWallet uid (updateTaskStatus taskId st u db) = getWallet uid db := rfl

theorem getWallet_createEscrow (uid : String) (d : EscrowData) (db : DB) :
    getWallet uid (createEscrow d db).1 = getWallet uid db := rfl

theorem getWallet_createTransaction (uid : String) (d : TransactionData) (db : DB) :
    getWallet uid (createTransaction d db).1 = getWallet uid db := rfl

theorem getWallet_updateEscrow (uid : String) (eid : Nat) (u : EscrowUpdate)
    (db : DB) : getWallet uid (updateEscrow eid u db) = getWallet uid db := rfl

theorem getWallet_updateTransaction (uid : String) (tid : Nat)
    (u : TransactionUpdate) (db : DB) :
    getWallet uid (updateTransaction tid u db) = getWallet uid db := rfl

theorem getTask_setWalletDoc (taskId wid : Nat) (u : WalletUpdate) (db : DB) :
    getTask taskId (setWalletDoc wid u db) = getTask taskId db := rfl

theorem getTask_createEscrow (taskId : Nat) (d : EscrowData) (db : DB) :
    getTask taskId (createEscrow d db).1 = getTask taskId db := rfl

theorem getTask_createTransaction (taskId : Nat) (d : TransactionData) (db : DB) :
    getTask taskId (createTransaction d db).1 = getTask taskId db := rfl

theorem getEscrowsByTaskId_setWalletDoc (taskId wid : Nat) (u : WalletUpdate)
    (db : DB) :
    getEscrowsByTaskId taskId (setWalletDoc wid u db) = getEscrowsByTaskId taskId db :=
  rfl

theorem getEscrowsByTaskId_updateTaskStatus (taskId tid : Nat) (st : TaskStatus)
    (u : TaskUpdate) (db : DB) :
    getEscrowsByTaskId taskId (updateTaskStatus tid st u db)
      = getEscrowsByTaskId taskId db := rfl

theorem getEscrowsByTaskId_createTransaction (taskId : Nat) (d : TransactionData)
    (db : DB) :
    getEscrowsByTaskId taskId (createTransaction d db).1
      = getEscrowsByTaskId taskId db := rfl

theorem setWalletDoc_tasks (wid : Nat) (u : WalletUpdate) (db : DB) :
    (setWalletDoc wid u db).tasks = db.tasks := rfl

theorem setWalletDoc_escrows (wid : Nat) (u : WalletUpdate) (db : DB) :
    (setWalletDoc wid u db).escrows = db.escrows := rfl

theorem setWalletDoc_transactions (wid : Nat) (u : WalletUpdate) (db : DB) :
    (setWalletDoc wid u db).transactions = db.transactions := rfl

theorem setWalletDoc_settings (wid : Nat) (u : WalletUpdate) (db : DB) :
    (setWalletDoc wid u db).settings = db.settings := rfl

theorem setWalletDoc_nextId (wid : Nat) (u : WalletUpdate) (db : DB) :
    (setWalletDoc wid u db).nextId = db.nextId := rfl

theorem setWalletDoc_wallets (wid : Nat) (u : WalletUpdate) (db : DB) :
    (setWalletDoc wid u db).wallets
      = db.wallets.map fun w => if w.id == wid then applyWalletUpdate w u else w :=
  rfl

theorem updateTaskStatus_wallets (tid : Nat) (st : TaskStatus) (u : TaskUpdate)
    (db : DB) : (updateTaskStatus tid st u db).wallets = db.wallets := rfl

theorem updateTaskStatus_escrows (tid : Nat) (st : TaskStatus) (u : TaskUpdate)
    (db : DB) : (updateTaskStatus tid st u db).escrows = db.escrows := rfl

theorem updateTaskStatus_transactions (tid : Nat) (st : TaskStatus) (u : TaskUpdate)
    (db : DB) : (updateTaskStatus tid st u db).transactions = db.transactions := rfl

theorem updateTaskStatus_settings (tid : Nat) (st : TaskStatus) (u : TaskUpdate)
    (db : DB) : (updateTaskStatus tid st u db).settings = db.settings := rfl

theorem updateTaskStatus_nextId (tid : Nat) (st : TaskStatus) (u : TaskUpdate)
    (db : DB) : (updateTaskStatus tid st u db).nextId = db.nextId := rfl

theorem updateTaskStatus_tasks (tid : Nat) (st : TaskStatus) (u : TaskUpdate)
    (db : DB) :
    (updateTaskStatus tid st u db).tasks
      = db.tasks.map fun t =>
          if t.id == tid then applyTaskStatusUpdate t st u else t := rfl

theorem createEscrow_wallets (d : EscrowData) (db : DB) :
    (createEscrow d db).1.wallets = db.wallets := rfl

theorem createEscrow_tasks (d : EscrowData) (db : DB) :
    (createEscrow d db).1.tasks = db.tasks := rfl

theorem createEscrow_transactions (d : EscrowData) (db : DB) :
    (createEscrow d db).1.transactions = db.transactions := rfl

theorem createEscrow_settings (d : EscrowData) (db : DB) :
    (createEscrow d db).1.settings = db.settings := rfl

theorem createEscrow_nextId (d : EscrowData) (db : DB) :
    (createEscrow d db).1.nextId = db.nextId + 1 := rfl

theorem createEscrow_escrows (d : EscrowData) (db : DB) :
    (createEscrow d db).1.escrows
      = db.escrows ++
        [⟨db.nextId, d.task_id, d.requester_id, d.runner_id, d.amount,
          d.commission_amount, d.status⟩] := rfl

theorem createTransaction_wallets (d : TransactionData) (db : DB) :
    (createTransaction d db).1.wallets = db.wallets := rfl

theorem createTransaction_tasks (d : TransactionData) (db : DB) :
    (createTransaction d db).1.tasks = db.tasks := rfl

theorem createTransaction_escrows (d : TransactionData) (db : DB) :
    (createTransaction d db).1.escrows = db.escrows := rfl

theorem createTransaction_settings (d : TransactionData) (db : DB) :
    (createTransaction d db).1.settings = db.settings := rfl

theorem createTransaction_nextId (d : TransactionData) (db : DB) :
    (createTransaction d db).1.nextId = db.nextId + 1 := rfl

theorem updateEscrow_wallets (eid : Nat) (u : EscrowUpdate) (db : DB) :
    (updateEscrow eid u db).wallets = db.wallets := rfl

theorem updateEscrow_tasks (eid : Nat) (u : EscrowUpdate) (db : DB) :
    (updateEscrow eid u db).tasks = db.tasks := rfl

theorem updateEscrow_transactions (eid : Nat) (u : EscrowUpdate) (db : DB) :
    (updateEscrow eid u db).transactions = db.transactions := rfl

theorem updateEscrow_settings (eid : Nat) (u : EscrowUpdate) (db : DB) :
    (updateEscrow eid u db).settings = db.settings := rfl

theorem updateEscrow_nextId (eid : Nat) (u : EscrowUpdate) (db : DB) :
    (updateEscrow eid u db).nextId = db.nextId := rfl

theorem updateEscrow_escrows (eid : Nat) (u : EscrowUpdate) (db : DB) :
    (updateEscrow eid u db).escrows
      = db.escrows.map fun e => if e.id == eid then applyEscrowUpdate e u else e :=
  rfl

theorem updateTransaction_wallets (tid : Nat) (u : TransactionUpdate) (db : DB) :
    (updateTransaction tid u db).wallets = db.wallets := rfl

theorem updateTransaction_tasks (tid : Nat) (u : TransactionUpdate) (db : DB) :
    (updateTransaction tid u db).tasks = db.tasks := rfl

theorem updateTransaction_escrows (tid : Nat) (u : TransactionUpdate) (db : DB) :
    (updateTransaction tid u db).escrows = db.escrows := rfl

theorem updateTransaction_settings (tid : Nat) (u : TransactionUpdate) (db : DB) :
    (updateTransaction tid u db).settings = db.settings := rfl

theorem updateTransaction_nextId (tid : Nat) (u : TransactionUpdate) (db : DB) :
    (updateTransaction tid u db).nextId = db.nextId := rfl

/-- Looking a wallet up after a `setWalletDoc` write: the found wallet is
the previous one, merged when its document id matches. -/
theorem getWallet_setWalletDoc (uid : String) (wid : Nat) (u : WalletUpdate)
    (db : DB) :
    getWallet uid (setWalletDoc wid u db)
      = (getWallet uid db).map fun w =>
          if w.id == wid then applyWalletUpdate w u else w := by
  have hpres : ∀ x : Wallet,
      ((if x.id == wid then applyWalletUpdate x u else x).user_id == uid)
        = (x.user_id == uid) := by
    intro x
    by_cases h : (x.id == wid) = true <;> simp [h, applyWalletUpdate_user_id]
  exact find?_map_preserving _ _ hpres db.wallets

/-- Looking the task up again right after `updateTaskStatus` on the same id
returns the merged task. -/
theorem getTask_updateTaskStatus_self {taskId : Nat} {db : DB} {t : Task}
    (ht : getTask taskId db = some t) (st : TaskStatus) (u : TaskUpdate) :
    getTask taskId (updateTaskStatus taskId st u db) =
      some (applyTaskStatusUpdate t st u) := by
  have hpres : ∀ x : Task,
      ((if x.id == taskId then applyTaskStatusUpdate x st u else x).id == taskId)
        = (x.id == taskId) := by
    intro x
    by_cases h : (x.id == taskId) = true <;> simp [h, applyTaskStatusUpdate_id]
  show ((db.tasks.map fun x =>
      if x.id == taskId then applyTaskStatusUpdate x st u else x).find? fun x =>
        x.id == taskId) = _
  rw [find?_map_preserving _ _ hpres]
  rw [show List.find? (fun x => x.id == taskId) db.tasks = some t from ht]
  simp [getTask_id_eq ht]

/-- `getTask` after `updateTaskStatus` when the task does not exist. -/
theorem getTask_updateTaskStatus_none {taskId : Nat} {db : DB}
    (ht : getTask taskId db = none) (st : TaskStatus) (u : TaskUpdate) :
    getTask taskId (updateTaskStatus taskId st u db) = none := by
  have hpres : ∀ x : Task,
      ((if x.id == taskId then applyTaskStatusUpdate x st u else x).id == taskId)
        = (x.id == taskId) := by
    intro x
    by_cases h : (x.id == taskId) = true <;> simp [h, applyTaskStatusUpdate_id]
  show ((db.tasks.map fun x =>
      if x.id == taskId then applyTaskStatusUpdate x st u else x).find? fun x =>
        x.id == taskId) = _
  rw [find?_map_preserving _ _ hpres]
  rw [show List.find? (fun x => x.id == taskId) db.tasks = none from ht]
  rfl

theorem createTransaction_snd_id (d : TransactionData) (db : DB) :
    (createTransaction d db).2.id = db.nextId := rfl

/-! ### Effect lemmas: each operation's result, case by case -/

theorem createNewTask_noWallet {uid : String} {db : DB} (td : TaskInput)
    (hw : getWallet uid db = none) :
    createNewTask uid td db = (db, .error .walletSetupRequired) := by
  simp only [createNewTask, hw]

theorem createNewTask_insufficient {uid : String} {db : DB} {w : Wallet}
    (td : TaskInput) (hw : getWallet uid db = some w)
    (hb : w.balance < td.reward_amount) :
    createNewTask uid td db = (db, .error .insufficientWalletBalance) := by
  simp only [createNewTask, hw]
  rw [if_pos hb]

theorem createNewTask_ok {uid : String} {db : DB} {w : Wallet} (td : TaskInput)
    (hw : getWallet uid db = some w) (hb : ¬ w.balance < td.reward_amount) :
    createNewTask uid td db =
      ((createEscrow
          ⟨db.nextId, uid, "", td.reward_amount,
           commissionAmountOf td.reward_amount db.settings.commission_percentage,
           .active⟩
          (createTransaction
            ⟨uid, .task_payment, td.reward_amount, .completed, some db.nextId⟩
            (setWalletDoc w.id
              ⟨some (w.balance - td.reward_amount),
               some (w.escrow_balance + td.reward_amount),
               none,
               some (w.total_spent + td.reward_amount)⟩
              { db with
                  tasks := db.tasks ++ [newTaskOf uid td db],
                  nextId := db.nextId + 1 })).1).1,
       .ok (newTaskOf uid td db)) := by
  have hwT : getWallet uid
      { db with tasks := db.tasks ++ [newTaskOf uid td db], nextId := db.nextId + 1 }
      = some w := hw
  have hwf : db.wallets.find? (fun x => x.user_id == uid) = some w := hw
  have huid : w.user_id = uid := getWallet_user_eq hw
  simp only [createNewTask, updateWallet, getWallet, createTransaction,
    createEscrow, newTaskOf, setWalletDoc, hwf, huid, hb]
  simp [Prod.mk.injEq, DB.mk.injEq]

theorem acceptTask_noTask {taskId : Nat} {db : DB} (rid : String)
    (ht : getTask taskId db = none) :
    acceptTask taskId rid db =
      (updateTaskStatus taskId .accepted ⟨some rid, none⟩ db, .ok ()) := by
  have ht1 := getTask_updateTaskStatus_none ht TaskStatus.accepted ⟨some rid, none⟩
  simp only [acceptTask, ht1]

theorem acceptTask_noWallet {taskId : Nat} {db : DB} {t : Task} {rid : String}
    (ht : getTask taskId db = some t) (hw : getWallet rid db = none) :
    acceptTask taskId rid db =
      ((createEscrow
          ⟨taskId, t.requester_id, rid, t.reward_amount, t.commission_amount,
           .active⟩
          (updateTaskStatus taskId .accepted ⟨some rid, none⟩ db)).1,
       .ok ()) := by
  have ht1 := getTask_updateTaskStatus_self ht TaskStatus.accepted ⟨some rid, none⟩
  have hw2 : getWallet rid
      (createEscrow ⟨taskId, t.requester_id, rid, t.reward_amount,
        t.commission_amount, .active⟩
        (updateTaskStatus taskId .accepted ⟨some rid, none⟩ db)).1 = none := by
    rw [getWallet_createEscrow, getWallet_updateTaskStatus]
    exact hw
  simp only [acceptTask, ht1, applyTaskStatusUpdate_requester_id,
    applyTaskStatusUpdate_reward_amount, applyTaskStatusUpdate_commission_amount,
    applyTaskStatusUpdate_runner_amount, hw2]

theorem acceptTask_ok {taskId : Nat} {db : DB} {t : Task} {rid : String} {w : Wallet}
    (ht : getTask taskId db = some t) (hw : getWallet rid db = some w) :
    acceptTask taskId rid db =
      ((createTransaction ⟨rid, .escrow_hold, t.runner_amount, .completed, some taskId⟩
          (setWalletDoc w.id ⟨none, some (w.escrow_balance + t.runner_amount), none, none⟩
            (createEscrow
              ⟨taskId, t.requester_id, rid, t.reward_amount, t.commission_amount, .active⟩
              (updateTaskStatus taskId .accepted ⟨some rid, none⟩ db)).1)).1,
       .ok ()) := by
  have ht1 := getTask_updateTaskStatus_self ht TaskStatus.accepted ⟨some rid, none⟩
  have hw2 : getWallet rid
      (createEscrow ⟨taskId, t.requester_id, rid, t.reward_amount, t.commission_amount,
        .active⟩ (updateTaskStatus taskId .accepted ⟨some rid, none⟩ db)).1 = some w := by
    rw [getWallet_createEscrow, getWallet_updateTaskStatus]
    exact hw
  simp only [acceptTask, ht1, applyTaskStatusUpdate_requester_id,
    applyTaskStatusUpdate_reward_amount, applyTaskStatusUpdate_commission_amount,
    applyTaskStatusUpdate_runner_amount, hw2, updateWallet_spec hw2]

theorem startTask_noTask {taskId : Nat} {db : DB} (uid : String)
    (ht : getTask taskId db = none) :
    startTask uid taskId db = (db, .error .taskNotFound) := by
  simp only [startTask, ht]

theorem startTask_notRunner {taskId : Nat} {db : DB} {t : Task} (uid : String)
    (ht : getTask taskId db = some t) (hr : t.runner_id ≠ some uid) :
    startTask uid taskId db = (db, .error .notAssignedRunner) := by
  simp only [startTask, ht]
  rw [if_pos hr]

theorem startTask_ok {taskId : Nat} {db : DB} {t : Task} (uid : String)
    (ht : getTask taskId db = some t) (hr : t.runner_id = some uid) :
    startTask uid taskId db =
      (updateTaskStatus taskId .in_progress ⟨none, none⟩ db, .ok ()) := by
  simp only [startTask, ht]
  rw [if_neg (by simp [hr])]

theorem completeTask_noTask {taskId : Nat} {db : DB}
    (ht : getTask taskId db = none) :
    completeTask taskId db = (db, .error .taskNotFound) := by
  simp only [completeTask, ht]

theorem completeTask_noRunner {taskId : Nat} {db : DB} {t : Task}
    (ht : getTask taskId db = some t) (hrid : t.runner_id = none) :
    completeTask taskId db =
      (updateTaskStatus taskId .completed ⟨none, none⟩ db, .ok ()) := by
  simp only [completeTask, ht, hrid]

theorem completeTask_skipGuard {taskId : Nat} {db : DB} {t : Task} {rid : String}
    (ht : getTask taskId db = some t) (hrid : t.runner_id = some rid)
    (hg : ¬ (rid ≠ "" ∧ 0 < t.runner_amount)) :
    completeTask taskId db =
      (updateTaskStatus taskId .completed ⟨none, none⟩ db, .ok ()) := by
  simp only [completeTask, ht, hrid]
  rw [if_neg hg]

theorem completeTask_noRequesterWallet {taskId : Nat} {db : DB} {t : Task}
    {rid : String} (ht : getTask taskId db = some t) (hrid : t.runner_id = some rid)
    (hg : rid ≠ "" ∧ 0 < t.runner_amount)
    (hrw : getWallet t.requester_id db = none) :
    completeTask taskId db =
      (updateTaskStatus taskId .completed ⟨none, none⟩ db, .ok ()) := by
  have hrw1 : getWallet t.requester_id
      (updateTaskStatus taskId .completed ⟨none, none⟩ db) = none := by
    rw [getWallet_updateTaskStatus]; exact hrw
  simp only [completeTask, ht, hrid]
  rw [if_pos hg]
  simp only [hrw1]

theorem completeTask_noRunnerWallet {taskId : Nat} {db : DB} {t : Task}
    {rid : String} {rw : Wallet} (ht : getTask taskId db = some t)
    (hrid : t.runner_id = some rid) (hg : rid ≠ "" ∧ 0 < t.runner_amount)
    (hrw : getWallet t.requester_id db = some rw)
    (hru : getWallet rid db = none) :
    completeTask taskId db =
      (updateTaskStatus taskId .completed ⟨none, none⟩ db, .ok ()) := by
  have hrw1 : getWallet t.requester_id
      (updateTaskStatus taskId .completed ⟨none, none⟩ db) = some rw := by
    rw [getWallet_updateTaskStatus]; exact hrw
  have hru1 : getWallet rid
      (updateTaskStatus taskId .completed ⟨none, none⟩ db) = none := by
    rw [getWallet_updateTaskStatus]; exact hru
  simp only [completeTask, ht, hrid]
  rw [if_pos hg]
  simp only [hrw1, hru1]

theorem completeTask_ok {taskId : Nat} {db : DB} {t : Task} {rid : String}
    {rw uw : Wallet} (ht : getTask taskId db = some t)
    (hrid : t.runner_id = some rid) (hg : rid ≠ "" ∧ 0 < t.runner_amount)
    (hrw : getWallet t.requester_id db = some rw)
    (hru : getWallet rid db = some uw) :
    completeTask taskId db =
      ((match getEscrowsByTaskId taskId
          ((createTransaction
            ⟨t.requester_id, .escrow_release, t.reward_amount, .completed, some taskId⟩
            ((createTransaction
              ⟨rid, .task_earning, t.runner_amount, .completed, some taskId⟩
              (setWalletDoc uw.id
                ⟨some (uw.balance + t.runner_amount),
                 some (uw.escrow_balance - t.runner_amount),
                 some (uw.total_earned + t.runner_amount), none⟩
                (setWalletDoc rw.id
                  ⟨none, some (rw.escrow_balance - t.reward_amount), none, none⟩
                  (updateTaskStatus taskId .completed ⟨none, none⟩ db)))).1)).1) with
        | [] =>
          (createTransaction
            ⟨t.requester_id, .escrow_release, t.reward_amount, .completed, some taskId⟩
            ((createTransaction
              ⟨rid, .task_earning, t.runner_amount, .completed, some taskId⟩
              (setWalletDoc uw.id
                ⟨some (uw.balance + t.runner_amount),
                 some (uw.escrow_balance - t.runner_amount),
                 some (uw.total_earned + t.runner_amount), none⟩
                (setWalletDoc rw.id
                  ⟨none, some (rw.escrow_balance - t.reward_amount), none, none⟩
                  (updateTaskStatus taskId .completed ⟨none, none⟩ db)))).1)).1
        | escrow :: _ =>
          updateEscrow escrow.id ⟨some .released⟩
            ((createTransaction
              ⟨t.requester_id, .escrow_release, t.reward_amount, .completed, some taskId⟩
              ((createTransaction
                ⟨rid, .task_earning, t.runner_amount, .completed, some taskId⟩
                (setWalletDoc uw.id
                  ⟨some (uw.balance + t.runner_amount),
                   some (uw.escrow_balance - t.runner_amount),
                   some (uw.total_earned + t.runner_amount), none⟩
                  (setWalletDoc rw.id
                    ⟨none, some (rw.escrow_balance - t.reward_amount), none, none⟩
                    (updateTaskStatus taskId .completed ⟨none, none⟩ db)))).1)).1)),
       .ok ()) := by
  have hrw1 : getWallet t.requester_id
      (updateTaskStatus taskId .completed ⟨none, none⟩ db) = some rw := by
    rw [getWallet_updateTaskStatus]; exact hrw
  have hru1 : getWallet rid
      (updateTaskStatus taskId .completed ⟨none, none⟩ db) = some uw := by
    rw [getWallet_updateTaskStatus]; exact hru
  have hw2 : getWallet rid
      (setWalletDoc rw.id ⟨none, some (rw.escrow_balance - t.reward_amount), none, none⟩
        (updateTaskStatus taskId .completed ⟨none, none⟩ db))
      = some (if uw.id == rw.id then
          applyWalletUpdate uw
            ⟨none, some (rw.escrow_balance - t.reward_amount), none, none⟩
        else uw) := by
    rw [getWallet_setWalletDoc, getWallet_updateTaskStatus, hru]
    rfl
  simp only [completeTask, ht, hrid]
  rw [if_pos hg]
  simp only [hrw1, hru1, updateWallet_spec hrw1, updateWallet_spec hw2]

theorem cancelTask_noTask {taskId : Nat} {db : DB} (reason : Option String)
    (ht : getTask taskId db = none) :
    cancelTask taskId reason db = (db, .error .taskNotFound) := by
  simp only [cancelTask, ht]

theorem cancelTask_noRunner {taskId : Nat} {db : DB} {t : Task}
    (reason : Option String) (ht : getTask taskId db = some t)
    (hrid : t.runner_id = none) :
    cancelTask taskId reason db =
      (updateTaskStatus taskId .cancelled ⟨none, reason⟩ db, .ok ()) := by
  simp only [cancelTask, ht, hrid]

theorem cancelTask_skipGuard {taskId : Nat} {db : DB} {t : Task} {rid : String}
    (reason : Option String) (ht : getTask taskId db = some t)
    (hrid : t.runner_id = some rid)
    (hg : ¬ (rid ≠ "" ∧ t.status = TaskStatus.accepted)) :
    cancelTask taskId reason db =
      (updateTaskStatus taskId .cancelled ⟨none, reason⟩ db, .ok ()) := by
  simp only [cancelTask, ht, hrid]
  rw [if_neg hg]

theorem cancelTask_refund_noRequesterWallet {taskId : Nat} {db : DB} {t : Task}
    {rid : String} {escrow : Escrow} {rest : List Escrow} (reason : Option String)
    (ht : getTask taskId db = some t) (hrid : t.runner_id = some rid)
    (hg : rid ≠ "" ∧ t.status = TaskStatus.accepted)
    (hesc : getEscrowsByTaskId taskId db = escrow :: rest)
    (hrw : getWallet t.requester_id db = none) :
    cancelTask taskId reason db =
      (updateTaskStatus taskId .cancelled ⟨none, reason⟩ db, .ok ()) := by
  have hesc1 : getEscrowsByTaskId taskId
      (updateTaskStatus taskId .cancelled ⟨none, reason⟩ db) = escrow :: rest := by
    rw [getEscrowsByTaskId_updateTaskStatus]; exact hesc
  have hrw1 : getWallet t.requester_id
      (updateTaskStatus taskId .cancelled ⟨none, reason⟩ db) = none := by
    rw [getWallet_updateTaskStatus]; exact hrw
  simp only [cancelTask, ht, hrid]
  rw [if_pos hg]
  simp only [hesc1, hrw1]

theorem cancelTask_refund_noRunnerWallet {taskId : Nat} {db : DB} {t : Task}
    {rid : String} {escrow : Escrow} {rest : List Escrow} {rw : Wallet}
    (reason : Option String)
    (ht : getTask taskId db = some t) (hrid : t.runner_id = some rid)
    (hg : rid ≠ "" ∧ t.status = TaskStatus.accepted)
    (hesc : getEscrowsByTaskId taskId db = escrow :: rest)
    (hrw : getWallet t.requester_id db = some rw)
    (hru : getWallet rid db = none) :
    cancelTask taskId reason db =
      (updateEscrow escrow.id ⟨some .refunded⟩
        ((createTransaction
          ⟨t.requester_id, .refund, escrow.amount, .completed, some taskId⟩
          (setWalletDoc rw.id
            ⟨some (rw.balance + escrow.amount),
             some (rw.escrow_balance - escrow.amount), none, none⟩
            (updateTaskStatus taskId .cancelled ⟨none, reason⟩ db))).1),
       .ok ()) := by
  have hesc1 : getEscrowsByTaskId taskId
      (updateTaskStatus taskId .cancelled ⟨none, reason⟩ db) = escrow :: rest := by
    rw [getEscrowsByTaskId_updateTaskStatus]; exact hesc
  have hrw1 : getWallet t.requester_id
      (updateTaskStatus taskId .cancelled ⟨none, reason⟩ db) = some rw := by
    rw [getWallet_updateTaskStatus]; exact hrw
  have hru3 : getWallet rid
      ((createTransaction
        ⟨t.requester_id, .refund, escrow.amount, .completed, some taskId⟩
        (setWalletDoc rw.id
          ⟨some (rw.balance + escrow.amount),
           some (rw.escrow_balance - escrow.amount), none, none⟩
          (updateTaskStatus taskId .cancelled ⟨none, reason⟩ db))).1) = none := by
    rw [getWallet_createTransaction, getWallet_setWalletDoc,
      getWallet_updateTaskStatus, hru]
    rfl
  simp only [cancelTask, ht, hrid]
  rw [if_pos hg]
  simp only [hesc1, hrw1, updateWallet_spec hrw1, hru3]

theorem cancelTask_refund_ok {taskId : Nat} {db : DB} {t : Task}
    {rid : String} {escrow : Escrow} {rest : List Escrow} {rw uw : Wallet}
    (reason : Option String)
    (ht : getTask taskId db = some t) (hrid : t.runner_id = some rid)
    (hg : rid ≠ "" ∧ t.status = TaskStatus.accepted)
    (hesc : getEscrowsByTaskId taskId db = escrow :: rest)
    (hrw : getWallet t.requester_id db = some rw)
    (hru : getWallet rid db = some uw) (hne : (uw.id == rw.id) = false) :
    cancelTask taskId reason db =
      (updateEscrow escrow.id ⟨some .refunded⟩
        ((createTransaction
          ⟨rid, .escrow_release, t.runner_amount, .completed, some taskId⟩
          (setWalletDoc uw.id
            ⟨none, some (uw.escrow_balance - t.runner_amount), none, none⟩
            ((createTransaction
              ⟨t.requester_id, .refund, escrow.amount, .completed, some taskId⟩
              (setWalletDoc rw.id
                ⟨some (rw.balance + escrow.amount),
                 some (rw.escrow_balance - escrow.amount), none, none⟩
                (updateTaskStatus taskId .cancelled ⟨none, reason⟩ db))).1))).1),
       .ok ()) := by
  have hesc1 : getEscrowsByTaskId taskId
      (updateTaskStatus taskId .cancelled ⟨none, reason⟩ db) = escrow :: rest := by
    rw [getEscrowsByTaskId_updateTaskStatus]; exact hesc
  have hrw1 : getWallet t.requester_id
      (updateTaskStatus taskId .cancelled ⟨none, reason⟩ db) = some rw := by
    rw [getWallet_updateTaskStatus]; exact hrw
  have hru3 : getWallet rid
      ((createTransaction
        ⟨t.requester_id, .refund, escrow.amount, .completed, some taskId⟩
        (setWalletDoc rw.id
          ⟨some (rw.balance + escrow.amount),
           some (rw.escrow_balance - escrow.amount), none, none⟩
          (updateTaskStatus taskId .cancelled ⟨none, reason⟩ db))).1) = some uw := by
    rw [getWallet_createTransaction, getWallet_setWalletDoc,
      getWallet_updateTaskStatus, hru]
    have hcond : ¬ ((uw.id == rw.id) = true) := by simp [hne]
    show some (if (uw.id == rw.id) = true then _ else uw) = some uw
    rw [if_neg hcond]
  simp only [cancelTask, ht, hrid]
  rw [if_pos hg]
  simp only [hesc1, hrw1, updateWallet_spec hrw1, hru3, updateWallet_spec hru3]

theorem cancelTask_noEscrow_noWallet {taskId : Nat} {db : DB} {t : Task}
    {rid : String} (reason : Option String)
    (ht : getTask taskId db = some t) (hrid : t.runner_id = some rid)
    (hg : rid ≠ "" ∧ t.status = TaskStatus.accepted)
    (hesc : getEscrowsByTaskId taskId db = [])
    (hru : getWallet rid db = none) :
    cancelTask taskId reason db =
      (updateTaskStatus taskId .cancelled ⟨none, reason⟩ db, .ok ()) := by
  have hesc1 : getEscrowsByTaskId taskId
      (updateTaskStatus taskId .cancelled ⟨none, reason⟩ db) = [] := by
    rw [getEscrowsByTaskId_updateTaskStatus]; exact hesc
  have hru1 : getWallet rid
      (updateTaskStatus taskId .cancelled ⟨none, reason⟩ db) = none := by
    rw [getWallet_updateTaskStatus]; exact hru
  simp only [cancelTask, ht, hrid]
  rw [if_pos hg]
  simp only [hesc1, hru1]

theorem cancelTask_noEscrow_release {taskId : Nat} {db : DB} {t : Task}
    {rid : String} {uw : Wallet} (reason : Option String)
    (ht : getTask taskId db = some t) (hrid : t.runner_id = some rid)
    (hg : rid ≠ "" ∧ t.status = TaskStatus.accepted)
    (hesc : getEscrowsByTaskId taskId db = [])
    (hru : getWallet rid db = some uw) :
    cancelTask taskId reason db =
      ((createTransaction
          ⟨rid, .escrow_release, t.runner_amount, .completed, some taskId⟩
          (setWalletDoc uw.id
            ⟨none, some (uw.escrow_balance - t.runner_amount), none, none⟩
            (updateTaskStatus taskId .cancelled ⟨none, reason⟩ db))).1,
       .ok ()) := by
  have hesc1 : getEscrowsByTaskId taskId
      (updateTaskStatus taskId .cancelled ⟨none, reason⟩ db) = [] := by
    rw [getEscrowsByTaskId_updateTaskStatus]; exact hesc
  have hru1 : getWallet rid
      (updateTaskStatus taskId .cancelled ⟨none, reason⟩ db) = some uw := by
    rw [getWallet_updateTaskStatus]; exact hru
  simp only [cancelTask, ht, hrid]
  rw [if_pos hg]
  simp only [hesc1, hru1, updateWallet_spec hru1]

theorem deposit_noWallet {uid : String} {db : DB} (amount : ℚ)
    (hw : getWallet uid db = none) :
    deposit uid amount db = (db, .error .noWallet) := by
  simp only [deposit, hw]

theorem deposit_invalidAmount {uid : String} {db : DB} {w : Wallet} (amount : ℚ)
    (hw : getWallet uid db = some w) (ha : amount ≤ 0) :
    deposit uid amount db = (db, .error .invalidAmount) := by
  simp only [deposit, hw]
  rw [if_pos ha]

theorem deposit_ok {uid : String} {db : DB} {w : Wallet} (amount : ℚ)
    (hw : getWallet uid db = some w) (ha : ¬ amount ≤ 0) :
    deposit uid amount db =
      (setWalletDoc w.id ⟨some (w.balance + amount), none, none, none⟩
        (updateTransaction db.nextId ⟨some .completed⟩
          (createTransaction ⟨uid, .deposit, amount, .pending, none⟩ db).1),
       .ok ()) := by
  have hw2 : getWallet uid
      (updateTransaction db.nextId ⟨some .completed⟩
        (createTransaction ⟨uid, .deposit, amount, .pending, none⟩ db).1)
      = some w := by
    rw [getWallet_updateTransaction, getWallet_createTransaction]; exact hw
  simp only [deposit, hw, createTransaction_snd_id]
  rw [if_neg ha]
  simp only [createTransaction_snd_id, updateWallet_spec hw2]

theorem withdraw_noWallet {uid : String} {db : DB} (amount : ℚ)
    (hw : getWallet uid db = none) :
    withdraw uid amount db = (db, .error .noWallet) := by
  simp only [withdraw, hw]

theorem withdraw_invalidAmount {uid : String} {db : DB} {w : Wallet} (amount : ℚ)
    (hw : getWallet uid db = some w) (ha : amount ≤ 0) :
    withdraw uid amount db = (db, .error .invalidAmount) := by
  simp only [withdraw, hw]
  rw [if_pos ha]

theorem withdraw_insufficient {uid : String} {db : DB} {w : Wallet} (amount : ℚ)
    (hw : getWallet uid db = some w) (ha : ¬ amount ≤ 0)
    (hb : w.balance < amount) :
    withdraw uid amount db = (db, .error .insufficientBalance) := by
  simp only [withdraw, hw]
  rw [if_neg ha, if_pos hb]

theorem withdraw_ok {uid : String} {db : DB} {w : Wallet} (amount : ℚ)
    (hw : getWallet uid db = some w) (ha : ¬ amount ≤ 0)
    (hb : ¬ w.balance < amount) :
    withdraw uid amount db =
      (setWalletDoc w.id ⟨some (w.balance - amount), none, none, none⟩
        (updateTransaction db.nextId ⟨some .completed⟩
          (createTransaction ⟨uid, .withdrawal, amount, .pending, none⟩ db).1),
       .ok ()) := by
  have hw2 : getWallet uid
      (updateTransaction db.nextId ⟨some .completed⟩
        (createTransaction ⟨uid, .withdrawal, amount, .pending, none⟩ db).1)
      = some w := by
    rw [getWallet_updateTransaction, getWallet_createTransaction]; exact hw
  simp only [withdraw, hw, createTransaction_snd_id]
  rw [if_neg ha, if_neg hb]
  simp only [createTransaction_snd_id, updateWallet_spec hw2]

theorem beq_symm_false {a b : Nat} (h : (a == b) = false) : (b == a) = false := by
  simp only [beq_eq_false_iff_ne] at h ⊢
  exact fun hb => h hb.symm

/-- A successful full payout returns no error. -/
theorem completeTask_payout_ok {taskId : Nat} {db : DB} {t : Task} {rid : String}
    {rw uw : Wallet} (ht : getTask taskId db = some t)
    (hrid : t.runner_id = some rid) (hrne : rid ≠ "") (hra : 0 < t.runner_amount)
    (hrw : getWallet t.requester_id db = some rw)
    (hru : getWallet rid db = some uw) :
    (completeTask taskId db).2 = Except.ok () := by
  rw [completeTask_ok ht hrid ⟨hrne, hra⟩ hrw hru]

/-- After a full payout the requester's wallet lost `reward_amount` from
escrow and nothing else changed. -/
theorem completeTask_payout_requester {taskId : Nat} {db : DB} {t : Task}
    {rid : String} {rw uw : Wallet} (ht : getTask taskId db = some t)
    (hrid : t.runner_id = some rid) (hrne : rid ≠ "") (hra : 0 < t.runner_amount)
    (hrw : getWallet t.requester_id db = some rw)
    (hru : getWallet rid db = some uw) (hne : (uw.id == rw.id) = false) :
    getWallet t.requester_id (completeTask taskId db).1 =
      some { rw with escrow_balance := rw.escrow_balance - t.reward_amount } := by
  have hne2 : (rw.id == uw.id) = false := beq_symm_false hne
  rw [completeTask_ok ht hrid ⟨hrne, hra⟩ hrw hru]
  dsimp only
  split
  all_goals
    first
      | rw [getWallet_updateEscrow, getWallet_createTransaction,
          getWallet_createTransaction, getWallet_setWalletDoc,
          getWallet_setWalletDoc, getWallet_updateTaskStatus, hrw]
      | rw [getWallet_createTransaction, getWallet_createTransaction,
          getWallet_setWalletDoc, getWallet_setWalletDoc,
          getWallet_updateTaskStatus, hrw]
  all_goals
    simp only [Option.map_some', beq_self_eq_true, if_true, applyWalletUpdate_id,
      hne2, Bool.false_eq_true, if_false]
    rfl

/-- After a full payout the runner's wallet gained `runner_amount` in
balance and lifetime earnings and lost it from escrow. -/
theorem completeTask_payout_runner {taskId : Nat} {db : DB} {t : Task}
    {rid : String} {rw uw : Wallet} (ht : getTask taskId db = some t)
    (hrid : t.runner_id = some rid) (hrne : rid ≠ "") (hra : 0 < t.runner_amount)
    (hrw : getWallet t.requester_id db = some rw)
    (hru : getWallet rid db = some uw) (hne : (uw.id == rw.id) = false) :
    getWallet rid (completeTask taskId db).1 =
      some { uw with
              balance := uw.balance + t.runner_amount,
              escrow_balance := uw.escrow_balance - t.runner_amount,
              total_earned := uw.total_earned + t.runner_amount } := by
  rw [completeTask_ok ht hrid ⟨hrne, hra⟩ hrw hru]
  dsimp only
  split
  all_goals
    first
      | rw [getWallet_updateEscrow, getWallet_createTransaction,
          getWallet_createTransaction, getWallet_setWalletDoc,
          getWallet_setWalletDoc, getWallet_updateTaskStatus, hru]
      | rw [getWallet_createTransaction, getWallet_createTransaction,
          getWallet_setWalletDoc, getWallet_setWalletDoc,
          getWallet_updateTaskStatus, hru]
  all_goals
    simp only [Option.map_some', hne, Bool.false_eq_true, if_false,
      beq_self_eq_true, if_true]
    rfl

/-! ### Evaluation of the running scenario -/

theorem strbeq_req_run : ("req" == "run") = false := rfl

theorem strbeq_run_run : ("run" == "run") = true := rfl

theorem strbeq_req_req : ("req" == "req") = true := rfl

theorem strbeq_run_req : ("run" == "req") = false := rfl

theorem strne_req_run : "req" ≠ "run" := by decide

theorem strne_run_req : "run" ≠ "req" := by decide

theorem strne_run_empty : "run" ≠ "" := by decide

theorem strne_req_empty : "req" ≠ "" := by decide

theorem dbAfterCreate_eq : dbAfterCreate = dbAfterCreateVal := by
  norm_num [dbAfterCreate, sampleDB, sampleInput, sampleSettings, wReq, wRun,
    dbAfterCreateVal, createNewTask, getWallet, updateWallet, setWalletDoc,
    applyWalletUpdate, createTransaction, createEscrow, commissionAmountOf,
    runnerAmountOf, List.find?, strbeq_req_run, strbeq_run_run, strbeq_req_req,
    strbeq_run_req, strne_req_run, strne_run_req, strne_run_empty, strne_req_empty]

theorem dbAfterAccept_eq : dbAfterAccept = dbAfterAcceptVal := by
  rw [dbAfterAccept, dbAfterCreate_eq]
  norm_num [dbAfterCreateVal, dbAfterAcceptVal, sampleSettings, acceptTask,
    getTask, getWallet, updateWallet, setWalletDoc, applyWalletUpdate,
    updateTaskStatus, applyTaskStatusUpdate, createTransaction, createEscrow,
    List.find?, strbeq_req_run, strbeq_run_run, strbeq_req_req,
    strbeq_run_req, strne_req_run, strne_run_req, strne_run_empty, strne_req_empty]

theorem dbAfterComplete_eq : dbAfterComplete = dbAfterCompleteVal := by
  rw [dbAfterComplete, dbAfterAccept_eq]
  norm_num [dbAfterAcceptVal, dbAfterCompleteVal, sampleSettings, completeTask,
    getTask, getWallet, updateWallet, setWalletDoc, applyWalletUpdate,
    updateTaskStatus, applyTaskStatusUpdate, createTransaction, createEscrow,
    getEscrowsByTaskId, updateEscrow, applyEscrowUpdate, List.find?, List.filter,
    strbeq_req_run, strbeq_run_run, strbeq_req_req,
    strbeq_run_req, strne_req_run, strne_run_req, strne_run_empty, strne_req_empty]

theorem dbAfterCancel_eq : dbAfterCancel = dbAfterCancelVal := by
  rw [dbAfterCancel, dbAfterAccept_eq]
  norm_num [dbAfterAcceptVal, dbAfterCancelVal, sampleSettings, cancelTask,
    getTask, getWallet, updateWallet, setWalletDoc, applyWalletUpdate,
    updateTaskStatus, applyTaskStatusUpdate, createTransaction, createEscrow,
    getEscrowsByTaskId, updateEscrow, applyEscrowUpdate, List.find?, List.filter,
    strbeq_req_run, strbeq_run_run, strbeq_req_req,
    strbeq_run_req, strne_req_run, strne_run_req, strne_run_empty, strne_req_empty]

theorem dbPoorAfterCreate_eq : dbPoorAfterCreate = dbPoorAfterCreateVal := by
  norm_num [dbPoorAfterCreate, poorDB, sampleInput, sampleSettings, wReq, wRunPoor,
    dbPoorAfterCreateVal, createNewTask, getWallet, updateWallet, setWalletDoc,
    applyWalletUpdate, createTransaction, createEscrow, commissionAmountOf,
    runnerAmountOf, List.find?, strbeq_req_run, strbeq_run_run, strbeq_req_req,
    strbeq_run_req, strne_req_run, strne_run_req, strne_run_empty, strne_req_empty]

theorem dbFullAfterCreate_eq : dbFullAfterCreate = dbFullAfterCreateVal := by
  norm_num [dbFullAfterCreate, fullCommissionDB, sampleInput,
    fullCommissionSettings, wReq, wRun, dbFullAfterCreateVal, createNewTask,
    getWallet, updateWallet, setWalletDoc, applyWalletUpdate, createTransaction,
    createEscrow, commissionAmountOf, runnerAmountOf, List.find?,
    strbeq_req_run, strbeq_run_run, strbeq_req_req,
    strbeq_run_req, strne_req_run, strne_run_req, strne_run_empty, strne_req_empty]

theorem dbFullAfterAccept_eq : dbFullAfterAccept = dbFullAfterAcceptVal := by
  rw [dbFullAfterAccept, dbFullAfterCreate_eq]
  norm_num [dbFullAfterCreateVal, dbFullAfterAcceptVal, fullCommissionSettings,
    acceptTask, getTask, getWallet, updateWallet, setWalletDoc,
    applyWalletUpdate, updateTaskStatus, applyTaskStatusUpdate,
    createTransaction, createEscrow, List.find?,
    strbeq_req_run, strbeq_run_run, strbeq_req_req,
    strbeq_run_req, strne_req_run, strne_run_req, strne_run_empty, strne_req_empty]

theorem getTask_withTasksNextId (tid : Nat) (db : DB) (ts : List Task) (n : Nat) :
    getTask tid { db with tasks := ts, nextId := n } = ts.find? fun x => x.id == tid :=
  rfl

theorem getWallet_withTasksNextId (uid : String) (db : DB) (ts : List Task)
    (n : Nat) : getWallet uid { db with tasks := ts, nextId := n } = getWallet uid db :=
  rfl

theorem getEscrowsByTaskId_withTasksNextId (tid : Nat) (db : DB) (ts : List Task)
    (n : Nat) :
    getEscrowsByTaskId tid { db with tasks := ts, nextId := n }
      = getEscrowsByTaskId tid db := rfl

theorem find?_append_sing {α : Type} (p : α → Bool) (l : List α) (t : α)
    (h : ∀ x ∈ l, p x = false) (hp : p t = true) :
    (l ++ [t]).find? p = some t := by
  induction l with
  | nil => simp [List.find?, hp]
  | cons a l ih =>
    have ha := h a (List.mem_cons_self a l)
    simp only [List.cons_append, List.find?, ha]
    exact ih fun x hx => h x (List.mem_cons_of_mem a hx)

theorem getEscrowsByTaskId_nil {tid : Nat} {db : DB}
    (h : ∀ e ∈ db.escrows, e.task_id ≠ tid) :
    getEscrowsByTaskId tid db = [] := by
  unfold getEscrowsByTaskId
  rw [List.filter_eq_nil_iff]
  intro e he
  simp [h e he]

theorem getEscrowsByTaskId_createEscrow_match (tid : Nat) (d : EscrowData)
    (db : DB) (h : (d.task_id == tid) = true) :
    getEscrowsByTaskId tid (createEscrow d db).1
      = getEscrowsByTaskId tid db ++
        [⟨db.nextId, d.task_id, d.requester_id, d.runner_id, d.amount,
          d.commission_amount, d.status⟩] := by
  unfold getEscrowsByTaskId createEscrow
  simp [List.filter_append, List.filter_cons, h]

/-- Re-closing an escrow: `updateEscrow` applies the merge to the matching
document unconditionally — there is no status check and no failure path. -/
theorem findEscrow_updateEscrow_self {eid : Nat} {db : DB} {e : Escrow}
    (h : db.escrows.find? (fun x => x.id == eid) = some e) (u : EscrowUpdate) :
    (updateEscrow eid u db).escrows.find? (fun x => x.id == eid)
      = some (applyEscrowUpdate e u) := by
  have hpres : ∀ x : Escrow,
      ((if x.id == eid then applyEscrowUpdate x u else x).id == eid)
        = (x.id == eid) := by
    intro x
    by_cases hx : (x.id == eid) = true <;> simp [hx, applyEscrowUpdate_id]
  rw [updateEscrow_escrows, find?_map_preserving _ _ hpres, h]
  have heid : (e.id == eid) = true := by
    have := List.find?_some h
    simpa using this
  show some (if (e.id == eid) = true then _ else e) = _
  rw [if_pos heid]

theorem sum_map_update {α : Type} (key : α → Nat) (g : α → α) (k : Nat)
    (v : α → ℚ) (l : List α) (hnd : (l.map key).Nodup)
    (t : α) (ht : t ∈ l) (hk : key t = k) :
    ((l.map fun x => if key x == k then g x else x).map v).sum
      = (l.map v).sum + (v (g t) - v t) := by
  have h := sum_filter_map_update key g k (fun _ => true) v l hnd t ht hk
  simpa using h

theorem map_key_of_keyed_update {α : Type} (key : α → Nat) (g : α → α)
    (hg : ∀ x, key (g x) = key x) (k : Nat) (l : List α) :
    ((l.map fun x => if key x == k then g x else x).map key) = l.map key := by
  rw [List.map_map]
  apply List.map_congr_left
  intro x hx
  by_cases h : (key x == k) = true <;> simp [Function.comp, h, hg]

theorem setWalletDoc_walletIds (wid : Nat) (u : WalletUpdate) (db : DB) :
    ((setWalletDoc wid u db).wallets.map Wallet.id) = db.wallets.map Wallet.id := by
  rw [setWalletDoc_wallets]
  exact map_key_of_keyed_update Wallet.id _ (fun x => applyWalletUpdate_id x u) wid
    db.wallets

theorem moneySum_withTasksNextId (db : DB) (ts : List Task) (n : Nat) :
    moneySum { db with tasks := ts, nextId := n } = moneySum db := rfl

theorem moneySum_updateTaskStatus (tid : Nat) (st : TaskStatus) (u : TaskUpdate)
    (db : DB) : moneySum (updateTaskStatus tid st u db) = moneySum db := rfl

theorem moneySum_createTransaction (d : TransactionData) (db : DB) :
    moneySum (createTransaction d db).1 = moneySum db := rfl

theorem moneySum_createEscrow (d : EscrowData) (db : DB) :
    moneySum (createEscrow d db).1 = moneySum db := rfl

theorem moneySum_updateEscrow (eid : Nat) (u : EscrowUpdate) (db : DB) :
    moneySum (updateEscrow eid u db) = moneySum db := rfl

/-- A wallet-document merge changes the wallet total by exactly the merged
wallet's delta, provided wallet document ids are unique. -/
theorem moneySum_setWalletDoc {db : DB} {w : Wallet} (wid : Nat) (u : WalletUpdate)
    (hnd : (db.wallets.map Wallet.id).Nodup) (hw : w ∈ db.wallets)
    (hkey : w.id = wid) :
    moneySum (setWalletDoc wid u db)
      = moneySum db
        + (((applyWalletUpdate w u).balance + (applyWalletUpdate w u).escrow_balance)
            - (w.balance + w.escrow_balance)) := by
  unfold moneySum
  rw [setWalletDoc_wallets]
  exact sum_map_update Wallet.id _ wid (fun x => x.balance + x.escrow_balance)
    db.wallets hnd w hw hkey

theorem mem_setWalletDoc_of_ne {db : DB} {w : Wallet} {wid : Nat}
    (u : WalletUpdate) (hw : w ∈ db.wallets) (h : (w.id == wid) = false) :
    w ∈ (setWalletDoc wid u db).wallets := by
  rw [setWalletDoc_wallets]
  have hrw : w = (if (w.id == wid) = true then applyWalletUpdate w u else w) := by
    rw [if_neg (by simp [h])]
  rw [hrw]
  exact List.mem_map_of_mem _ hw

theorem mem_setWalletDoc_update {db : DB} {w : Wallet} {wid : Nat}
    (u : WalletUpdate) (hw : w ∈ db.wallets) (h : (w.id == wid) = true) :
    applyWalletUpdate w u ∈ (setWalletDoc wid u db).wallets := by
  rw [setWalletDoc_wallets]
  have hrw : applyWalletUpdate w u
      = (if (w.id == wid) = true then applyWalletUpdate w u else w) := by
    rw [if_pos h]
  rw [hrw]
  exact List.mem_map_of_mem _ hw

/-! ### Inv preservation kit -/

theorem map_proj_of_keyed_update {α β : Type} (key : α → Nat) (proj : α → β)
    (g : α → α) (hg : ∀ x, proj (g x) = proj x) (k : Nat) (l : List α) :
    ((l.map fun x => if key x == k then g x else x).map proj) = l.map proj := by
  rw [List.map_map]
  apply List.map_congr_left
  intro x hx
  by_cases h : (key x == k) = true <;> simp [Function.comp, h, hg]

theorem sum_filter_map_eq_sum_ite {α : Type} (p : α → Bool) (v : α → ℚ)
    (l : List α) :
    ((l.filter p).map v).sum = (l.map fun x => if p x then v x else 0).sum := by
  induction l with
  | nil => rfl
  | cons a l ih => by_cases h : p a <;> simp [List.filter_cons, h, ih]

theorem reqHold_eq_sum (u : String) (ts : List Task) :
    reqHold u ts = (ts.map (reqContrib u)).sum :=
  sum_filter_map_eq_sum_ite _ _ ts

theorem runHold_eq_sum (u : String) (ts : List Task) :
    runHold u ts = (ts.map (runContrib u)).sum :=
  sum_filter_map_eq_sum_ite _ _ ts

theorem reqHold_append (u : String) (a b : List Task) :
    reqHold u (a ++ b) = reqHold u a + reqHold u b := by
  simp [reqHold_eq_sum]

theorem runHold_append (u : String) (a b : List Task) :
    runHold u (a ++ b) = runHold u a + runHold u b := by
  simp [runHold_eq_sum]

theorem reqHold_single (u : String) (t : Task) :
    reqHold u [t] = reqContrib u t := by
  simp [reqHold_eq_sum]

theorem runHold_single (u : String) (t : Task) :
    runHold u [t] = runContrib u t := by
  simp [runHold_eq_sum]

theorem reqHold_update (u : String) (g : Task → Task) (tid : Nat) {ts : List Task}
    (hnd : (ts.map Task.id).Nodup) {t : Task} (ht : t ∈ ts) (hk : t.id = tid) :
    reqHold u (ts.map fun x => if x.id == tid then g x else x)
      = reqHold u ts + (reqContrib u (g t) - reqContrib u t) := by
  rw [reqHold_eq_sum, reqHold_eq_sum]
  exact sum_map_update Task.id g tid (reqContrib u) ts hnd t ht hk

theorem runHold_update (u : String) (g : Task → Task) (tid : Nat) {ts : List Task}
    (hnd : (ts.map Task.id).Nodup) {t : Task} (ht : t ∈ ts) (hk : t.id = tid) :
    runHold u (ts.map fun x => if x.id == tid then g x else x)
      = runHold u ts + (runContrib u (g t) - runContrib u t) := by
  rw [runHold_eq_sum, runHold_eq_sum]
  exact sum_map_update Task.id g tid (runContrib u) ts hnd t ht hk

theorem reqHold_nonneg {ts : List Task} (h : ∀ t ∈ ts, 0 ≤ t.reward_amount)
    (u : String) : 0 ≤ reqHold u ts := by
  rw [reqHold_eq_sum]
  apply List.sum_nonneg
  intro q hq
  obtain ⟨t, ht, rfl⟩ := List.mem_map.1 hq
  unfold reqContrib
  split
  · exact h t ht
  · exact le_refl 0

theorem runHold_nonneg {ts : List Task} (h : ∀ t ∈ ts, 0 ≤ t.runner_amount)
    (u : String) : 0 ≤ runHold u ts := by
  rw [runHold_eq_sum]
  apply List.sum_nonneg
  intro q hq
  obtain ⟨t, ht, rfl⟩ := List.mem_map.1 hq
  unfold runContrib
  split
  · exact h t ht
  · exact le_refl 0

theorem mem_keyed_update_cases {α : Type} (key : α → Nat) {g : α → α} {k : Nat}
    {l : List α} {t y : α} (hnd : (l.map key).Nodup) (ht : t ∈ l) (hk : key t = k)
    (hy : y ∈ l.map fun x => if key x == k then g x else x) :
    y = g t ∨ (y ∈ l ∧ key y ≠ k) := by
  obtain ⟨x, hx, hxe⟩ := List.mem_map.1 hy
  by_cases hc : (key x == k) = true
  · left
    have hxt : x = t := eq_of_key_eq_of_nodup key hnd hx ht
      (by rw [hk]; exact (by simpa using hc))
    rw [if_pos hc] at hxe
    rw [← hxe, hxt]
  · right
    rw [if_neg hc] at hxe
    subst hxe
    exact ⟨hx, by simpa using hc⟩

theorem getTask_none_keys {taskId : Nat} {db : DB} (h : getTask taskId db = none) :
    ∀ t ∈ db.tasks, (t.id == taskId) = false := by
  intro t htm
  simpa using List.find?_eq_none.1 h t htm

theorem getWallet_none_keys {uid : String} {db : DB} (h : getWallet uid db = none) :
    ∀ w ∈ db.wallets, w.user_id ≠ uid := by
  intro w hwm
  simpa using List.find?_eq_none.1 h w hwm

theorem applyTaskStatusUpdate_runner_id_some (t : Task) (st : TaskStatus)
    (rid : String) (x : Option String) :
    (applyTaskStatusUpdate t st ⟨some rid, x⟩).runner_id = some rid := rfl

theorem applyTaskStatusUpdate_runner_id_none (t : Task) (st : TaskStatus)
    (x : Option String) :
    (applyTaskStatusUpdate t st ⟨none, x⟩).runner_id = t.runner_id := rfl

theorem runnerOf_update_none (t : Task) (st : TaskStatus) (x : Option String) :
    runnerOf (applyTaskStatusUpdate t st ⟨none, x⟩) = runnerOf t := rfl

theorem runnerOf_update_some (t : Task) (st : TaskStatus) {rid : String}
    (hr : rid ≠ "") (x : Option String) :
    runnerOf (applyTaskStatusUpdate t st ⟨some rid, x⟩) = some rid := by
  simp [runnerOf, applyTaskStatusUpdate, hr]

theorem reqContrib_of (u : String) (t : Task) :
    reqContrib u t
      = if t.requester_id == u
            && (t.status == .pending || t.status == .accepted
                || t.status == .in_progress)
        then t.reward_amount else 0 := rfl

theorem runContrib_of (u : String) (t : Task) :
    runContrib u t
      = if runnerOf t == some u
            && (t.status == .accepted || t.status == .in_progress)
        then t.runner_amount else 0 := rfl

theorem reqContrib_update (u : String) (t : Task) (st : TaskStatus)
    (tu : TaskUpdate) :
    reqContrib u (applyTaskStatusUpdate t st tu)
      = if t.requester_id == u
            && (st == .pending || st == .accepted || st == .in_progress)
        then t.reward_amount else 0 := by
  unfold reqContrib taskOpenForRequester
  rw [applyTaskStatusUpdate_requester_id, applyTaskStatusUpdate_reward_amount,
    applyTaskStatusUpdate_status]

theorem runContrib_update_none (u : String) (t : Task) (st : TaskStatus)
    (x : Option String) :
    runContrib u (applyTaskStatusUpdate t st ⟨none, x⟩)
      = if runnerOf t == some u && (st == .accepted || st == .in_progress)
        then t.runner_amount else 0 := by
  unfold runContrib taskActiveForRunner
  rw [runnerOf_update_none, applyTaskStatusUpdate_runner_amount,
    applyTaskStatusUpdate_status]

theorem runContrib_update_some (u : String) (t : Task) (st : TaskStatus)
    {rid : String} (hr : rid ≠ "") (x : Option String) :
    runContrib u (applyTaskStatusUpdate t st ⟨some rid, x⟩)
      = if (some rid : Option String) == some u
            && (st == .accepted || st == .in_progress)
        then t.runner_amount else 0 := by
  unfold runContrib taskActiveForRunner
  rw [runnerOf_update_some t st hr, applyTaskStatusUpdate_runner_amount,
    applyTaskStatusUpdate_status]

/-- A wallet's non-negative `escrow_balance` follows from the backing
inequality and non-negative task amounts. -/
theorem inv_nonneg {db : DB} (h : Inv db) :
    ∀ w ∈ db.wallets, 0 ≤ w.balance ∧ 0 ≤ w.escrow_balance := by
  intro w hw
  refine ⟨h.balanceNonneg w hw, ?_⟩
  have hreq : 0 ≤ reqHold w.user_id db.tasks := by
    apply reqHold_nonneg
    intro t ht
    obtain ⟨hc, hr, he⟩ := h.taskAmounts t ht
    rw [he]
    exact add_nonneg hc hr
  have hrun : 0 ≤ runHold w.user_id db.tasks := by
    apply runHold_nonneg
    intro t ht
    exact (h.taskAmounts t ht).2.1
  exact le_trans (add_nonneg hreq hrun) (h.escrowBacking w hw)

/-- `Inv` transfers to any state with the same wallets, tasks, escrows and
settings and a nextId at least as large. -/
theorem inv_of_components {db db' : DB} (h : Inv db)
    (hw : db'.wallets = db.wallets) (ht : db'.tasks = db.tasks)
    (he : db'.escrows = db.escrows) (hs : db'.settings = db.settings)
    (hn : db.nextId ≤ db'.nextId) : Inv db' := by
  refine ⟨?_, ?_, ?_, ?_, ?_, ?_, ?_, ?_, ?_, ?_, ?_⟩
  · rw [hw]; exact h.walletIdsNodup
  · rw [hw]; exact h.walletUsersNodup
  · rw [ht]; exact h.taskIdsNodup
  · rw [ht]; exact fun t htm => lt_of_lt_of_le (h.taskIdLt t htm) hn
  · rw [he]; exact fun e hem => lt_of_lt_of_le (h.escrowTaskIdLt e hem) hn
  · rw [hw]; exact h.balanceNonneg
  · rw [ht]; exact h.taskAmounts
  · rw [ht]; exact h.runnerNeRequester
  · rw [he, ht]; exact h.escrowMatchesTask
  · rw [hw, ht]; exact h.escrowBacking
  · rw [hs]; exact h.commissionPct

/-- `Inv` transfers through a status-only merge of one escrow document
(`updateEscrow` never touches `task_id` or `amount`). -/
theorem inv_escrows_mapped {db db' : DB} (h : Inv db) (eid : Nat) (u : EscrowUpdate)
    (hw : db'.wallets = db.wallets) (ht : db'.tasks = db.tasks)
    (he : db'.escrows
      = db.escrows.map fun e => if e.id == eid then applyEscrowUpdate e u else e)
    (hs : db'.settings = db.settings) (hn : db.nextId ≤ db'.nextId) : Inv db' := by
  have htid : ∀ e ∈ db'.escrows, ∃ e0 ∈ db.escrows,
      e.task_id = e0.task_id ∧ e.amount = e0.amount := by
    intro e he'
    rw [he] at he'
    obtain ⟨x, hx, hxe⟩ := List.mem_map.1 he'
    refine ⟨x, hx, ?_⟩
    by_cases hc : (x.id == eid) = true
    · rw [if_pos hc] at hxe
      rw [← hxe]
      exact ⟨applyEscrowUpdate_task_id x u, applyEscrowUpdate_amount x u⟩
    · rw [if_neg hc] at hxe
      rw [← hxe]
      exact ⟨rfl, rfl⟩
  refine ⟨?_, ?_, ?_, ?_, ?_, ?_, ?_, ?_, ?_, ?_, ?_⟩
  · rw [hw]; exact h.walletIdsNodup
  · rw [hw]; exact h.walletUsersNodup
  · rw [ht]; exact h.taskIdsNodup
  · rw [ht]; exact fun t htm => lt_of_lt_of_le (h.taskIdLt t htm) hn
  · intro e he'
    obtain ⟨e0, he0, htid', _⟩ := htid e he'
    rw [htid']
    exact lt_of_lt_of_le (h.escrowTaskIdLt e0 he0) hn
  · rw [hw]; exact h.balanceNonneg
  · rw [ht]; exact h.taskAmounts
  · rw [ht]; exact h.runnerNeRequester
  · rw [ht]
    intro e he' t htm heq
    obtain ⟨e0, he0, htid', hamt⟩ := htid e he'
    rw [hamt]
    exact h.escrowMatchesTask e0 he0 t htm (by rw [← htid']; exact heq)
  · rw [hw, ht]; exact h.escrowBacking
  · rw [hs]; exact h.commissionPct

/-- Membership in the wallets of a `setWalletDoc` state, with unique ids:
either the merged wallet or an untouched old one. -/
theorem mem_setWalletDoc_cases {db : DB} {w : Wallet} {u : WalletUpdate}
    {w' : Wallet} (hnd : (db.wallets.map Wallet.id).Nodup) (hw : w ∈ db.wallets)
    (hw' : w' ∈ (setWalletDoc w.id u db).wallets) :
    w' = applyWalletUpdate w u ∨ (w' ∈ db.wallets ∧ w'.id ≠ w.id) := by
  rw [setWalletDoc_wallets] at hw'
  exact mem_keyed_update_cases Wallet.id hnd hw rfl hw'

/-- A wallet-document merge preserves `Inv` as soon as the merged wallet's
new balance is non-negative and its new `escrow_balance` still covers the
holds of its user. -/
theorem inv_setWalletDoc {db : DB} (h : Inv db) {w : Wallet} (hw : w ∈ db.wallets)
    (u : WalletUpdate)
    (hbal : 0 ≤ (applyWalletUpdate w u).balance)
    (hesc : reqHold w.user_id db.tasks + runHold w.user_id db.tasks
        ≤ (applyWalletUpdate w u).escrow_balance) :
    Inv (setWalletDoc w.id u db) := by
  refine ⟨?_, ?_, ?_, ?_, ?_, ?_, ?_, ?_, ?_, ?_, ?_⟩
  · rw [setWalletDoc_walletIds]; exact h.walletIdsNodup
  · have husers : (setWalletDoc w.id u db).wallets.map Wallet.user_id
        = db.wallets.map Wallet.user_id := by
      rw [setWalletDoc_wallets]
      exact map_proj_of_keyed_update Wallet.id Wallet.user_id _
        (fun x => applyWalletUpdate_user_id x u) w.id db.wallets
    rw [husers]; exact h.walletUsersNodup
  · rw [setWalletDoc_tasks]; exact h.taskIdsNodup
  · rw [setWalletDoc_tasks, setWalletDoc_nextId]; exact h.taskIdLt
  · rw [setWalletDoc_escrows, setWalletDoc_nextId]; exact h.escrowTaskIdLt
  · intro w' hw'
    rcases mem_setWalletDoc_cases h.walletIdsNodup hw hw' with heq | ⟨hmem, _⟩
    · rw [heq]; exact hbal
    · exact h.balanceNonneg w' hmem
  · rw [setWalletDoc_tasks]; exact h.taskAmounts
  · rw [setWalletDoc_tasks]; exact h.runnerNeRequester
  · rw [setWalletDoc_escrows, setWalletDoc_tasks]; exact h.escrowMatchesTask
  · intro w' hw'
    rw [setWalletDoc_tasks]
    rcases mem_setWalletDoc_cases h.walletIdsNodup hw hw' with heq | ⟨hmem, _⟩
    · rw [heq, applyWalletUpdate_user_id]
      exact hesc
    · exact h.escrowBacking w' hmem
  · rw [setWalletDoc_settings]; exact h.commissionPct

/-- `updateTaskStatus` on a missing id rewrites nothing. -/
theorem inv_updateTaskStatus_none {db : DB} (h : Inv db) {taskId : Nat}
    (ht : getTask taskId db = none) (st : TaskStatus) (tu : TaskUpdate) :
    Inv (updateTaskStatus taskId st tu db) := by
  refine inv_of_components h (updateTaskStatus_wallets _ _ _ _) ?_
    (updateTaskStatus_escrows _ _ _ _) (updateTaskStatus_settings _ _ _ _)
    (le_refl _)
  rw [updateTaskStatus_tasks]
  apply map_update_eq_self
  intro x hx
  simpa using getTask_none_keys ht x hx

/-- `updateTaskStatus` preserves `Inv` whenever the rewritten task's
combined hold contribution does not increase for any wallet user and the
new runner is not the requester. -/
theorem inv_updateTaskStatus_le {db : DB} (h : Inv db) {t : Task} {taskId : Nat}
    (ht : getTask taskId db = some t) (st : TaskStatus) (tu : TaskUpdate)
    (hrunner : ∀ s, runnerOf (applyTaskStatusUpdate t st tu) = some s →
      s ≠ t.requester_id)
    (hdelta : ∀ w ∈ db.wallets,
      reqContrib w.user_id (applyTaskStatusUpdate t st tu)
        + runContrib w.user_id (applyTaskStatusUpdate t st tu)
        ≤ reqContrib w.user_id t + runContrib w.user_id t) :
    Inv (updateTaskStatus taskId st tu db) := by
  have htm : t ∈ db.tasks := getTask_mem ht
  have htid : t.id = taskId := getTask_id_eq ht
  have htasks : (updateTaskStatus taskId st tu db).tasks
      = db.tasks.map fun x =>
          if x.id == taskId then applyTaskStatusUpdate x st tu else x :=
    updateTaskStatus_tasks _ _ _ _
  refine ⟨?_, ?_, ?_, ?_, ?_, ?_, ?_, ?_, ?_, ?_, ?_⟩
  · rw [updateTaskStatus_wallets]; exact h.walletIdsNodup
  · rw [updateTaskStatus_wallets]; exact h.walletUsersNodup
  · have hids : (updateTaskStatus taskId st tu db).tasks.map Task.id
        = db.tasks.map Task.id := by
      rw [htasks]
      exact map_proj_of_keyed_update Task.id Task.id _
        (fun x => applyTaskStatusUpdate_id x st tu) taskId db.tasks
    rw [hids]; exact h.taskIdsNodup
  · intro t' ht'
    rw [htasks] at ht'
    rw [updateTaskStatus_nextId]
    rcases mem_keyed_update_cases Task.id h.taskIdsNodup htm htid ht' with
      heq | ⟨hmem, _⟩
    · rw [heq, applyTaskStatusUpdate_id]
      exact h.taskIdLt t htm
    · exact h.taskIdLt t' hmem
  · rw [updateTaskStatus_escrows, updateTaskStatus_nextId]; exact h.escrowTaskIdLt
  · rw [updateTaskStatus_wallets]; exact h.balanceNonneg
  · intro t' ht'
    rw [htasks] at ht'
    rcases mem_keyed_update_cases Task.id h.taskIdsNodup htm htid ht' with
      heq | ⟨hmem, _⟩
    · rw [heq]
      simp only [applyTaskStatusUpdate_commission_amount,
        applyTaskStatusUpdate_runner_amount, applyTaskStatusUpdate_reward_amount]
      exact h.taskAmounts t htm
    · exact h.taskAmounts t' hmem
  · intro t' ht' s hs
    rw [htasks] at ht'
    rcases mem_keyed_update_cases Task.id h.taskIdsNodup htm htid ht' with
      heq | ⟨hmem, _⟩
    · rw [heq] at hs ⊢
      rw [applyTaskStatusUpdate_requester_id]
      exact hrunner s hs
    · exact h.runnerNeRequester t' hmem s hs
  · intro e hem t' ht' heq
    rw [updateTaskStatus_escrows] at hem
    rw [htasks] at ht'
    rcases mem_keyed_update_cases Task.id h.taskIdsNodup htm htid ht' with
      heq2 | ⟨hmem, _⟩
    · rw [heq2] at heq ⊢
      rw [applyTaskStatusUpdate_reward_amount]
      rw [applyTaskStatusUpdate_id] at heq
      exact h.escrowMatchesTask e hem t htm heq
    · exact h.escrowMatchesTask e hem t' hmem heq
  · intro w hwm
    rw [updateTaskStatus_wallets] at hwm
    rw [htasks]
    rw [reqHold_update w.user_id (fun x => applyTaskStatusUpdate x st tu) taskId
        h.taskIdsNodup htm htid,
      runHold_update w.user_id (fun x => applyTaskStatusUpdate x st tu) taskId
        h.taskIdsNodup htm htid]
    have hd := hdelta w hwm
    have hb := h.escrowBacking w hwm
    linarith
  · rw [updateTaskStatus_settings]; exact h.commissionPct

/-- `deposit` preserves the ledger invariant. -/
theorem inv_deposit {db : DB} (h : Inv db) (uid : String) (amount : ℚ) :
    Inv (deposit uid amount db).1 := by
  cases hw : getWallet uid db with
  | none =>
    rw [deposit_noWallet amount hw]
    exact h
  | some w =>
    by_cases ha : amount ≤ 0
    · rw [deposit_invalidAmount amount hw ha]
      exact h
    · rw [deposit_ok amount hw ha]
      dsimp only
      have h2 : Inv (updateTransaction db.nextId ⟨some .completed⟩
          (createTransaction ⟨uid, .deposit, amount, .pending, none⟩ db).1) :=
        inv_of_components h rfl rfl rfl rfl (Nat.le_succ _)
      refine inv_setWalletDoc h2 (show w ∈ _ from getWallet_mem hw) _ ?_ ?_
      · show 0 ≤ w.balance + amount
        have hb := h.balanceNonneg w (getWallet_mem hw)
        have ha' : 0 < amount := lt_of_not_le ha
        linarith
      · exact h.escrowBacking w (getWallet_mem hw)

/-- `withdraw` preserves the ledger invariant. -/
theorem inv_withdraw {db : DB} (h : Inv db) (uid : String) (amount : ℚ) :
    Inv (withdraw uid amount db).1 := by
  cases hw : getWallet uid db with
  | none =>
    rw [withdraw_noWallet amount hw]
    exact h
  | some w =>
    by_cases ha : amount ≤ 0
    · rw [withdraw_invalidAmount amount hw ha]
      exact h
    · by_cases hb : w.balance < amount
      · rw [withdraw_insufficient amount hw ha hb]
        exact h
      · rw [withdraw_ok amount hw ha hb]
        dsimp only
        have h2 : Inv (updateTransaction db.nextId ⟨some .completed⟩
            (createTransaction ⟨uid, .withdrawal, amount, .pending, none⟩ db).1) :=
          inv_of_components h rfl rfl rfl rfl (Nat.le_succ _)
        refine inv_setWalletDoc h2 (show w ∈ _ from getWallet_mem hw) _ ?_ ?_
        · show 0 ≤ w.balance - amount
          have hble := not_lt.1 hb
          linarith
        · exact h.escrowBacking w (getWallet_mem hw)

/-- `startTask` preserves the ledger invariant when fired on an accepted
task (its only effect is the `accepted → in_progress` relabel, which keeps
every hold contribution unchanged). -/
theorem inv_startTask {db : DB} (h : Inv db) (uid : String) (taskId : Nat)
    (hg : ∀ t, getTask taskId db = some t → t.status = .accepted) :
    Inv (startTask uid taskId db).1 := by
  cases ht : getTask taskId db with
  | none =>
    rw [startTask_noTask uid ht]
    exact h
  | some t =>
    by_cases hr : t.runner_id = some uid
    · rw [startTask_ok uid ht hr]
      dsimp only
      have hst := hg t ht
      refine inv_updateTaskStatus_le h ht .in_progress ⟨none, none⟩ ?_ ?_
      · intro s hs
        rw [runnerOf_update_none] at hs
        exact h.runnerNeRequester t (getTask_mem ht) s hs
      · intro w hwm
        rw [reqContrib_update, runContrib_update_none, reqContrib_of,
          runContrib_of, hst]
        simp
    · rw [startTask_notRunner uid ht hr]
      exact h

/-- `createNewTask` preserves the ledger invariant (pending status, no
runner and positive reward, as the creation form guarantees). -/
theorem inv_createNewTask {db : DB} (h : Inv db) (uid : String) (td : TaskInput)
    (hstp : td.status = .pending) (hrid : td.runner_id = none)
    (hpos : 0 < td.reward_amount) :
    Inv (createNewTask uid td db).1 := by
  cases hw : getWallet uid db with
  | none =>
    rw [createNewTask_noWallet td hw]
    exact h
  | some w =>
    by_cases hb : w.balance < td.reward_amount
    · rw [createNewTask_insufficient td hw hb]
      exact h
    · rw [createNewTask_ok td hw hb]
      dsimp only
      have huid : w.user_id = uid := getWallet_user_eq hw
      have hwm : w ∈ db.wallets := getWallet_mem hw
      refine ⟨?_, ?_, ?_, ?_, ?_, ?_, ?_, ?_, ?_, ?_, ?_⟩
      · rw [createEscrow_wallets, createTransaction_wallets, setWalletDoc_walletIds]
        exact h.walletIdsNodup
      · rw [createEscrow_wallets, createTransaction_wallets, setWalletDoc_wallets]
        rw [map_proj_of_keyed_update Wallet.id Wallet.user_id _
          (fun x => applyWalletUpdate_user_id x _)]
        exact h.walletUsersNodup
      · rw [createEscrow_tasks, createTransaction_tasks, setWalletDoc_tasks]
        show ((db.tasks ++ [newTaskOf uid td db]).map Task.id).Nodup
        have hnew : (db.tasks ++ [newTaskOf uid td db]).map Task.id
            = db.tasks.map Task.id ++ [db.nextId] := by
          rw [List.map_append]
          rfl
        rw [hnew]
        refine List.Nodup.append h.taskIdsNodup (List.nodup_singleton _) ?_
        intro a ha hb2
        obtain ⟨t0, ht0, rfl⟩ := List.mem_map.1 ha
        have hlt := h.taskIdLt t0 ht0
        have hb3 : t0.id = db.nextId := by simpa using hb2
        exact absurd hb3 (Nat.ne_of_lt hlt)
      · show ∀ t ∈ db.tasks ++ [newTaskOf uid td db], t.id < db.nextId + 3
        intro t htm
        rcases List.mem_append.1 htm with hin | hin
        · have := h.taskIdLt t hin
          omega
        · have hteq : t = newTaskOf uid td db := by simpa using hin
          rw [hteq]
          show db.nextId < db.nextId + 3
          omega
      · show ∀ e ∈ db.escrows
            ++ [⟨db.nextId + 2, db.nextId, uid, "", td.reward_amount,
                 commissionAmountOf td.reward_amount
                   db.settings.commission_percentage, .active⟩],
            e.task_id < db.nextId + 3
        intro e hem
        rcases List.mem_append.1 hem with hin | hin
        · have := h.escrowTaskIdLt e hin
          omega
        · have heeq : e = ⟨db.nextId + 2, db.nextId, uid, "", td.reward_amount,
              commissionAmountOf td.reward_amount db.settings.commission_percentage,
              .active⟩ := by simpa using hin
          rw [heeq]
          show db.nextId < db.nextId + 3
          omega
      · rw [createEscrow_wallets, createTransaction_wallets]
        intro w' hw'
        rcases mem_setWalletDoc_cases h.walletIdsNodup hwm hw' with heq | ⟨hmem, _⟩
        · rw [heq]
          show 0 ≤ w.balance - td.reward_amount
          have hble := not_lt.1 hb
          linarith
        · exact h.balanceNonneg w' hmem
      · show ∀ t ∈ db.tasks ++ [newTaskOf uid td db], _
        intro t htm
        rcases List.mem_append.1 htm with hin | hin
        · exact h.taskAmounts t hin
        · have hteq : t = newTaskOf uid td db := by simpa using hin
          rw [hteq]
          have hpct := h.commissionPct
          refine ⟨?_, ?_, ?_⟩
          · show 0 ≤ td.reward_amount * db.settings.commission_percentage / 100
            have := hpct.1
            positivity
          · show 0 ≤ td.reward_amount
              - td.reward_amount * db.settings.commission_percentage / 100
            have hmul : td.reward_amount * db.settings.commission_percentage
                ≤ td.reward_amount * 100 :=
              mul_le_mul_of_nonneg_left hpct.2 (le_of_lt hpos)
            linarith
          · show td.reward_amount
                = td.reward_amount * db.settings.commission_percentage / 100
                  + (td.reward_amount
                     - td.reward_amount * db.settings.commission_percentage / 100)
            ring
      · show ∀ t ∈ db.tasks ++ [newTaskOf uid td db], _
        intro t htm s hs
        rcases List.mem_append.1 htm with hin | hin
        · exact h.runnerNeRequester t hin s hs
        · have hteq : t = newTaskOf uid td db := by simpa using hin
          rw [hteq] at hs
          simp [runnerOf, newTaskOf, hrid] at hs
      · show ∀ e ∈ db.escrows
            ++ [⟨db.nextId + 2, db.nextId, uid, "", td.reward_amount,
                 commissionAmountOf td.reward_amount
                   db.settings.commission_percentage, .active⟩],
            ∀ t ∈ db.tasks ++ [newTaskOf uid td db], e.task_id = t.id →
              e.amount = t.reward_amount
        intro e hem t htm heq
        rcases List.mem_append.1 hem with hine | hine <;>
          rcases List.mem_append.1 htm with hint | hint
        · exact h.escrowMatchesTask e hine t hint heq
        · have hteq : t = newTaskOf uid td db := by simpa using hint
          have hlt := h.escrowTaskIdLt e hine
          rw [hteq] at heq
          have heq2 : e.task_id = db.nextId := heq
          omega
        · have heeq : e = ⟨db.nextId + 2, db.nextId, uid, "", td.reward_amount,
              commissionAmountOf td.reward_amount db.settings.commission_percentage,
              .active⟩ := by simpa using hine
          have hlt := h.taskIdLt t hint
          rw [heeq] at heq
          have heq2 : db.nextId = t.id := heq
          omega
        · have heeq : e = ⟨db.nextId + 2, db.nextId, uid, "", td.reward_amount,
              commissionAmountOf td.reward_amount db.settings.commission_percentage,
              .active⟩ := by simpa using hine
          have hteq : t = newTaskOf uid td db := by simpa using hint
          rw [heeq, hteq]
          rfl
      · rw [createEscrow_wallets, createTransaction_wallets]
        intro w' hw'
        rcases mem_setWalletDoc_cases h.walletIdsNodup hwm hw' with heq | ⟨hmem, hne⟩
        · rw [heq, applyWalletUpdate_user_id]
          show reqHold w.user_id (db.tasks ++ [newTaskOf uid td db])
              + runHold w.user_id (db.tasks ++ [newTaskOf uid td db])
              ≤ w.escrow_balance + td.reward_amount
          rw [reqHold_append, runHold_append, reqHold_single, runHold_single]
          have hreqc : reqContrib w.user_id (newTaskOf uid td db)
              = td.reward_amount := by
            simp [reqContrib, taskOpenForRequester, newTaskOf, huid, hstp]
          have hrunc : runContrib w.user_id (newTaskOf uid td db) = 0 := by
            simp [runContrib, runnerOf, newTaskOf, hrid]
          rw [hreqc, hrunc]
          have hback := h.escrowBacking w hwm
          linarith
        · show reqHold w'.user_id (db.tasks ++ [newTaskOf uid td db])
              + runHold w'.user_id (db.tasks ++ [newTaskOf uid td db])
              ≤ w'.escrow_balance
          rw [reqHold_append, runHold_append, reqHold_single, runHold_single]
          have huser : uid ≠ w'.user_id := by
            intro hcontra
            have hww : w' = w := eq_of_key_eq_of_nodup Wallet.user_id
              h.walletUsersNodup hmem hwm (by rw [huid, ← hcontra])
            exact hne (by rw [hww])
          have h1 : reqContrib w'.user_id (newTaskOf uid td db) = 0 := by
            simp [reqContrib, newTaskOf, huser]
          have h2 : runContrib w'.user_id (newTaskOf uid td db) = 0 := by
            simp [runContrib, runnerOf, newTaskOf, hrid]
          rw [h1, h2]
          have hback := h.escrowBacking w' hmem
          linarith
      · exact h.commissionPct

/-- Appending an escrow whose `task_id` is an existing task's id and whose
`amount` matches that task's reward preserves `Inv`. -/
theorem inv_createEscrow_forTask {db : DB} (h : Inv db) {t : Task} {taskId : Nat}
    (ht : getTask taskId db = some t) (d : EscrowData) (hd : d.task_id = taskId)
    (hamt : d.amount = t.reward_amount) :
    Inv (createEscrow d db).1 := by
  have htm := getTask_mem ht
  have htid := getTask_id_eq ht
  refine ⟨?_, ?_, ?_, ?_, ?_, ?_, ?_, ?_, ?_, ?_, ?_⟩
  · rw [createEscrow_wallets]; exact h.walletIdsNodup
  · rw [createEscrow_wallets]; exact h.walletUsersNodup
  · rw [createEscrow_tasks]; exact h.taskIdsNodup
  · rw [createEscrow_tasks, createEscrow_nextId]
    intro t' ht'
    have := h.taskIdLt t' ht'
    omega
  · rw [createEscrow_escrows, createEscrow_nextId]
    intro e hem
    rcases List.mem_append.1 hem with hin | hin
    · have := h.escrowTaskIdLt e hin
      omega
    · have heeq : e = ⟨db.nextId, d.task_id, d.requester_id, d.runner_id, d.amount,
          d.commission_amount, d.status⟩ := by simpa using hin
      rw [heeq]
      show d.task_id < db.nextId + 1
      rw [hd, ← htid]
      have := h.taskIdLt t htm
      omega
  · rw [createEscrow_wallets]; exact h.balanceNonneg
  · rw [createEscrow_tasks]; exact h.taskAmounts
  · rw [createEscrow_tasks]; exact h.runnerNeRequester
  · rw [createEscrow_escrows, createEscrow_tasks]
    intro e hem t2 ht2 heq
    rcases List.mem_append.1 hem with hin | hin
    · exact h.escrowMatchesTask e hin t2 ht2 heq
    · have heeq : e = ⟨db.nextId, d.task_id, d.requester_id, d.runner_id, d.amount,
          d.commission_amount, d.status⟩ := by simpa using hin
      rw [heeq] at heq ⊢
      show d.amount = t2.reward_amount
      have heq2 : d.task_id = t2.id := heq
      have ht2t : t2 = t := eq_of_key_eq_of_nodup Task.id h.taskIdsNodup ht2 htm
        (by rw [← heq2, hd, htid])
      rw [hamt, ht2t]
  · rw [createEscrow_wallets, createEscrow_tasks]; exact h.escrowBacking
  · rw [createEscrow_settings]; exact h.commissionPct

/-- `acceptTask` preserves the ledger invariant when fired on a pending
task by a runner distinct from the requester (the state-machine
preconditions): the runner-side hold it creates is backed by the
simultaneous `escrow_balance` credit. -/
theorem inv_acceptTask {db : DB} (h : Inv db) (taskId : Nat) (rid : String)
    (hg : ∀ t, getTask taskId db = some t →
      t.status = .pending ∧ rid ≠ t.requester_id)
    (hrne : rid ≠ "") :
    Inv (acceptTask taskId rid db).1 := by
  cases ht : getTask taskId db with
  | none =>
    rw [acceptTask_noTask rid ht]
    exact inv_updateTaskStatus_none h ht .accepted ⟨some rid, none⟩
  | some t =>
    obtain ⟨hstp, hreqne⟩ := hg t ht
    have htm := getTask_mem ht
    have htid := getTask_id_eq ht
    have hdreq : ∀ u : String,
        reqContrib u (applyTaskStatusUpdate t .accepted ⟨some rid, none⟩)
          = reqContrib u t := by
      intro u
      rw [reqContrib_update, reqContrib_of, hstp]
      simp
    have hrun0 : ∀ u : String, runContrib u t = 0 := by
      intro u
      rw [runContrib_of, hstp]
      simp
    cases hwr : getWallet rid db with
    | none =>
      rw [acceptTask_noWallet ht hwr]
      have hU : Inv (updateTaskStatus taskId .accepted ⟨some rid, none⟩ db) := by
        refine inv_updateTaskStatus_le h ht .accepted ⟨some rid, none⟩ ?_ ?_
        · intro s hs
          rw [runnerOf_update_some t .accepted hrne none] at hs
          cases hs
          exact hreqne
        · intro w hwm
          have hnu : w.user_id ≠ rid := getWallet_none_keys hwr w hwm
          rw [hdreq, runContrib_update_some w.user_id t .accepted hrne none,
            hrun0]
          simp [Ne.symm hnu]
      exact inv_createEscrow_forTask hU
        (getTask_updateTaskStatus_self ht .accepted ⟨some rid, none⟩) _ rfl
        (applyTaskStatusUpdate_reward_amount t .accepted ⟨some rid, none⟩).symm
    | some uw =>
      rw [acceptTask_ok ht hwr]
      dsimp only
      have huwm : uw ∈ db.wallets := getWallet_mem hwr
      have huidr : uw.user_id = rid := getWallet_user_eq hwr
      set dbU : DB := updateTaskStatus taskId .accepted ⟨some rid, none⟩ db
        with hdbU
      set E1 : DB := (createEscrow
        ⟨taskId, t.requester_id, rid, t.reward_amount, t.commission_amount,
         .active⟩ dbU).1 with hE1
      have hE1w : E1.wallets = db.wallets := by
        rw [hE1, createEscrow_wallets, hdbU, updateTaskStatus_wallets]
      have hE1t : E1.tasks = db.tasks.map fun x =>
          if x.id == taskId then applyTaskStatusUpdate x .accepted ⟨some rid, none⟩
          else x := by
        rw [hE1, createEscrow_tasks, hdbU, updateTaskStatus_tasks]
      have hE1e : E1.escrows = db.escrows
          ++ [⟨db.nextId, taskId, t.requester_id, rid, t.reward_amount,
               t.commission_amount, .active⟩] := by
        rw [hE1, createEscrow_escrows, hdbU, updateTaskStatus_escrows,
          updateTaskStatus_nextId]
      have hE1n : E1.nextId = db.nextId + 1 := by
        rw [hE1, createEscrow_nextId, hdbU, updateTaskStatus_nextId]
      have hE1s : E1.settings = db.settings := by
        rw [hE1, createEscrow_settings, hdbU, updateTaskStatus_settings]
      have hndE1 : (E1.wallets.map Wallet.id).Nodup := by
        rw [hE1w]; exact h.walletIdsNodup
      have huwE1 : uw ∈ E1.wallets := by rw [hE1w]; exact huwm
      refine ⟨?_, ?_, ?_, ?_, ?_, ?_, ?_, ?_, ?_, ?_, ?_⟩
      · rw [createTransaction_wallets, setWalletDoc_walletIds, hE1w]
        exact h.walletIdsNodup
      · rw [createTransaction_wallets, setWalletDoc_wallets,
          map_proj_of_keyed_update Wallet.id Wallet.user_id _
            (fun x => applyWalletUpdate_user_id x _), hE1w]
        exact h.walletUsersNodup
      · have hids : ((db.tasks.map fun x =>
            if x.id == taskId then applyTaskStatusUpdate x .accepted ⟨some rid, none⟩
            else x).map Task.id) = db.tasks.map Task.id :=
          map_proj_of_keyed_update Task.id Task.id _
            (fun x => applyTaskStatusUpdate_id x _ _) taskId db.tasks
        rw [createTransaction_tasks, setWalletDoc_tasks, hE1t, hids]
        exact h.taskIdsNodup
      · rw [createTransaction_tasks, setWalletDoc_tasks, hE1t,
          createTransaction_nextId, setWalletDoc_nextId, hE1n]
        intro t' ht'
        rcases mem_keyed_update_cases Task.id h.taskIdsNodup htm htid ht' with
          heq | ⟨hmem, _⟩
        · rw [heq, applyTaskStatusUpdate_id]
          have := h.taskIdLt t htm
          omega
        · have := h.taskIdLt t' hmem
          omega
      · rw [createTransaction_escrows, setWalletDoc_escrows, hE1e,
          createTransaction_nextId, setWalletDoc_nextId, hE1n]
        intro e hem
        rcases List.mem_append.1 hem with hin | hin
        · have := h.escrowTaskIdLt e hin
          omega
        · have heeq : e = ⟨db.nextId, taskId, t.requester_id, rid, t.reward_amount,
              t.commission_amount, .active⟩ := by simpa using hin
          rw [heeq]
          show taskId < db.nextId + 1 + 1
          rw [← htid]
          have := h.taskIdLt t htm
          omega
      · rw [createTransaction_wallets]
        intro w' hw'
        rcases mem_setWalletDoc_cases hndE1 huwE1 hw' with heq | ⟨hmem, _⟩
        · rw [heq]
          show 0 ≤ uw.balance
          exact h.balanceNonneg uw huwm
        · exact h.balanceNonneg w' (by rw [hE1w] at hmem; exact hmem)
      · rw [createTransaction_tasks, setWalletDoc_tasks, hE1t]
        intro t' ht'
        rcases mem_keyed_update_cases Task.id h.taskIdsNodup htm htid ht' with
          heq | ⟨hmem, _⟩
        · rw [heq]
          simp only [applyTaskStatusUpdate_commission_amount,
            applyTaskStatusUpdate_runner_amount, applyTaskStatusUpdate_reward_amount]
          exact h.taskAmounts t htm
        · exact h.taskAmounts t' hmem
      · rw [createTransaction_tasks, setWalletDoc_tasks, hE1t]
        intro t' ht' s hs
        rcases mem_keyed_update_cases Task.id h.taskIdsNodup htm htid ht' with
          heq | ⟨hmem, _⟩
        · rw [heq] at hs ⊢
          rw [applyTaskStatusUpdate_requester_id]
          rw [runnerOf_update_some t .accepted hrne none] at hs
          cases hs
          exact hreqne
        · exact h.runnerNeRequester t' hmem s hs
      · rw [createTransaction_escrows, setWalletDoc_escrows, hE1e,
          createTransaction_tasks, setWalletDoc_tasks, hE1t]
        intro e hem t2 ht2 heq
        rcases List.mem_append.1 hem with hine | hine <;>
          rcases mem_keyed_update_cases Task.id h.taskIdsNodup htm htid ht2 with
            heq2 | ⟨hmem2, hne2⟩
        · rw [heq2] at heq ⊢
          rw [applyTaskStatusUpdate_reward_amount]
          rw [applyTaskStatusUpdate_id] at heq
          exact h.escrowMatchesTask e hine t htm heq
        · exact h.escrowMatchesTask e hine t2 hmem2 heq
        · have heeq : e = ⟨db.nextId, taskId, t.requester_id, rid, t.reward_amount,
              t.commission_amount, .active⟩ := by simpa using hine
          rw [heeq, heq2]
          rw [applyTaskStatusUpdate_reward_amount]
        · have heeq : e = ⟨db.nextId, taskId, t.requester_id, rid, t.reward_amount,
              t.commission_amount, .active⟩ := by simpa using hine
          rw [heeq] at heq
          have heq3 : taskId = t2.id := heq
          exact absurd heq3.symm hne2
      · rw [createTransaction_wallets, createTransaction_tasks, setWalletDoc_tasks,
          hE1t]
        intro w' hw'
        rcases mem_setWalletDoc_cases hndE1 huwE1 hw' with heq | ⟨hmem, hnei⟩
        · rw [heq, applyWalletUpdate_user_id]
          rw [reqHold_update uw.user_id
              (fun x => applyTaskStatusUpdate x .accepted ⟨some rid, none⟩) taskId
              h.taskIdsNodup htm htid,
            runHold_update uw.user_id
              (fun x => applyTaskStatusUpdate x .accepted ⟨some rid, none⟩) taskId
              h.taskIdsNodup htm htid]
          have hback := h.escrowBacking uw huwm
          have h1 : runContrib uw.user_id
              (applyTaskStatusUpdate t .accepted ⟨some rid, none⟩)
              = t.runner_amount := by
            rw [runContrib_update_some uw.user_id t .accepted hrne none]
            simp [huidr]
          show reqHold uw.user_id db.tasks
              + (reqContrib uw.user_id
                  (applyTaskStatusUpdate t .accepted ⟨some rid, none⟩)
                - reqContrib uw.user_id t)
              + (runHold uw.user_id db.tasks
                + (runContrib uw.user_id
                    (applyTaskStatusUpdate t .accepted ⟨some rid, none⟩)
                  - runContrib uw.user_id t))
              ≤ uw.escrow_balance + t.runner_amount
          rw [hdreq, h1, hrun0]
          linarith
        · have hmemdb : w' ∈ db.wallets := by rw [hE1w] at hmem; exact hmem
          have hnu : w'.user_id ≠ rid := by
            intro hc
            have hww : w' = uw := eq_of_key_eq_of_nodup Wallet.user_id
              h.walletUsersNodup hmemdb huwm (by rw [hc, huidr])
            exact hnei (by rw [hww])
          rw [reqHold_update w'.user_id
              (fun x => applyTaskStatusUpdate x .accepted ⟨some rid, none⟩) taskId
              h.taskIdsNodup htm htid,
            runHold_update w'.user_id
              (fun x => applyTaskStatusUpdate x .accepted ⟨some rid, none⟩) taskId
              h.taskIdsNodup htm htid]
          have h1 : runContrib w'.user_id
              (applyTaskStatusUpdate t .accepted ⟨some rid, none⟩) = 0 := by
            rw [runContrib_update_some w'.user_id t .accepted hrne none]
            simp [Ne.symm hnu]
          show reqHold w'.user_id db.tasks
              + (reqContrib w'.user_id
                  (applyTaskStatusUpdate t .accepted ⟨some rid, none⟩)
                - reqContrib w'.user_id t)
              + (runHold w'.user_id db.tasks
                + (runContrib w'.user_id
                    (applyTaskStatusUpdate t .accepted ⟨some rid, none⟩)
                  - runContrib w'.user_id t))
              ≤ w'.escrow_balance
          rw [hdreq, h1, hrun0]
          have hback := h.escrowBacking w' hmemdb
          linarith
      · rw [createTransaction_settings, setWalletDoc_settings, hE1s]
        exact h.commissionPct

theorem reqContrib_nonneg {t : Task} (h : 0 ≤ t.reward_amount) (u : String) :
    0 ≤ reqContrib u t := by
  unfold reqContrib
  split
  · exact h
  · exact le_refl 0

theorem runContrib_nonneg {t : Task} (h : 0 ≤ t.runner_amount) (u : String) :
    0 ≤ runContrib u t := by
  unfold runContrib
  split
  · exact h
  · exact le_refl 0

theorem wallet_id_ne_of_user_ne {db : DB} (h : Inv db) {a b : Wallet}
    (ha : a ∈ db.wallets) (hb : b ∈ db.wallets) (hu : a.user_id ≠ b.user_id) :
    (a.id == b.id) = false := by
  rw [beq_eq_false_iff_ne]
  intro hid
  exact hu (by rw [eq_of_key_eq_of_nodup Wallet.id h.walletIdsNodup ha hb hid])

theorem getEscrowsByTaskId_head_mem {tid : Nat} {db : DB} {escrow : Escrow}
    {rest : List Escrow} (h : getEscrowsByTaskId tid db = escrow :: rest) :
    escrow ∈ db.escrows ∧ escrow.task_id = tid := by
  have hmem : escrow ∈ getEscrowsByTaskId tid db := by
    rw [h]
    exact List.mem_cons_self _ _
  have h2 := List.mem_filter.1 hmem
  exact ⟨h2.1, by simpa using h2.2⟩

/-- `completeTask` preserves the ledger invariant when fired on an
accepted/in-progress task: every hold released by the status change is
matched by the corresponding `escrow_balance` debit. -/
theorem inv_completeTask {db : DB} (h : Inv db) (taskId : Nat)
    (hg : ∀ t, getTask taskId db = some t →
      t.status = .accepted ∨ t.status = .in_progress) :
    Inv (completeTask taskId db).1 := by
  cases ht : getTask taskId db with
  | none =>
    rw [completeTask_noTask ht]
    exact h
  | some t =>
    have htm := getTask_mem ht
    have htid := getTask_id_eq ht
    have hstat := hg t ht
    obtain ⟨hc0, hr0, hsum⟩ := h.taskAmounts t htm
    have hrew0 : 0 ≤ t.reward_amount := by
      rw [hsum]
      exact add_nonneg hc0 hr0
    have hzero_req : ∀ u : String,
        reqContrib u (applyTaskStatusUpdate t .completed ⟨none, none⟩) = 0 := by
      intro u
      rw [reqContrib_update]
      simp
    have hzero_run : ∀ u : String,
        runContrib u (applyTaskStatusUpdate t .completed ⟨none, none⟩) = 0 := by
      intro u
      rw [runContrib_update_none]
      simp
    have hU : Inv (updateTaskStatus taskId .completed ⟨none, none⟩ db) := by
      refine inv_updateTaskStatus_le h ht .completed ⟨none, none⟩ ?_ ?_
      · intro s hs
        rw [runnerOf_update_none] at hs
        exact h.runnerNeRequester t htm s hs
      · intro w hwm
        rw [hzero_req, hzero_run]
        have ha := reqContrib_nonneg hrew0 w.user_id
        have hb := runContrib_nonneg hr0 w.user_id
        linarith
    cases hrid : t.runner_id with
    | none =>
      rw [completeTask_noRunner ht hrid]
      exact hU
    | some rid =>
      by_cases hgu : rid ≠ "" ∧ 0 < t.runner_amount
      · cases hrw : getWallet t.requester_id db with
        | none =>
          rw [completeTask_noRequesterWallet ht hrid hgu hrw]
          exact hU
        | some rw =>
          cases hru : getWallet rid db with
          | none =>
            rw [completeTask_noRunnerWallet ht hrid hgu hrw hru]
            exact hU
          | some uw =>
            rw [completeTask_ok ht hrid hgu hrw hru]
            dsimp only
            have hreqw : rw.user_id = t.requester_id := getWallet_user_eq hrw
            have hruw : uw.user_id = rid := getWallet_user_eq hru
            have hrwm : rw ∈ db.wallets := getWallet_mem hrw
            have huwm : uw ∈ db.wallets := getWallet_mem hru
            have hrunnerOf : runnerOf t = some rid := by
              simp [runnerOf, hrid, hgu.1]
            have hrneq : rid ≠ t.requester_id :=
              h.runnerNeRequester t htm rid hrunnerOf
            have huser_ne : uw.user_id ≠ rw.user_id := by
              rw [hruw, hreqw]
              exact hrneq
            have hidne : (uw.id == rw.id) = false :=
              wallet_id_ne_of_user_ne h huwm hrwm huser_ne
            have hopen : taskOpenForRequester t = true := by
              rcases hstat with hs | hs <;> simp [taskOpenForRequester, hs]
            have hactive : taskActiveForRunner t = true := by
              rcases hstat with hs | hs <;> simp [taskActiveForRunner, hs]
            have hreqC_req : reqContrib rw.user_id t = t.reward_amount := by
              unfold reqContrib
              rw [hreqw]
              simp [hopen]
            have hrunC_req : runContrib rw.user_id t = 0 := by
              unfold runContrib
              rw [hrunnerOf, hreqw]
              simp [hrneq]
            have hreqC_run : reqContrib uw.user_id t = 0 := by
              unfold reqContrib
              rw [hruw]
              simp [Ne.symm hrneq]
            have hrunC_run : runContrib uw.user_id t = t.runner_amount := by
              unfold runContrib
              rw [hrunnerOf, hruw]
              simp [hactive]
            set dbU : DB := updateTaskStatus taskId .completed ⟨none, none⟩ db
              with hdbU
            set W3 : DB := setWalletDoc rw.id
              ⟨none, some (rw.escrow_balance - t.reward_amount), none, none⟩ dbU
              with hW3
            have hrwU : rw ∈ dbU.wallets := by
              rw [hdbU, updateTaskStatus_wallets]
              exact hrwm
            have hW3inv : Inv W3 := by
              rw [hW3]
              refine inv_setWalletDoc hU hrwU _ ?_ ?_
              · show 0 ≤ rw.balance
                exact h.balanceNonneg rw hrwm
              · show reqHold rw.user_id dbU.tasks + runHold rw.user_id dbU.tasks
                    ≤ rw.escrow_balance - t.reward_amount
                rw [hdbU, updateTaskStatus_tasks]
                rw [reqHold_update rw.user_id
                    (fun x => applyTaskStatusUpdate x .completed ⟨none, none⟩) taskId
                    h.taskIdsNodup htm htid,
                  runHold_update rw.user_id
                    (fun x => applyTaskStatusUpdate x .completed ⟨none, none⟩) taskId
                    h.taskIdsNodup htm htid]
                rw [hzero_req, hzero_run, hreqC_req, hrunC_req]
                have hback := h.escrowBacking rw hrwm
                linarith
            have huwW3 : uw ∈ W3.wallets := by
              rw [hW3]
              refine mem_setWalletDoc_of_ne _ ?_ hidne
              rw [hdbU, updateTaskStatus_wallets]
              exact huwm
            have hW4inv : Inv (setWalletDoc uw.id
                ⟨some (uw.balance + t.runner_amount),
                 some (uw.escrow_balance - t.runner_amount),
                 some (uw.total_earned + t.runner_amount), none⟩ W3) := by
              refine inv_setWalletDoc hW3inv huwW3 _ ?_ ?_
              · show 0 ≤ uw.balance + t.runner_amount
                have := h.balanceNonneg uw huwm
                linarith
              · show reqHold uw.user_id W3.tasks + runHold uw.user_id W3.tasks
                    ≤ uw.escrow_balance - t.runner_amount
                rw [hW3, setWalletDoc_tasks, hdbU, updateTaskStatus_tasks]
                rw [reqHold_update uw.user_id
                    (fun x => applyTaskStatusUpdate x .completed ⟨none, none⟩) taskId
                    h.taskIdsNodup htm htid,
                  runHold_update uw.user_id
                    (fun x => applyTaskStatusUpdate x .completed ⟨none, none⟩) taskId
                    h.taskIdsNodup htm htid]
                rw [hzero_req, hzero_run, hreqC_run, hrunC_run]
                have hback := h.escrowBacking uw huwm
                linarith
            have hBinv : Inv ((createTransaction
                ⟨t.requester_id, .escrow_release, t.reward_amount, .completed,
                 some taskId⟩
                ((createTransaction
                  ⟨rid, .task_earning, t.runner_amount, .completed, some taskId⟩
                  (setWalletDoc uw.id
                    ⟨some (uw.balance + t.runner_amount),
                     some (uw.escrow_balance - t.runner_amount),
                     some (uw.total_earned + t.runner_amount), none⟩ W3)).1)).1) :=
              inv_of_components hW4inv rfl rfl rfl rfl (Nat.le_add_right _ 2)
            split
            · exact hBinv
            · exact inv_escrows_mapped hBinv _ _ (updateEscrow_wallets _ _ _)
                (updateEscrow_tasks _ _ _) (updateEscrow_escrows _ _ _)
                (updateEscrow_settings _ _ _)
                (le_of_eq (updateEscrow_nextId _ _ _).symm)
      · rw [completeTask_skipGuard ht hrid hgu]
        exact hU

/-- `cancelTask` preserves the ledger invariant when fired on a
non-terminal task: the refund credits exactly what the cancelled task's
holds release. -/
theorem inv_cancelTask {db : DB} (h : Inv db) (taskId : Nat)
    (reason : Option String)
    (hg : ∀ t, getTask taskId db = some t →
      t.status = .pending ∨ t.status = .accepted ∨ t.status = .in_progress) :
    Inv (cancelTask taskId reason db).1 := by
  cases ht : getTask taskId db with
  | none =>
    rw [cancelTask_noTask reason ht]
    exact h
  | some t =>
    have htm := getTask_mem ht
    have htid := getTask_id_eq ht
    obtain ⟨hc0, hr0, hsum⟩ := h.taskAmounts t htm
    have hrew0 : 0 ≤ t.reward_amount := by
      rw [hsum]
      exact add_nonneg hc0 hr0
    have hzero_req : ∀ u : String,
        reqContrib u (applyTaskStatusUpdate t .cancelled ⟨none, reason⟩) = 0 := by
      intro u
      rw [reqContrib_update]
      simp
    have hzero_run : ∀ u : String,
        runContrib u (applyTaskStatusUpdate t .cancelled ⟨none, reason⟩) = 0 := by
      intro u
      rw [runContrib_update_none]
      simp
    have hU : Inv (updateTaskStatus taskId .cancelled ⟨none, reason⟩ db) := by
      refine inv_updateTaskStatus_le h ht .cancelled ⟨none, reason⟩ ?_ ?_
      · intro s hs
        rw [runnerOf_update_none] at hs
        exact h.runnerNeRequester t htm s hs
      · intro w hwm
        rw [hzero_req, hzero_run]
        have ha := reqContrib_nonneg hrew0 w.user_id
        have hb := runContrib_nonneg hr0 w.user_id
        linarith
    cases hrid : t.runner_id with
    | none =>
      rw [cancelTask_noRunner reason ht hrid]
      exact hU
    | some rid =>
      by_cases hgu : rid ≠ "" ∧ t.status = TaskStatus.accepted
      · have hopen : taskOpenForRequester t = true := by
          simp [taskOpenForRequester, hgu.2]
        have hactive : taskActiveForRunner t = true := by
          simp [taskActiveForRunner, hgu.2]
        have hrunnerOf : runnerOf t = some rid := by
          simp [runnerOf, hrid, hgu.1]
        have hrneq : rid ≠ t.requester_id :=
          h.runnerNeRequester t htm rid hrunnerOf
        set dbU : DB := updateTaskStatus taskId .cancelled ⟨none, reason⟩ db
          with hdbU
        cases hesc : getEscrowsByTaskId taskId db with
        | cons escrow rest =>
          cases hrw : getWallet t.requester_id db with
          | none =>
            rw [cancelTask_refund_noRequesterWallet reason ht hrid hgu hesc hrw]
            exact hU
          | some rw =>
            have hreqw : rw.user_id = t.requester_id := getWallet_user_eq hrw
            have hrwm : rw ∈ db.wallets := getWallet_mem hrw
            obtain ⟨hescmem, hesctid⟩ := getEscrowsByTaskId_head_mem hesc
            have hescamt : escrow.amount = t.reward_amount :=
              h.escrowMatchesTask escrow hescmem t htm (by rw [hesctid, htid])
            have hreqC_req : reqContrib rw.user_id t = t.reward_amount := by
              unfold reqContrib
              rw [hreqw]
              simp [hopen]
            have hrunC_req : runContrib rw.user_id t = 0 := by
              unfold runContrib
              rw [hrunnerOf, hreqw]
              simp [hrneq]
            have hrwU : rw ∈ dbU.wallets := by
              rw [hdbU, updateTaskStatus_wallets]
              exact hrwm
            set W6 : DB := setWalletDoc rw.id
              ⟨some (rw.balance + escrow.amount),
               some (rw.escrow_balance - escrow.amount), none, none⟩ dbU with hW6
            have hW6inv : Inv W6 := by
              rw [hW6]
              refine inv_setWalletDoc hU hrwU _ ?_ ?_
              · show 0 ≤ rw.balance + escrow.amount
                have := h.balanceNonneg rw hrwm
                rw [hescamt]
                linarith
              · show reqHold rw.user_id dbU.tasks + runHold rw.user_id dbU.tasks
                    ≤ rw.escrow_balance - escrow.amount
                rw [hdbU, updateTaskStatus_tasks]
                rw [reqHold_update rw.user_id
                    (fun x => applyTaskStatusUpdate x .cancelled ⟨none, reason⟩)
                    taskId h.taskIdsNodup htm htid,
                  runHold_update rw.user_id
                    (fun x => applyTaskStatusUpdate x .cancelled ⟨none, reason⟩)
                    taskId h.taskIdsNodup htm htid]
                rw [hzero_req, hzero_run, hreqC_req, hrunC_req, hescamt]
                have hback := h.escrowBacking rw hrwm
                linarith
            cases hru : getWallet rid db with
            | none =>
              rw [cancelTask_refund_noRunnerWallet reason ht hrid hgu hesc hrw hru]
              dsimp only
              have hXinv : Inv ((createTransaction
                  ⟨t.requester_id, .refund, escrow.amount, .completed, some taskId⟩
                  W6).1) :=
                inv_of_components hW6inv rfl rfl rfl rfl (Nat.le_succ _)
              exact inv_escrows_mapped hXinv _ _
                (updateEscrow_wallets _ _ _) (updateEscrow_tasks _ _ _)
                (updateEscrow_escrows _ _ _) (updateEscrow_settings _ _ _)
                (le_of_eq (updateEscrow_nextId _ _ _).symm)
            | some uw =>
              have hruw : uw.user_id = rid := getWallet_user_eq hru
              have huwm : uw ∈ db.wallets := getWallet_mem hru
              have huser_ne : uw.user_id ≠ rw.user_id := by
                rw [hruw, hreqw]
                exact hrneq
              have hidne : (uw.id == rw.id) = false :=
                wallet_id_ne_of_user_ne h huwm hrwm huser_ne
              rw [cancelTask_refund_ok reason ht hrid hgu hesc hrw hru hidne]
              dsimp only
              have hreqC_run : reqContrib uw.user_id t = 0 := by
                unfold reqContrib
                rw [hruw]
                simp [Ne.symm hrneq]
              have hrunC_run : runContrib uw.user_id t = t.runner_amount := by
                unfold runContrib
                rw [hrunnerOf, hruw]
                simp [hactive]
              set X : DB := (createTransaction
                ⟨t.requester_id, .refund, escrow.amount, .completed, some taskId⟩
                W6).1 with hX
              have hXinv : Inv X := by
                rw [hX]
                exact inv_of_components hW6inv rfl rfl rfl rfl (Nat.le_succ _)
              have huwX : uw ∈ X.wallets := by
                rw [hX, createTransaction_wallets, hW6]
                refine mem_setWalletDoc_of_ne _ ?_ hidne
                rw [hdbU, updateTaskStatus_wallets]
                exact huwm
              have hYinv : Inv (setWalletDoc uw.id
                  ⟨none, some (uw.escrow_balance - t.runner_amount), none, none⟩
                  X) := by
                refine inv_setWalletDoc hXinv huwX _ ?_ ?_
                · show 0 ≤ uw.balance
                  exact h.balanceNonneg uw huwm
                · show reqHold uw.user_id X.tasks + runHold uw.user_id X.tasks
                      ≤ uw.escrow_balance - t.runner_amount
                  rw [hX, createTransaction_tasks, hW6, setWalletDoc_tasks, hdbU,
                    updateTaskStatus_tasks]
                  rw [reqHold_update uw.user_id
                      (fun x => applyTaskStatusUpdate x .cancelled ⟨none, reason⟩)
                      taskId h.taskIdsNodup htm htid,
                    runHold_update uw.user_id
                      (fun x => applyTaskStatusUpdate x .cancelled ⟨none, reason⟩)
                      taskId h.taskIdsNodup htm htid]
                  rw [hzero_req, hzero_run, hreqC_run, hrunC_run]
                  have hback := h.escrowBacking uw huwm
                  linarith
              have hZinv : Inv ((createTransaction
                  ⟨rid, .escrow_release, t.runner_amount, .completed, some taskId⟩
                  (setWalletDoc uw.id
                    ⟨none, some (uw.escrow_balance - t.runner_amount), none, none⟩
                    X)).1) :=
                inv_of_components hYinv rfl rfl rfl rfl (Nat.le_succ _)
              exact inv_escrows_mapped hZinv _ _
                (updateEscrow_wallets _ _ _) (updateEscrow_tasks _ _ _)
                (updateEscrow_escrows _ _ _) (updateEscrow_settings _ _ _)
                (le_of_eq (updateEscrow_nextId _ _ _).symm)
        | nil =>
          cases hru : getWallet rid db with
          | none =>
            rw [cancelTask_noEscrow_noWallet reason ht hrid hgu hesc hru]
            exact hU
          | some uw =>
            rw [cancelTask_noEscrow_release reason ht hrid hgu hesc hru]
            dsimp only
            have hruw : uw.user_id = rid := getWallet_user_eq hru
            have huwm : uw ∈ db.wallets := getWallet_mem hru
            have hreqC_run : reqContrib uw.user_id t = 0 := by
              unfold reqContrib
              rw [hruw]
              simp [Ne.symm hrneq]
            have hrunC_run : runContrib uw.user_id t = t.runner_amount := by
              unfold runContrib
              rw [hrunnerOf, hruw]
              simp [hactive]
            have huwU : uw ∈ dbU.wallets := by
              rw [hdbU, updateTaskStatus_wallets]
              exact huwm
            have hYinv : Inv (setWalletDoc uw.id
                ⟨none, some (uw.escrow_balance - t.runner_amount), none, none⟩
                dbU) := by
              refine inv_setWalletDoc hU huwU _ ?_ ?_
              · show 0 ≤ uw.balance
                exact h.balanceNonneg uw huwm
              · show reqHold uw.user_id dbU.tasks + runHold uw.user_id dbU.tasks
                    ≤ uw.escrow_balance - t.runner_amount
                rw [hdbU, updateTaskStatus_tasks]
                rw [reqHold_update uw.user_id
                    (fun x => applyTaskStatusUpdate x .cancelled ⟨none, reason⟩)
                    taskId h.taskIdsNodup htm htid,
                  runHold_update uw.user_id
                    (fun x => applyTaskStatusUpdate x .cancelled ⟨none, reason⟩)
                    taskId h.taskIdsNodup htm htid]
                rw [hzero_req, hzero_run, hreqC_run, hrunC_run]
                have hback := h.escrowBacking uw huwm
                linarith
            exact inv_of_components hYinv rfl rfl rfl rfl (Nat.le_succ _)
      · rw [cancelTask_skipGuard reason ht hrid hgu]
        exact hU

/-- Every state-machine-respecting core operation preserves `Inv`. -/
theorem inv_step {db db' : DB} (h : Inv db) (hs : LStep db db') : Inv db' := by
  cases hs with
  | create uid td _ h1 h2 h3 => exact inv_createNewTask h uid td h1 h2 h3
  | accept taskId rid _ hga hr => exact inv_acceptTask h taskId rid hga hr
  | start uid taskId _ hga => exact inv_startTask h uid taskId hga
  | complete taskId _ hga => exact inv_completeTask h taskId hga
  | cancel taskId reason _ hga => exact inv_cancelTask h taskId reason hga
  | deposit uid amount _ => exact inv_deposit h uid amount
  | withdraw uid amount _ => exact inv_withdraw h uid amount

/-- `Inv` holds along every reachable state. -/
theorem inv_reach {db db' : DB} (h : Inv db) (hr : Reach db db') : Inv db' := by
  induction hr with
  | refl => exact h
  | tail _ hstep ih => exact inv_step ih hstep

/-- The spec's initial scenario state satisfies the ledger invariant. -/
theorem inv_sampleDB : Inv sampleDB := by
  refine ⟨?_, ?_, ?_, ?_, ?_, ?_, ?_, ?_, ?_, ?_, ?_⟩
  · decide
  · decide
  · decide
  · simp [sampleDB]
  · simp [sampleDB]
  · norm_num [sampleDB, wReq, wRun]
  · simp [sampleDB]
  · simp [sampleDB]
  · simp [sampleDB]
  · norm_num [sampleDB, wReq, wRun, reqHold, runHold]
  · norm_num [sampleDB, sampleSettings]

/-! ### Claim theorems -/

/-- Claim C2 (corrected).  Acceptance does **not** perform `moveToEscrow`
on the runner's wallet: it only *adds* `runner_amount` to the runner's
`escrow_balance`, leaves the runner's `balance` untouched, and performs no
insufficient-funds check at all — the theorem assumes nothing about the
runner's balance, and acceptance succeeds regardless. -/
theorem C2_accept_escrow_hold {taskId : Nat} {db : DB} {t : Task} {rid : String}
    {w : Wallet} (ht : getTask taskId db = some t)
    (hw : getWallet rid db = some w) :
    (acceptTask taskId rid db).2 = Except.ok () ∧
    getWallet rid (acceptTask taskId rid db).1 =
      some { w with escrow_balance := w.escrow_balance + t.runner_amount } := by
  rw [acceptTask_ok ht hw]
  refine ⟨rfl, ?_⟩
  rw [getWallet_createTransaction, getWallet_setWalletDoc, getWallet_createEscrow,
    getWallet_updateTaskStatus, hw]
  show some (if (w.id == w.id) = true then _ else w) = _
  rw [if_pos (by simp)]
  rfl

/-- Claim C2, counterexample.  A runner whose balance is 0 (less than the
1800 stake) accepts successfully — no `InsufficientFunds` — and ends with
`balance = 0, escrow_balance = 1800`; in the spec scenario (balance 1800)
the runner ends with `balance = 1800`, not the claimed `balance = 0`. -/
theorem C2_accept_escrow_hold_counterexample :
    (acceptTask 2 "run" dbPoorAfterCreate).2 = Except.ok () ∧
    getWallet "run" (acceptTask 2 "run" dbPoorAfterCreate).1 =
      some ⟨1, "run", 0, 1800, 0, 0⟩ ∧
    getWallet "run" dbAfterAccept = some ⟨1, "run", 1800, 1800, 0, 0⟩ := by
  refine ⟨?_, ?_, ?_⟩
  · rw [dbPoorAfterCreate_eq]
    norm_num [dbPoorAfterCreateVal, sampleSettings, acceptTask, getTask, getWallet,
      updateWallet, setWalletDoc, applyWalletUpdate, updateTaskStatus,
      applyTaskStatusUpdate, createTransaction, createEscrow, List.find?,
      strbeq_req_run, strbeq_run_run, strbeq_req_req, strbeq_run_req,
      strne_req_run, strne_run_req, strne_run_empty, strne_req_empty]
  · rw [dbPoorAfterCreate_eq]
    norm_num [dbPoorAfterCreateVal, sampleSettings, acceptTask, getTask, getWallet,
      updateWallet, setWalletDoc, applyWalletUpdate, updateTaskStatus,
      applyTaskStatusUpdate, createTransaction, createEscrow, List.find?,
      strbeq_req_run, strbeq_run_run, strbeq_req_req, strbeq_run_req,
      strne_req_run, strne_run_req, strne_run_empty, strne_req_empty]
  · rw [dbAfterAccept_eq]
    norm_num [dbAfterAcceptVal, getWallet, List.find?,
      strbeq_req_run, strbeq_run_run]

/-- Claim C2, witness for the corrected statement, at the spec scenario. -/
theorem C2_accept_escrow_hold_witness :
    getWallet "run" (acceptTask 2 "run" dbAfterCreate).1 =
      some ⟨1, "run", 1800, 0 + 1800, 0, 0⟩ :=
  (C2_accept_escrow_hold
    (show getTask 2 dbAfterCreate =
        some ⟨2, "req", none, .pending, 2000, 200, 1800, none⟩ by
      rw [dbAfterCreate_eq]; rfl)
    (show getWallet "run" dbAfterCreate = some ⟨1, "run", 1800, 0, 0, 0⟩ by
      rw [dbAfterCreate_eq]; rfl)).2

/-- Claim C3 (corrected).  Cancelling a task that is still `pending` does
**not** refund the requester: the refund branch requires the task to have
been `accepted` with a runner assigned, so a pending-task cancel only
rewrites the task's status and touches no wallet, transaction or escrow. -/
theorem C3_cancel_pending_no_refund {taskId : Nat} {db : DB} {t : Task}
    (reason : Option String) (ht : getTask taskId db = some t)
    (hp : t.status = TaskStatus.pending) :
    cancelTask taskId reason db =
      (updateTaskStatus taskId .cancelled ⟨none, reason⟩ db, Except.ok ()) ∧
    (cancelTask taskId reason db).1.wallets = db.wallets ∧
    (cancelTask taskId reason db).1.transactions = db.transactions ∧
    (cancelTask taskId reason db).1.escrows = db.escrows ∧
    getTask taskId (cancelTask taskId reason db).1 =
      some (applyTaskStatusUpdate t .cancelled ⟨none, reason⟩) := by
  have hmain : cancelTask taskId reason db =
      (updateTaskStatus taskId .cancelled ⟨none, reason⟩ db, Except.ok ()) := by
    cases hrid : t.runner_id with
    | none => exact cancelTask_noRunner reason ht hrid
    | some rid =>
      refine cancelTask_skipGuard reason ht hrid ?_
      rintro ⟨-, hacc⟩
      rw [hp] at hacc
      exact TaskStatus.noConfusion hacc
  rw [hmain]
  exact ⟨rfl, rfl, rfl, rfl, getTask_updateTaskStatus_self ht _ _⟩

/-- Claim C3, counterexample.  In the scenario, cancelling the pending
task leaves the requester at `balance = 3000, escrow_balance = 2000`; the
claimed refund would have restored `balance = 5000, escrow_balance = 0`. -/
theorem C3_cancel_pending_no_refund_counterexample :
    (cancelTask 2 (some "no need") dbAfterCreate).2 = Except.ok () ∧
    getWallet "req" (cancelTask 2 (some "no need") dbAfterCreate).1 =
      some ⟨0, "req", 3000, 2000, 0, 2000⟩ ∧
    getTask 2 (cancelTask 2 (some "no need") dbAfterCreate).1 =
      some ⟨2, "req", none, .cancelled, 2000, 200, 1800, some "no need"⟩ := by
  rw [dbAfterCreate_eq]
  norm_num [dbAfterCreateVal, sampleSettings, cancelTask, getTask, getWallet,
    updateWallet, setWalletDoc, applyWalletUpdate, updateTaskStatus,
    applyTaskStatusUpdate, createTransaction, createEscrow, getEscrowsByTaskId,
    updateEscrow, applyEscrowUpdate, List.find?, List.filter,
    strbeq_req_run, strbeq_run_run, strbeq_req_req, strbeq_run_req,
    strne_req_run, strne_run_req, strne_run_empty, strne_req_empty]

/-- Claim C3, witness for the corrected statement. -/
theorem C3_cancel_pending_no_refund_witness :
    (cancelTask 2 (some "no need") dbAfterCreate).1.wallets
      = dbAfterCreate.wallets :=
  (C3_cancel_pending_no_refund (some "no need")
    (show getTask 2 dbAfterCreate =
        some ⟨2, "req", none, .pending, 2000, 200, 1800, none⟩ by
      rw [dbAfterCreate_eq]; rfl)
    rfl).2.1

/-- Claim C5 (corrected).  Neither `completeTask` nor `cancelTask` checks
the current status, and no `InvalidTransition` error exists: on a task
already in a terminal state both calls succeed.  A second `cancel` happens
to add no wallet effect (its refund branch needs prior status `accepted`),
but a second `complete` re-runs the full payout, crediting the runner
`runner_amount` again. -/
theorem C5_terminal_transitions {taskId : Nat} {db : DB} {t : Task}
    (reason : Option String) (ht : getTask taskId db = some t)
    (hterm : t.status = TaskStatus.completed ∨ t.status = TaskStatus.cancelled) :
    ((cancelTask taskId reason db).2 = Except.ok () ∧
      (cancelTask taskId reason db).1.wallets = db.wallets) ∧
    (completeTask taskId db).2 = Except.ok () ∧
    (∀ rid rw uw, t.runner_id = some rid → rid ≠ "" → 0 < t.runner_amount →
      getWallet t.requester_id db = some rw → getWallet rid db = some uw →
      (uw.id == rw.id) = false →
      getWallet rid (completeTask taskId db).1 =
        some { uw with
                balance := uw.balance + t.runner_amount,
                escrow_balance := uw.escrow_balance - t.runner_amount,
                total_earned := uw.total_earned + t.runner_amount }) := by
  have hnacc : t.status ≠ TaskStatus.accepted := by
    rcases hterm with h | h <;> rw [h] <;> exact fun hx => TaskStatus.noConfusion hx
  refine ⟨?_, ?_, ?_⟩
  · have hmain : cancelTask taskId reason db =
        (updateTaskStatus taskId .cancelled ⟨none, reason⟩ db, Except.ok ()) := by
      cases hrid : t.runner_id with
      | none => exact cancelTask_noRunner reason ht hrid
      | some rid =>
        exact cancelTask_skipGuard reason ht hrid fun ⟨_, hacc⟩ => hnacc hacc
    rw [hmain]
    exact ⟨rfl, rfl⟩
  · cases hrid : t.runner_id with
    | none => rw [completeTask_noRunner ht hrid]
    | some rid =>
      by_cases hg : rid ≠ "" ∧ 0 < t.runner_amount
      · cases hrw : getWallet t.requester_id db with
        | none => rw [completeTask_noRequesterWallet ht hrid hg hrw]
        | some rw =>
          cases hru : getWallet rid db with
          | none => rw [completeTask_noRunnerWallet ht hrid hg hrw hru]
          | some uw => exact completeTask_payout_ok ht hrid hg.1 hg.2 hrw hru
      · rw [completeTask_skipGuard ht hrid hg]
  · intro rid rw uw hrid hrne hra hrw hru hne
    exact completeTask_payout_runner ht hrid hrne hra hrw hru hne

/-- Claim C5, witness: on the already-completed scenario task, a second
cancel leaves wallets unchanged and a second complete pays the runner
another 1800. -/
theorem C5_terminal_transitions_witness :
    (cancelTask 2 none dbAfterComplete).1.wallets = dbAfterComplete.wallets ∧
    getWallet "run" (completeTask 2 dbAfterComplete).1 =
      some ⟨1, "run", 3600 + 1800, 0 - 1800, 1800 + 1800, 0⟩ := by
  have h := C5_terminal_transitions
    (t := ⟨2, "req", some "run", .completed, 2000, 200, 1800, none⟩) none
    (show getTask 2 dbAfterComplete =
        some ⟨2, "req", some "run", .completed, 2000, 200, 1800, none⟩ by
      rw [dbAfterComplete_eq]; rfl)
    (Or.inl rfl)
  refine ⟨h.1.2, ?_⟩
  exact h.2.2 "run" ⟨0, "req", 3000, 0, 0, 2000⟩ ⟨1, "run", 3600, 0, 1800, 0⟩
    rfl (by decide) (by norm_num)
    (show getWallet "req" dbAfterComplete = some ⟨0, "req", 3000, 0, 0, 2000⟩ by
      rw [dbAfterComplete_eq]; rfl)
    (show getWallet "run" dbAfterComplete = some ⟨1, "run", 3600, 0, 1800, 0⟩ by
      rw [dbAfterComplete_eq]; rfl)
    rfl

/-- Claim C5, counterexample.  Completing the already-completed scenario
task succeeds (the claim demands `InvalidTransition`) and repeats the full
payout: the runner is credited another 1800 and both escrow balances go
negative. -/
theorem C5_terminal_transitions_counterexample :
    (completeTask 2 dbAfterComplete).2 = Except.ok () ∧
    getWallet "run" (completeTask 2 dbAfterComplete).1 =
      some ⟨1, "run", 5400, -1800, 3600, 0⟩ ∧
    getWallet "req" (completeTask 2 dbAfterComplete).1 =
      some ⟨0, "req", 3000, -2000, 0, 2000⟩ := by
  rw [dbAfterComplete_eq]
  norm_num [dbAfterCompleteVal, sampleSettings, completeTask, getTask, getWallet,
    updateWallet, setWalletDoc, applyWalletUpdate, updateTaskStatus,
    applyTaskStatusUpdate, createTransaction, createEscrow, getEscrowsByTaskId,
    updateEscrow, applyEscrowUpdate, List.find?, List.filter,
    strbeq_req_run, strbeq_run_run, strbeq_req_req, strbeq_run_req,
    strne_req_run, strne_run_req, strne_run_empty, strne_req_empty]

/-- Claim C6 (corrected).  The split is computed with **no rounding**:
`commission_amount` is the exact rational `reward * pct / 100`,
`runner_amount` is the exact remainder, and the two sum to the reward
exactly, for every non-negative reward and percentage in `[0, 100]`. -/
theorem C6_commission_split (reward pct : ℚ) (h0 : 0 ≤ reward)
    (hp0 : 0 ≤ pct) (hp1 : pct ≤ 100) :
    commissionAmountOf reward pct = reward * pct / 100 ∧
    runnerAmountOf reward pct = reward - commissionAmountOf reward pct ∧
    commissionAmountOf reward pct + runnerAmountOf reward pct = reward := by
  refine ⟨rfl, rfl, ?_⟩
  unfold runnerAmountOf
  ring

/-- Claim C6, counterexample to the rounding clause: at
`reward_amount = 105`, `commission_percentage = 10` the code produces the
non-integer commission `21/2 = 10.5`, so no integer-valued rounding rule
describes it. -/
theorem C6_commission_split_counterexample :
    commissionAmountOf 105 10 = 21 / 2 ∧
    ¬ ∃ z : ℤ, (z : ℚ) = commissionAmountOf 105 10 := by
  have hval : commissionAmountOf 105 10 = 21 / 2 := by norm_num [commissionAmountOf]
  refine ⟨hval, ?_⟩
  rintro ⟨z, hz⟩
  rw [hval] at hz
  have h2 : (2 * z : ℤ) = (21 : ℤ) := by
    have hq : ((2 * z : ℤ) : ℚ) = ((21 : ℤ) : ℚ) := by
      push_cast
      rw [hz]
      ring
    exact_mod_cast hq
  omega

/-- Claim C6, witness at the spec scenario's split. -/
theorem C6_commission_split_witness :
    commissionAmountOf 2000 10 + runnerAmountOf 2000 10 = 2000 :=
  (C6_commission_split 2000 10 (by norm_num) (by norm_num) (by norm_num)).2.2

/-- Claim C7 (corrected).  For a completion with an assigned runner and
**positive** `runner_amount`: the requester's escrow drops by
`reward_amount` with no balance credit, and the runner's balance and
`total_earned` each rise by `runner_amount` while the runner's escrow
drops by it.  (When `runner_amount = 0` — a 100% commission — the code
skips the whole ledger block; see the counterexample.) -/
theorem C7_completion_payout {taskId : Nat} {db : DB} {t : Task} {rid : String}
    {rw uw : Wallet} (ht : getTask taskId db = some t)
    (hrid : t.runner_id = some rid) (hrne : rid ≠ "") (hra : 0 < t.runner_amount)
    (hrw : getWallet t.requester_id db = some rw)
    (hru : getWallet rid db = some uw) (hne : (uw.id == rw.id) = false) :
    (completeTask taskId db).2 = Except.ok () ∧
    getWallet t.requester_id (completeTask taskId db).1 =
      some { rw with escrow_balance := rw.escrow_balance - t.reward_amount } ∧
    getWallet rid (completeTask taskId db).1 =
      some { uw with
              balance := uw.balance + t.runner_amount,
              escrow_balance := uw.escrow_balance - t.runner_amount,
              total_earned := uw.total_earned + t.runner_amount } :=
  ⟨completeTask_payout_ok ht hrid hrne hra hrw hru,
   completeTask_payout_requester ht hrid hrne hra hrw hru hne,
   completeTask_payout_runner ht hrid hrne hra hrw hru hne⟩

/-- Claim C7, counterexample.  Under a 100% commission the runner amount
is 0, so completing the accepted task moves no money at all: the
requester's escrow stays at 2000 instead of dropping by `reward_amount`,
and the runner earns nothing. -/
theorem C7_completion_payout_counterexample :
    (completeTask 2 dbFullAfterAccept).2 = Except.ok () ∧
    getTask 2 (completeTask 2 dbFullAfterAccept).1 =
      some ⟨2, "req", some "run", .completed, 2000, 2000, 0, none⟩ ∧
    getWallet "req" (completeTask 2 dbFullAfterAccept).1 =
      some ⟨0, "req", 3000, 2000, 0, 2000⟩ ∧
    getWallet "run" (completeTask 2 dbFullAfterAccept).1 =
      some ⟨1, "run", 1800, 0, 0, 0⟩ := by
  rw [dbFullAfterAccept_eq]
  norm_num [dbFullAfterAcceptVal, fullCommissionSettings, completeTask, getTask,
    getWallet, updateWallet, setWalletDoc, applyWalletUpdate, updateTaskStatus,
    applyTaskStatusUpdate, createTransaction, createEscrow, getEscrowsByTaskId,
    updateEscrow, applyEscrowUpdate, List.find?, List.filter,
    strbeq_req_run, strbeq_run_run, strbeq_req_req, strbeq_run_req,
    strne_req_run, strne_run_req, strne_run_empty, strne_req_empty]

/-- Claim C7, witness for the corrected statement, at the spec scenario. -/
theorem C7_completion_payout_witness :
    getWallet "run" (completeTask 2 dbAfterAccept).1 =
      some ⟨1, "run", 1800 + 1800, 1800 - 1800, 0 + 1800, 0⟩ :=
  (C7_completion_payout
    (show getTask 2 dbAfterAccept =
        some ⟨2, "req", some "run", .accepted, 2000, 200, 1800, none⟩ by
      rw [dbAfterAccept_eq]; rfl)
    rfl (by decide) (by norm_num)
    (show getWallet "req" dbAfterAccept = some ⟨0, "req", 3000, 2000, 0, 2000⟩ by
      rw [dbAfterAccept_eq]; rfl)
    (show getWallet "run" dbAfterAccept = some ⟨1, "run", 1800, 1800, 0, 0⟩ by
      rw [dbAfterAccept_eq]; rfl)
    rfl).2.2

/-- Claim C8 (confirmed).  When the requester's balance is below
`reward_amount`, creation throws the insufficient-balance error before
anything is written: the returned state is the input state — no task row,
no wallet change, no transaction, no escrow. -/
theorem C8_insufficient_funds_blocks_creation {uid : String} {db : DB}
    {w : Wallet} (td : TaskInput) (hw : getWallet uid db = some w)
    (hb : w.balance < td.reward_amount) :
    createNewTask uid td db = (db, .error .insufficientWalletBalance) ∧
    (createNewTask uid td db).1.tasks = db.tasks ∧
    (createNewTask uid td db).1.wallets = db.wallets ∧
    (createNewTask uid td db).1.transactions = db.transactions ∧
    (createNewTask uid td db).1.escrows = db.escrows := by
  have h := createNewTask_insufficient td hw hb
  rw [h]
  exact ⟨rfl, rfl, rfl, rfl, rfl⟩

/-- Claim C8, witness: a 6000 task against a 5000 balance is rejected with
the state untouched. -/
theorem C8_insufficient_funds_blocks_creation_witness :
    createNewTask "req" ⟨.pending, 6000, none⟩ sampleDB
      = (sampleDB, .error .insufficientWalletBalance) :=
  (C8_insufficient_funds_blocks_creation ⟨.pending, 6000, none⟩
    (show getWallet "req" sampleDB = some wReq from rfl)
    (by norm_num [wReq])).1

/-- Claim C10 (confirmed).  `updateWallet` fetches the wallet of the
*requesting user* (never of the targeted `walletId`): it throws
`'Wallet not found'` exactly when the requesting user owns no wallet,
can never throw the `Unauthorized` error (the fetched wallet always
belongs to the fetcher), and otherwise merges the update into whatever
document has id `walletId` — even one owned by a different user. -/
theorem C10_updateWallet_ownership (walletId : Nat) (u : WalletUpdate)
    (ruid : String) (db : DB) :
    ((updateWallet walletId u ruid db).2 = Except.error CError.walletNotFound
      ↔ getWallet ruid db = none) ∧
    (updateWallet walletId u ruid db).2
      ≠ Except.error CError.unauthorizedWalletUpdate ∧
    (∀ w, getWallet ruid db = some w →
      updateWallet walletId u ruid db = (setWalletDoc walletId u db, Except.ok ())) := by
  cases hgw : getWallet ruid db with
  | none =>
    refine ⟨?_, ?_, ?_⟩
    · simp [updateWallet, hgw]
    · simp [updateWallet, hgw]
    · intro w hw
      cases hw
  | some w =>
    have hspec := updateWallet_spec hgw walletId u
    refine ⟨?_, ?_, ?_⟩
    · rw [hspec]
      simp [hgw]
    · rw [hspec]
      simp
    · intro w2 hw2
      exact hspec

/-- Claim C10, witness: user `req` updates wallet document 1 — the
*runner's* wallet — and the write goes through without `Unauthorized`. -/
theorem C10_updateWallet_ownership_witness :
    updateWallet 1 ⟨some 7, none, none, none⟩ "req" sampleDB
      = (setWalletDoc 1 ⟨some 7, none, none, none⟩ sampleDB, Except.ok ()) :=
  (C10_updateWallet_ownership 1 ⟨some 7, none, none, none⟩ "req" sampleDB).2.2
    wReq rfl

/-- Claim C9 (corrected).  `createNewTask` opens one `active` escrow and
`acceptTask` unconditionally opens a **second** `active` escrow for the
same task without closing the first, so a create-then-accept sequence
leaves exactly two active escrow records, not one.  Moreover `updateEscrow`
applies its merge unconditionally — no `AlreadyClosed` error exists, so an
already-released escrow can be "re-closed" freely. -/
theorem C9_escrow_records {db : DB} {uid ru : String} {td : TaskInput}
    {w uw : Wallet}
    (hw : getWallet uid db = some w) (hb : ¬ w.balance < td.reward_amount)
    (huw : getWallet ru db = some uw) (hne : (uw.id == w.id) = false)
    (hfresh : ∀ x ∈ db.tasks, x.id ≠ db.nextId)
    (hescfresh : ∀ e ∈ db.escrows, e.task_id ≠ db.nextId) :
    ((getEscrowsByTaskId db.nextId
        (acceptTask db.nextId ru (createNewTask uid td db).1).1).filter
      (fun e => e.status == EscrowStatus.active)).length = 2 ∧
    (∀ db2 eid e u, db2.escrows.find? (fun x => x.id == eid) = some e →
      e.status = EscrowStatus.released →
      (updateEscrow eid u db2).escrows.find? (fun x => x.id == eid)
        = some (applyEscrowUpdate e u)) := by
  constructor
  · rw [createNewTask_ok td hw hb]
    dsimp only
    have ht : getTask db.nextId
        ((createEscrow
          ⟨db.nextId, uid, "", td.reward_amount,
           commissionAmountOf td.reward_amount db.settings.commission_percentage,
           .active⟩
          ((createTransaction
            ⟨uid, .task_payment, td.reward_amount, .completed, some db.nextId⟩
            (setWalletDoc w.id
              ⟨some (w.balance - td.reward_amount),
               some (w.escrow_balance + td.reward_amount),
               none,
               some (w.total_spent + td.reward_amount)⟩
              { db with
                  tasks := db.tasks ++ [newTaskOf uid td db],
                  nextId := db.nextId + 1 })).1)).1)
        = some (newTaskOf uid td db) := by
      rw [getTask_createEscrow, getTask_createTransaction, getTask_setWalletDoc,
        getTask_withTasksNextId]
      exact find?_append_sing _ _ _ (fun x hx => by simp [hfresh x hx])
        (by simp [newTaskOf])
    have hwA : getWallet ru
        ((createEscrow
          ⟨db.nextId, uid, "", td.reward_amount,
           commissionAmountOf td.reward_amount db.settings.commission_percentage,
           .active⟩
          ((createTransaction
            ⟨uid, .task_payment, td.reward_amount, .completed, some db.nextId⟩
            (setWalletDoc w.id
              ⟨some (w.balance - td.reward_amount),
               some (w.escrow_balance + td.reward_amount),
               none,
               some (w.total_spent + td.reward_amount)⟩
              { db with
                  tasks := db.tasks ++ [newTaskOf uid td db],
                  nextId := db.nextId + 1 })).1)).1)
        = some uw := by
      rw [getWallet_createEscrow, getWallet_createTransaction,
        getWallet_setWalletDoc, getWallet_withTasksNextId, huw]
      show some (if (uw.id == w.id) = true then _ else uw) = some uw
      rw [if_neg (by simp [hne])]
    rw [acceptTask_ok ht hwA]
    dsimp only
    rw [getEscrowsByTaskId_createTransaction, getEscrowsByTaskId_setWalletDoc,
      getEscrowsByTaskId_createEscrow_match _ _ _ (by simp),
      getEscrowsByTaskId_updateTaskStatus,
      getEscrowsByTaskId_createEscrow_match _ _ _ (by simp),
      getEscrowsByTaskId_createTransaction, getEscrowsByTaskId_setWalletDoc,
      getEscrowsByTaskId_withTasksNextId, getEscrowsByTaskId_nil hescfresh]
    simp [List.filter]
  · intro db2 eid e u hfind hstat
    exact findEscrow_updateEscrow_self hfind u

/-- Claim C9, counterexample.  The scenario's create-then-accept leaves
two active escrows for task 2; and the scenario's released escrow 4 can be
re-closed to `refunded` with no error. -/
theorem C9_escrow_records_counterexample :
    ((getEscrowsByTaskId 2 dbAfterAccept).filter
      (fun e => e.status == EscrowStatus.active)).length = 2 ∧
    (updateEscrow 4 ⟨some .refunded⟩ dbAfterComplete).escrows.find?
      (fun x => x.id == 4) = some ⟨4, 2, "req", "", 2000, 200, .refunded⟩ := by
  constructor
  · rw [dbAfterAccept_eq]
    norm_num [dbAfterAcceptVal, getEscrowsByTaskId, List.filter]
  · rw [dbAfterComplete_eq]
    norm_num [dbAfterCompleteVal, updateEscrow, applyEscrowUpdate, List.find?]

/-- Claim C9, witness for the corrected statement at the spec scenario. -/
theorem C9_escrow_records_witness :
    ((getEscrowsByTaskId sampleDB.nextId
        (acceptTask sampleDB.nextId "run"
          (createNewTask "req" sampleInput sampleDB).1).1).filter
      (fun e => e.status == EscrowStatus.active)).length = 2 :=
  (C9_escrow_records
    (show getWallet "req" sampleDB = some wReq from rfl)
    (by norm_num [wReq, sampleInput])
    (show getWallet "run" sampleDB = some wRun from rfl)
    rfl
    (by simp [sampleDB])
    (by simp [sampleDB])).1


/-- Claim C1 (corrected core).  Conservation for create→accept→complete and
create→accept→cancel, under distinct requester/runner wallets, unique wallet
ids, fresh task id, sufficient requester funds and a positive runner amount:
the completion path ends at the initial wallet total minus exactly the
commission, and the cancellation path ends at exactly the initial total. -/
theorem C1_conservation {db : DB} {r u : String} {td : TaskInput} {rw uw : Wallet}
    (reason : Option String)
    (hrw : getWallet r db = some rw) (huw : getWallet u db = some uw)
    (hb : ¬ rw.balance < td.reward_amount)
    (hne : (uw.id == rw.id) = false)
    (hue : u ≠ "")
    (hfresh : ∀ x ∈ db.tasks, x.id ≠ db.nextId)
    (hescfresh : ∀ e ∈ db.escrows, e.task_id ≠ db.nextId)
    (hnd : (db.wallets.map Wallet.id).Nodup)
    (hra : 0 < runnerAmountOf td.reward_amount db.settings.commission_percentage) :
    moneySum (completeTask db.nextId
        (acceptTask db.nextId u (createNewTask r td db).1).1).1
      = moneySum db
        - commissionAmountOf td.reward_amount db.settings.commission_percentage ∧
    moneySum (cancelTask db.nextId reason
        (acceptTask db.nextId u (createNewTask r td db).1).1).1
      = moneySum db := by
  rw [createNewTask_ok td hrw hb]
  dsimp only
  set tN : Task := newTaskOf r td db with htN
  set u1 : WalletUpdate :=
    ⟨some (rw.balance - td.reward_amount),
     some (rw.escrow_balance + td.reward_amount),
     none, some (rw.total_spent + td.reward_amount)⟩ with hu1
  set dbT : DB :=
    { db with tasks := db.tasks ++ [tN], nextId := db.nextId + 1 } with hdbT
  set eD1 : EscrowData :=
    ⟨db.nextId, r, "", td.reward_amount,
     commissionAmountOf td.reward_amount db.settings.commission_percentage,
     .active⟩ with heD1
  set xD1 : TransactionData :=
    ⟨r, .task_payment, td.reward_amount, .completed, some db.nextId⟩ with hxD1
  set dbC : DB :=
    (createEscrow eD1
      (createTransaction xD1 (setWalletDoc rw.id u1 dbT)).1).1 with hdbC
  have hrwT : rw ∈ dbT.wallets := getWallet_mem hrw
  have hCwal : dbC.wallets = (setWalletDoc rw.id u1 dbT).wallets := by
    rw [hdbC, createEscrow_wallets, createTransaction_wallets]
  have hCids : dbC.wallets.map Wallet.id = db.wallets.map Wallet.id := by
    rw [hCwal, setWalletDoc_walletIds]
  have hCnd : (dbC.wallets.map Wallet.id).Nodup := by rw [hCids]; exact hnd
  have hMC : moneySum dbC = moneySum db := by
    rw [hdbC, moneySum_createEscrow, moneySum_createTransaction,
      moneySum_setWalletDoc rw.id u1
        (show (dbT.wallets.map Wallet.id).Nodup from hnd) hrwT rfl]
    have h1 : (applyWalletUpdate rw u1).balance = rw.balance - td.reward_amount := by
      rw [hu1]; rfl
    have h2 : (applyWalletUpdate rw u1).escrow_balance
        = rw.escrow_balance + td.reward_amount := by
      rw [hu1]; rfl
    rw [h1, h2, show moneySum dbT = moneySum db from rfl]
    ring
  have htC : getTask db.nextId dbC = some tN := by
    rw [hdbC, getTask_createEscrow, getTask_createTransaction, getTask_setWalletDoc,
      hdbT, getTask_withTasksNextId]
    refine find?_append_sing _ _ _ ?_ ?_
    · intro x hx
      simp [hfresh x hx]
    · simp [htN, newTaskOf]
  have hwC : getWallet u dbC = some uw := by
    rw [hdbC, getWallet_createEscrow, getWallet_createTransaction,
      getWallet_setWalletDoc, hdbT, getWallet_withTasksNextId, huw]
    show some (if (uw.id == rw.id) = true then _ else uw) = some uw
    rw [if_neg (by simp [hne])]
  have hesc0 : getEscrowsByTaskId db.nextId dbT = [] := by
    rw [hdbT, getEscrowsByTaskId_withTasksNextId]
    exact getEscrowsByTaskId_nil hescfresh
  have hescC : getEscrowsByTaskId db.nextId dbC
      = [⟨db.nextId + 2, db.nextId, r, "", td.reward_amount,
          commissionAmountOf td.reward_amount db.settings.commission_percentage,
          .active⟩] := by
    rw [hdbC, getEscrowsByTaskId_createEscrow_match _ _ _ (by simp [heD1]),
      getEscrowsByTaskId_createTransaction, getEscrowsByTaskId_setWalletDoc, hesc0]
    rfl
  rw [acceptTask_ok htC hwC]
  dsimp only
  set u2 : WalletUpdate :=
    ⟨none, some (uw.escrow_balance + tN.runner_amount), none, none⟩ with hu2
  set eD2 : EscrowData :=
    ⟨db.nextId, tN.requester_id, u, tN.reward_amount, tN.commission_amount,
     .active⟩ with heD2
  set xD2 : TransactionData :=
    ⟨u, .escrow_hold, tN.runner_amount, .completed, some db.nextId⟩ with hxD2
  set dbM : DB := updateTaskStatus db.nextId .accepted ⟨some u, none⟩ dbC with hdbM
  set dbA : DB :=
    (createTransaction xD2 (setWalletDoc uw.id u2 (createEscrow eD2 dbM).1)).1
    with hdbA
  have hAwal : dbA.wallets = (setWalletDoc uw.id u2 dbC).wallets := by
    rw [hdbA, createTransaction_wallets]
    rw [setWalletDoc_wallets, setWalletDoc_wallets]
    rw [createEscrow_wallets, hdbM, updateTaskStatus_wallets]
  have hmemCrw : applyWalletUpdate rw u1 ∈ dbC.wallets := by
    rw [hCwal]
    exact mem_setWalletDoc_update u1 hrwT (by simp)
  have hmemCuw : uw ∈ dbC.wallets := by
    rw [hCwal]
    exact mem_setWalletDoc_of_ne u1 (getWallet_mem huw) hne
  have hAids : dbA.wallets.map Wallet.id = db.wallets.map Wallet.id := by
    rw [hAwal, setWalletDoc_walletIds, hCids]
  have hAnd : (dbA.wallets.map Wallet.id).Nodup := by rw [hAids]; exact hnd
  have hMA : moneySum dbA = moneySum db
      + runnerAmountOf td.reward_amount db.settings.commission_percentage := by
    rw [hdbA, moneySum_createTransaction,
      moneySum_setWalletDoc uw.id u2
        (show (((createEscrow eD2 dbM).1).wallets.map Wallet.id).Nodup from hCnd)
        (show uw ∈ ((createEscrow eD2 dbM).1).wallets from hmemCuw) rfl,
      moneySum_createEscrow, hdbM, moneySum_updateTaskStatus, hMC]
    have h1 : (applyWalletUpdate uw u2).balance = uw.balance := by rw [hu2]; rfl
    have h2 : (applyWalletUpdate uw u2).escrow_balance
        = uw.escrow_balance
          + runnerAmountOf td.reward_amount db.settings.commission_percentage := by
      rw [hu2, htN]; rfl
    rw [h1, h2]
    ring
  set tA : Task := applyTaskStatusUpdate tN .accepted ⟨some u, none⟩ with htA
  have htAC : getTask db.nextId dbA = some tA := by
    rw [hdbA, getTask_createTransaction, getTask_setWalletDoc, getTask_createEscrow,
      hdbM]
    exact getTask_updateTaskStatus_self htC .accepted ⟨some u, none⟩
  have hridA : tA.runner_id = some u := by rw [htA]; rfl
  have hstA : tA.status = .accepted := by rw [htA]; rfl
  have hreqA : tA.requester_id = r := by rw [htA, htN]; rfl
  have hrewA : tA.reward_amount = td.reward_amount := by rw [htA, htN]; rfl
  have hraA : tA.runner_amount
      = runnerAmountOf td.reward_amount db.settings.commission_percentage := by
    rw [htA, htN]; rfl
  set rw1 : Wallet := applyWalletUpdate rw u1 with hrw1d
  set uw2 : Wallet := applyWalletUpdate uw u2 with huw2d
  have hrwC : getWallet r dbC = some rw1 := by
    rw [hdbC, getWallet_createEscrow, getWallet_createTransaction,
      getWallet_setWalletDoc, hdbT, getWallet_withTasksNextId, hrw]
    show some (if (rw.id == rw.id) = true then _ else rw) = some rw1
    rw [if_pos (by simp), hrw1d]
  have hneA : (uw2.id == rw1.id) = false := by
    rw [huw2d, hrw1d, applyWalletUpdate_id, applyWalletUpdate_id]
    exact hne
  have hrwA : getWallet r dbA = some rw1 := by
    rw [hdbA, getWallet_createTransaction, getWallet_setWalletDoc,
      getWallet_createEscrow, hdbM, getWallet_updateTaskStatus, hrwC]
    have hc : (rw1.id == uw.id) = false := by
      rw [hrw1d, applyWalletUpdate_id]
      exact beq_symm_false hne
    show some (if (rw1.id == uw.id) = true then _ else rw1) = some rw1
    rw [if_neg (by simp [hc])]
  have hruA : getWallet u dbA = some uw2 := by
    rw [hdbA, getWallet_createTransaction, getWallet_setWalletDoc,
      getWallet_createEscrow, hdbM, getWallet_updateTaskStatus, hwC]
    show some (if (uw.id == uw.id) = true then _ else uw) = some uw2
    rw [if_pos (by simp), huw2d]
  have hrwA2 : getWallet tA.requester_id dbA = some rw1 := by
    rw [hreqA]
    exact hrwA
  have hmemArw1 : rw1 ∈ dbA.wallets := by
    rw [hAwal]
    refine mem_setWalletDoc_of_ne u2 ?_ ?_
    · rw [hrw1d]
      exact hmemCrw
    · rw [hrw1d, applyWalletUpdate_id]
      exact beq_symm_false hne
  have hmemAuw2 : uw2 ∈ dbA.wallets := by
    rw [hAwal, huw2d]
    exact mem_setWalletDoc_update u2 hmemCuw (by simp)
  have hescA : getEscrowsByTaskId db.nextId dbA
      = [⟨db.nextId + 2, db.nextId, r, "", td.reward_amount,
          commissionAmountOf td.reward_amount db.settings.commission_percentage,
          .active⟩,
         ⟨db.nextId + 3, db.nextId, tN.requester_id, u, tN.reward_amount,
          tN.commission_amount, .active⟩] := by
    rw [hdbA, getEscrowsByTaskId_createTransaction, getEscrowsByTaskId_setWalletDoc,
      getEscrowsByTaskId_createEscrow_match _ _ _ (by simp [heD2]), hdbM,
      getEscrowsByTaskId_updateTaskStatus, hescC]
    rfl
  have hrunner : runnerAmountOf td.reward_amount db.settings.commission_percentage
      = td.reward_amount
        - commissionAmountOf td.reward_amount db.settings.commission_percentage :=
    rfl
  constructor
  · -- completion path
    have hg : u ≠ "" ∧ 0 < tA.runner_amount := ⟨hue, by rw [hraA]; exact hra⟩
    rw [completeTask_ok htAC hridA hg hrwA2 hruA]
    dsimp only
    set Z1 : DB := updateTaskStatus db.nextId .completed ⟨none, none⟩ dbA with hZ1
    set Y1 : DB :=
      setWalletDoc rw1.id
        ⟨none, some (rw1.escrow_balance - tA.reward_amount), none, none⟩ Z1 with hY1
    set X1 : DB :=
      setWalletDoc uw2.id
        ⟨some (uw2.balance + tA.runner_amount),
         some (uw2.escrow_balance - tA.runner_amount),
         some (uw2.total_earned + tA.runner_amount), none⟩ Y1 with hX1
    have hndZ1 : (Z1.wallets.map Wallet.id).Nodup := by
      rw [hZ1, updateTaskStatus_wallets]
      exact hAnd
    have hmemZ1rw1 : rw1 ∈ Z1.wallets := by
      rw [hZ1, updateTaskStatus_wallets]
      exact hmemArw1
    have hmemZ1uw2 : uw2 ∈ Z1.wallets := by
      rw [hZ1, updateTaskStatus_wallets]
      exact hmemAuw2
    have hY1ids : Y1.wallets.map Wallet.id = db.wallets.map Wallet.id := by
      rw [hY1, setWalletDoc_walletIds, hZ1, updateTaskStatus_wallets, hAids]
    have hndY1 : (Y1.wallets.map Wallet.id).Nodup := by
      rw [hY1ids]
      exact hnd
    have hmemY1uw2 : uw2 ∈ Y1.wallets := by
      rw [hY1]
      exact mem_setWalletDoc_of_ne _ hmemZ1uw2 hneA
    have hMZ1 : moneySum Z1 = moneySum dbA := by rw [hZ1, moneySum_updateTaskStatus]
    have hMY1 : moneySum Y1 = moneySum dbA - tA.reward_amount := by
      rw [hY1, moneySum_setWalletDoc rw1.id _ hndZ1 hmemZ1rw1 rfl, hMZ1]
      have c1 : (applyWalletUpdate rw1
          ⟨none, some (rw1.escrow_balance - tA.reward_amount), none, none⟩).balance
          = rw1.balance := rfl
      have c2 : (applyWalletUpdate rw1
          ⟨none, some (rw1.escrow_balance - tA.reward_amount), none,
           none⟩).escrow_balance
          = rw1.escrow_balance - tA.reward_amount := rfl
      rw [c1, c2]
      ring
    have hMX1 : moneySum X1 = moneySum dbA - tA.reward_amount := by
      rw [hX1, moneySum_setWalletDoc uw2.id _ hndY1 hmemY1uw2 rfl, hMY1]
      have c1 : (applyWalletUpdate uw2
          ⟨some (uw2.balance + tA.runner_amount),
           some (uw2.escrow_balance - tA.runner_amount),
           some (uw2.total_earned + tA.runner_amount), none⟩).balance
          = uw2.balance + tA.runner_amount := rfl
      have c2 : (applyWalletUpdate uw2
          ⟨some (uw2.balance + tA.runner_amount),
           some (uw2.escrow_balance - tA.runner_amount),
           some (uw2.total_earned + tA.runner_amount), none⟩).escrow_balance
          = uw2.escrow_balance - tA.runner_amount := rfl
      rw [c1, c2]
      ring
    split
    · rw [moneySum_createTransaction, moneySum_createTransaction, hMX1, hMA, hrewA,
        hrunner]
      ring
    · rw [moneySum_updateEscrow, moneySum_createTransaction,
        moneySum_createTransaction, hMX1, hMA, hrewA, hrunner]
      ring
  · -- cancellation path
    have hg : u ≠ "" ∧ tA.status = TaskStatus.accepted := ⟨hue, hstA⟩
    rw [cancelTask_refund_ok reason htAC hridA hg hescA hrwA2 hruA hneA]
    dsimp only
    set Z2 : DB := updateTaskStatus db.nextId .cancelled ⟨none, reason⟩ dbA with hZ2
    set Y2 : DB :=
      setWalletDoc rw1.id
        ⟨some (rw1.balance + td.reward_amount),
         some (rw1.escrow_balance - td.reward_amount), none, none⟩ Z2 with hY2
    set W2 : DB :=
      (createTransaction
        ⟨tA.requester_id, .refund, td.reward_amount, .completed, some db.nextId⟩
        Y2).1 with hW2
    set X2 : DB :=
      setWalletDoc uw2.id
        ⟨none, some (uw2.escrow_balance - tA.runner_amount), none, none⟩ W2 with hX2
    have hndZ2 : (Z2.wallets.map Wallet.id).Nodup := by
      rw [hZ2, updateTaskStatus_wallets]
      exact hAnd
    have hmemZ2rw1 : rw1 ∈ Z2.wallets := by
      rw [hZ2, updateTaskStatus_wallets]
      exact hmemArw1
    have hMZ2 : moneySum Z2 = moneySum dbA := by rw [hZ2, moneySum_updateTaskStatus]
    have hMY2 : moneySum Y2 = moneySum dbA := by
      rw [hY2, moneySum_setWalletDoc rw1.id _ hndZ2 hmemZ2rw1 rfl, hMZ2]
      have c1 : (applyWalletUpdate rw1
          ⟨some (rw1.balance + td.reward_amount),
           some (rw1.escrow_balance - td.reward_amount), none, none⟩).balance
          = rw1.balance + td.reward_amount := rfl
      have c2 : (applyWalletUpdate rw1
          ⟨some (rw1.balance + td.reward_amount),
           some (rw1.escrow_balance - td.reward_amount), none, none⟩).escrow_balance
          = rw1.escrow_balance - td.reward_amount := rfl
      rw [c1, c2]
      ring
    have hW2wal : W2.wallets = Y2.wallets := by rw [hW2, createTransaction_wallets]
    have hndW2 : (W2.wallets.map Wallet.id).Nodup := by
      rw [hW2wal, hY2, setWalletDoc_walletIds, hZ2, updateTaskStatus_wallets, hAids]
      exact hnd
    have hmemW2uw2 : uw2 ∈ W2.wallets := by
      rw [hW2wal, hY2]
      refine mem_setWalletDoc_of_ne _ ?_ hneA
      rw [hZ2, updateTaskStatus_wallets]
      exact hmemAuw2
    have hMW2 : moneySum W2 = moneySum dbA := by
      rw [hW2, moneySum_createTransaction]
      exact hMY2
    have hMX2 : moneySum X2 = moneySum dbA - tA.runner_amount := by
      rw [hX2, moneySum_setWalletDoc uw2.id _ hndW2 hmemW2uw2 rfl, hMW2]
      have c1 : (applyWalletUpdate uw2
          ⟨none, some (uw2.escrow_balance - tA.runner_amount), none, none⟩).balance
          = uw2.balance := rfl
      have c2 : (applyWalletUpdate uw2
          ⟨none, some (uw2.escrow_balance - tA.runner_amount), none,
           none⟩).escrow_balance
          = uw2.escrow_balance - tA.runner_amount := rfl
      rw [c1, c2]
      ring
    rw [moneySum_updateEscrow, moneySum_createTransaction, hMX2, hMA, hraA]
    ring

/-- Claim C1, counterexample.  With `commission_percentage = 100` the
computed `runner_amount` is 0, `completeTask` skips the whole wallet block,
and the wallet total after create→accept→complete equals the initial total
6800 instead of `6800 - commission = 4800`: the completion path does not
remove the commission from circulation. -/
theorem C1_conservation_counterexample :
    commissionAmountOf sampleInput.reward_amount
        fullCommissionDB.settings.commission_percentage = 2000 ∧
    moneySum fullCommissionDB = 6800 ∧
    moneySum (completeTask 2 dbFullAfterAccept).1 = 6800 := by
  refine ⟨?_, ?_, ?_⟩
  · norm_num [commissionAmountOf, sampleInput, fullCommissionDB,
      fullCommissionSettings]
  · norm_num [moneySum, fullCommissionDB, wReq, wRun]
  · rw [dbFullAfterAccept_eq]
    norm_num [dbFullAfterAcceptVal, fullCommissionSettings, completeTask, getTask,
      getWallet, updateWallet, setWalletDoc, applyWalletUpdate, updateTaskStatus,
      applyTaskStatusUpdate, createTransaction, createEscrow, getEscrowsByTaskId,
      updateEscrow, applyEscrowUpdate, moneySum, List.find?, List.filter,
      strbeq_req_run, strbeq_run_run, strbeq_req_req, strbeq_run_req,
      strne_req_run, strne_run_req, strne_run_empty, strne_req_empty]

/-- Claim C1, witness: the corrected conservation statement at the spec
scenario (commission 10%, reward 2000). -/
theorem C1_conservation_witness :
    moneySum (completeTask sampleDB.nextId
        (acceptTask sampleDB.nextId "run"
          (createNewTask "req" sampleInput sampleDB).1).1).1
      = moneySum sampleDB
        - commissionAmountOf sampleInput.reward_amount
            sampleDB.settings.commission_percentage ∧
    moneySum (cancelTask sampleDB.nextId none
        (acceptTask sampleDB.nextId "run"
          (createNewTask "req" sampleInput sampleDB).1).1).1
      = moneySum sampleDB :=
  C1_conservation none
    (show getWallet "req" sampleDB = some wReq from rfl)
    (show getWallet "run" sampleDB = some wRun from rfl)
    (by norm_num [wReq, sampleInput])
    (show (wRun.id == wReq.id) = false from rfl)
    (by decide)
    (by simp [sampleDB])
    (by simp [sampleDB])
    (by decide)
    (by norm_num [runnerAmountOf, commissionAmountOf, sampleInput, sampleDB,
      sampleSettings])

/-- Claim C4 (corrected core).  From any state satisfying the ledger
invariant, along any sequence of core operations fired under the documented
state-machine preconditions, every wallet keeps `balance ≥ 0` and
`escrow_balance ≥ 0`. -/
theorem C4_nonneg {db db' : DB} (h : Inv db) (hr : Reach db db') :
    ∀ w ∈ db'.wallets, 0 ≤ w.balance ∧ 0 ≤ w.escrow_balance :=
  inv_nonneg (inv_reach h hr)

/-- Claim C4, counterexample.  The code itself enforces no status checks:
calling `completeTask` on the already-cancelled (and refunded) task — a
sequence of raw core operations create→accept→cancel→complete, each of
which returns ok — drives the requester's `escrow_balance` to `-2000` and
the runner's to `-1800`. -/
theorem C4_nonneg_counterexample :
    (completeTask 2 dbAfterCancel).2 = Except.ok () ∧
    getWallet "req" (completeTask 2 dbAfterCancel).1 =
      some ⟨0, "req", 5000, -2000, 0, 2000⟩ ∧
    getWallet "run" (completeTask 2 dbAfterCancel).1 =
      some ⟨1, "run", 3600, -1800, 1800, 0⟩ := by
  rw [dbAfterCancel_eq]
  norm_num [dbAfterCancelVal, sampleSettings, completeTask, getTask, getWallet,
    updateWallet, setWalletDoc, applyWalletUpdate, updateTaskStatus,
    applyTaskStatusUpdate, createTransaction, createEscrow, getEscrowsByTaskId,
    updateEscrow, applyEscrowUpdate, List.find?, List.filter,
    strbeq_req_run, strbeq_run_run, strbeq_req_req, strbeq_run_req,
    strne_req_run, strne_run_req, strne_run_empty, strne_req_empty]

/-- Claim C4, witness: one state-machine-respecting `create` step from the
spec scenario's initial state; the requester wallet in the successor state
has non-negative balance and escrow balance. -/
theorem C4_nonneg_witness :
    0 ≤ (⟨0, "req", 3000, 2000, 0, 2000⟩ : Wallet).balance ∧
    0 ≤ (⟨0, "req", 3000, 2000, 0, 2000⟩ : Wallet).escrow_balance :=
  C4_nonneg inv_sampleDB
    (Relation.ReflTransGen.single
      (LStep.create "req" sampleInput sampleDB rfl rfl
        (by norm_num [sampleInput])))
    ⟨0, "req", 3000, 2000, 0, 2000⟩
    (by
      have hval : (createNewTask "req" sampleInput sampleDB).1
          = dbAfterCreateVal := dbAfterCreate_eq
      rw [hval]
      simp [dbAfterCreateVal])

end CaraConnect
